import Mathlib

/-!
# SD/MMC over SPI block driver (`stm32_spi_sd.c`)

A shallow embedding of the driver in `src/Library/STM32F407-Discovery/stm32_spi_sd.c`.

* The serial link is a stream `rx : Nat → Nat`: `rx i` is the byte the card drives on the
  `i`-th byte exchange.  The driver is deterministic, so every reactive card behaviour is one
  such stream.  `SD_WriteByte` and `SD_ReadByte` are both one full-duplex exchange and each
  consumes one stream position.
* Everything the driver does at the byte-transport boundary is appended, in order, to a log of
  events (`Ev`): bytes written, bytes read, chip-select edges and delay requests.  The log also
  carries one marker `Ev.cmd Cmd Arg` per call of `send_cmd`, recorded on entry with the
  arguments as passed.
* The two file-scope variables `Stat` and `CardType` are fields of the state.
* Machine integers are `Nat` with explicit truncation where the C type truncates.
* A buffer the driver reads from is a memory `buff : Nat → Nat` with an offset; a buffer it
  fills is returned as the list of the bytes stored, in address order from the pointer passed.
* In the statements a command is called, sent or issued when `send_cmd` is entered with it
  (`cmdsOf` lists these calls); a byte is written when it is driven on the link (`writtenOf`
  lists these bytes).  `written_send_cmd_frame` relates the two: a call writes its six frame
  bytes when the card select inside `send_cmd` succeeds and nothing when it times out.

The definitions come first, then the lemmas, then one section per claim.
-/

namespace SpiSd

/-! ## Constants -/

/-- `CT_MMC` (line 52). -/
def CT_MMC : Nat := 0x01
/-- `CT_SD1` (line 53). -/
def CT_SD1 : Nat := 0x02
/-- `CT_SD2` (line 54). -/
def CT_SD2 : Nat := 0x04
/-- `CT_SDC` (line 55). -/
def CT_SDC : Nat := CT_SD1 ||| CT_SD2
/-- `CT_BLOCK` (line 56). -/
def CT_BLOCK : Nat := 0x08
/-- `INS` (line 58): the card is configured as inserted. -/
def INS : Nat := 1
/-- `WP` (line 59): the card is configured as not write protected. -/
def WP : Nat := 0

/-- Modelled from the spec: the header `stm32_spi_sd.h` (with the FatFs `diskio.h`
declarations) is not among the sources.  `DiskStatus` is a set of three distinct bit flags;
the values are the FatFs ones.  This one is NotInitialized. -/
def STA_NOINIT : Nat := 0x01
/-- Modelled from the spec: the NoMedia flag of `DiskStatus` (header missing). -/
def STA_NODISK : Nat := 0x02
/-- Modelled from the spec: the WriteProtected flag of `DiskStatus` (header missing). -/
def STA_PROTECT : Nat := 0x04

/-- Modelled from the spec: result codes {Ok, Error, WriteProtected, NotReady,
InvalidParameter} of the block device boundary (the enum is declared in the missing header). -/
inductive DRESULT where
  | RES_OK
  | RES_ERROR
  | RES_WRPRT
  | RES_NOTRDY
  | RES_PARERR
  deriving DecidableEq, Repr

open DRESULT

/-- Modelled from the spec: opcode GO_IDLE_STATE = 0 (header missing). -/
def SD_CMD_GO_IDLE_STATE : Nat := 0
/-- Modelled from the spec: opcode SEND_OP_COND (MMC) = 1 (header missing). -/
def SD_CMD_SEND_OP_COND : Nat := 1
/-- Modelled from the spec: opcode SEND_IF_COND = 8 (header missing). -/
def SD_CMD_SEND_IF_COND : Nat := 8
/-- Modelled from the spec: opcode SEND_CSD = 9 (header missing). -/
def SD_CMD_SEND_CSD : Nat := 9
/-- Modelled from the spec: opcode STOP_TRANSMISSION = 12 (header missing). -/
def SD_CMD_STOP_TRANSMISSION : Nat := 12
/-- Modelled from the spec: opcode SET_BLOCKLEN = 16 (header missing). -/
def SD_CMD_SET_BLOCKLEN : Nat := 16
/-- Modelled from the spec: opcode READ_SINGLE_BLOCK = 17 (header missing). -/
def SD_CMD_READ_SINGLE_BLOCK : Nat := 17
/-- Modelled from the spec: opcode READ_MULTIPLE_BLOCK = 18 (header missing). -/
def SD_CMD_READ_MULT_BLOCK : Nat := 18
/-- Modelled from the spec: opcode WRITE_SINGLE_BLOCK = 24 (header missing). -/
def SD_CMD_WRITE_SINGLE_BLOCK : Nat := 24
/-- Modelled from the spec: opcode WRITE_MULTIPLE_BLOCK = 25 (header missing). -/
def SD_CMD_WRITE_MULT_BLOCK : Nat := 25
/-- Modelled from the spec: opcode APP_CMD = 55 (header missing). -/
def SD_CMD55 : Nat := 55
/-- Modelled from the spec: opcode READ_OCR = 58 (header missing). -/
def SD_CMD58 : Nat := 58
/-- Modelled from the spec: application command SD_SEND_OP_COND = 41, carrying the
application-command marker `0x80` that `send_cmd` tests (header missing). -/
def SD_ACMD41 : Nat := 0x80 + 41
/-- Modelled from the spec: application command SET_WR_BLOCK_ERASE_COUNT = 23, carrying the
application-command marker `0x80` (header missing). -/
def SD_ACMD23 : Nat := 0x80 + 23

/-- Modelled from the spec: control code Sync of `ioctl` (FatFs value; header missing). -/
def CTRL_SYNC : Nat := 0
/-- Modelled from the spec: control code GetSectorCount of `ioctl` (FatFs value; header
missing). -/
def GET_SECTOR_COUNT : Nat := 1
/-- Modelled from the spec: control code GetBlockSize of `ioctl` (FatFs value; header
missing). -/
def GET_BLOCK_SIZE : Nat := 3

/-! ## State -/

/-- What the driver does at the byte-transport boundary, plus the call marker of `send_cmd`. -/
inductive Ev where
  /-- `SD_WriteByte(b)`: the byte `b` is driven on the link. -/
  | wr (b : Nat)
  /-- `SD_ReadByte()` returned `b` (the host clocks a fill byte). -/
  | rd (b : Nat)
  /-- `SD_CS_LOW()`. -/
  | csLow
  /-- `SD_CS_HIGH()`. -/
  | csHigh
  /-- `delay_ms(ms)`. -/
  | delay (ms : Nat)
  /-- `send_cmd(c, a)` was entered. -/
  | cmd (c a : Nat)
  deriving DecidableEq, Repr

/-- The link, the log of what happened on it, and the driver's two file-scope variables. -/
structure Sd where
  /-- The byte the card drives on exchange number `i`. -/
  rx : Nat → Nat
  /-- Number of byte exchanges made so far. -/
  pos : Nat
  /-- Chip-select level: `true` is high (deasserted). -/
  cs : Bool
  /-- Events so far, oldest first. -/
  log : List Ev
  /-- `static DSTATUS Stat` (line 62). -/
  Stat : Nat
  /-- `static BYTE CardType` (line 64). -/
  CardType : Nat

/-! ## Byte transport -/

/-- `SD_WriteByte` (lines 401-416): one exchange; the byte received meanwhile is returned.
The two flag-polling loops wait for the peripheral and are taken to complete. -/
def SD_WriteByte (Data : Nat) (s : Sd) : Nat × Sd :=
  (s.rx s.pos % 256, { s with pos := s.pos + 1, log := s.log ++ [Ev.wr (Data % 256)] })

/-- `SD_ReadByte` (lines 423-441): one exchange clocking the fill byte. -/
def SD_ReadByte (s : Sd) : Nat × Sd :=
  (s.rx s.pos % 256, { s with pos := s.pos + 1, log := s.log ++ [Ev.rd (s.rx s.pos % 256)] })

/-- `SD_CS_HIGH()` (macro of the missing header): chip-select deasserted. -/
def SD_CS_HIGH (s : Sd) : Sd := { s with cs := true, log := s.log ++ [Ev.csHigh] }

/-- `SD_CS_LOW()` (macro of the missing header): chip-select asserted. -/
def SD_CS_LOW (s : Sd) : Sd := { s with cs := false, log := s.log ++ [Ev.csLow] }

/-- `delay_ms` of `systick.h` (not among the sources): the request is logged. -/
def delay_ms (n : Nat) (s : Sd) : Sd := { s with log := s.log ++ [Ev.delay n] }

/-- `dly_us` (lines 113-121). -/
def dly_us (n : Nat) (s : Sd) : Sd := delay_ms (n / 100) s

/-- `SD_SPI_Init` (lines 165-228) configures clocks, pins and the SPI peripheral; it exchanges
no byte and is outside the embedding. -/
def SD_SPI_Init (s : Sd) : Sd := s

/-- The body of the `do ... while (--bc)` of `rcvr_mmc`, run `n` times; the bytes are returned
in the order in which they are stored at `buff`, `buff + 1`, ... -/
def rcvr_mmc_loop : Nat → Sd → List Nat × Sd
  | 0, s => ([], s)
  | n + 1, s =>
    let r := SD_ReadByte s
    let rest := rcvr_mmc_loop n r.2
    (r.1 :: rest.1, rest.2)

/-- `rcvr_mmc` (lines 84-94).  The loop tests `--bc` after the body, so `bc = 0` wraps and
runs `2^32` times. -/
def rcvr_mmc (bc : Nat) (s : Sd) : List Nat × Sd :=
  rcvr_mmc_loop (if bc = 0 then 2 ^ 32 else bc) s

/-- The body of the `do ... while (--bc)` of `xmit_mmc`, run `n` times from offset `p` of the
memory `buff`. -/
def xmit_mmc_loop (buff : Nat → Nat) : Nat → Nat → Sd → Sd
  | _, 0, s => s
  | p, n + 1, s => xmit_mmc_loop buff (p + 1) n (SD_WriteByte (buff p) s).2

/-- `xmit_mmc` (lines 99-110); `buff p` is the byte at `buff[p]`. -/
def xmit_mmc (buff : Nat → Nat) (p bc : Nat) (s : Sd) : Sd :=
  xmit_mmc_loop buff p (if bc = 0 then 2 ^ 32 else bc) s

/-! ## Ready wait, select, deselect -/

/-- The `for (tmr = ...; tmr; tmr--)` loop of `wait_ready` (lines 304-309); returns `tmr`
at exit. -/
def wait_ready_loop : Nat → Sd → Nat × Sd
  | 0, s => (0, s)
  | tmr + 1, s =>
    let r := SD_ReadByte s
    if r.1 = 0xFF then (tmr + 1, r.2) else wait_ready_loop tmr (dly_us 100 r.2)

/-- `wait_ready` (lines 298-312): `true` is 1 (ready), `false` is 0 (timeout). -/
def wait_ready (s : Sd) : Bool × Sd :=
  let r := wait_ready_loop 5000 s
  (r.1 != 0, r.2)

/-- `deselect` (lines 317-321). -/
def deselect (s : Sd) : Sd := (SD_ReadByte (SD_CS_HIGH s)).2

/-- `select` (lines 326-335). -/
def select (s : Sd) : Bool × Sd :=
  let w := wait_ready (SD_ReadByte (SD_CS_LOW s)).2
  if w.1 then (true, w.2) else (false, deselect w.2)

/-! ## Command protocol -/

/-- The six bytes `Frame[0..5]` built at lines 366-377 (`Cmd` already without the marker).
The trailer starts as `0x01`, becomes `0x95` for GO_IDLE_STATE and then `0x87` for
SEND_IF_COND, the later assignment winning. -/
def cmdFrame (Cmd Arg : Nat) : List Nat :=
  [ (Cmd ||| 0x40) % 256,
    (Arg >>> 24) % 256,
    (Arg >>> 16) % 256,
    (Arg >>> 8) % 256,
    Arg % 256,
    if Cmd = SD_CMD_SEND_IF_COND then 0x87
    else (if Cmd = SD_CMD_GO_IDLE_STATE then 0x95 else 0x01) ]

/-- The `for (i = 0; i < 6; i++) SD_WriteByte(Frame[i])` loop (lines 379-381). -/
def xmit_frame : List Nat → Sd → Sd
  | [], s => s
  | b :: bs, s => xmit_frame bs (SD_WriteByte b s).2

/-- The response poll `do d = SD_ReadByte(); while ((d & 0x80) && --i)` (lines 387-389) with
the counter at `i`; `send_cmd` enters it with `i = 10`. -/
def resp_loop : Nat → Sd → Nat × Sd
  | 0, s => SD_ReadByte s
  | i + 1, s =>
    let r := SD_ReadByte s
    if r.1 &&& 0x80 ≠ 0 ∧ i ≠ 0 then resp_loop i r.2 else r

/-- Lines 360-391 of `send_cmd`: select, frame, response (`Cmd` without the marker). -/
def send_cmd_frame (Cmd Arg : Nat) (s : Sd) : Nat × Sd :=
  let sel := select (deselect s)
  if !sel.1 then (0xFF, sel.2)
  else
    let s1 := xmit_frame (cmdFrame Cmd Arg) sel.2
    let s2 := if Cmd = SD_CMD_STOP_TRANSMISSION then (SD_ReadByte s1).2 else s1
    resp_loop 10 s2

/-- `send_cmd` (lines 346-392).  The recursive call is `send_cmd(SD_CMD55, 0)`, whose opcode
has no marker, so it is the call marker followed by lines 360-391. -/
def send_cmd (Cmd Arg : Nat) (s : Sd) : Nat × Sd :=
  let s0 := { s with log := s.log ++ [Ev.cmd Cmd Arg] }
  if Cmd &&& 0x80 ≠ 0 then
    let r := send_cmd_frame SD_CMD55 0 { s0 with log := s0.log ++ [Ev.cmd SD_CMD55 0] }
    if r.1 > 1 then r else send_cmd_frame (Cmd &&& 0x7F) Arg r.2
  else send_cmd_frame Cmd Arg s0

/-! ## Block transfer -/

/-- The token wait of `rcvr_datablock` (lines 249-254); returns `d[0]` at exit.  The second
argument is the value of `d[0]` before the iteration. -/
def token_loop : Nat → Nat → Sd → Nat × Sd
  | 0, d0, s => (d0, s)
  | tmr + 1, _, s =>
    let r := rcvr_mmc 1 s
    if r.1.headD 0 ≠ 0xFF then (r.1.headD 0, r.2) else token_loop tmr (r.1.headD 0) (dly_us 100 r.2)

/-- `rcvr_datablock` (lines 240-262): success flag, the bytes stored at `buff`, new state.
`d[0]` is not initialised before the loop; the loop runs at least once and overwrites it. -/
def rcvr_datablock (btr : Nat) (s : Sd) : Bool × List Nat × Sd :=
  let t := token_loop 1000 0 s
  if t.1 ≠ 0xFE then (false, [], t.2)
  else
    let d := rcvr_mmc btr t.2
    let c := rcvr_mmc 2 d.2
    (true, d.1, c.2)

/-- `xmit_datablock` (lines 269-290); the block is `buff[p .. p+511]`. -/
def xmit_datablock (buff : Nat → Nat) (p : Nat) (token : Nat) (s : Sd) : Bool × Sd :=
  let w := wait_ready s
  if !w.1 then (false, w.2)
  else
    let s1 := xmit_mmc (fun _ => token % 256) 0 1 w.2
    if token % 256 ≠ 0xFD then
      let s2 := xmit_mmc buff p 512 s1
      let c := rcvr_mmc 2 s2
      let r := rcvr_mmc 1 c.2
      if r.1.headD 0 &&& 0x1F ≠ 0x05 then (false, r.2) else (true, r.2)
    else (true, s1)

/-! ## Block device interface -/

/-- `disk_status` (lines 446-471). -/
def disk_status (drv : Nat) (s : Sd) : Nat × Sd :=
  if drv ≠ 0 ∨ INS = 0 then
    (STA_NODISK ||| STA_NOINIT, { s with Stat := STA_NODISK ||| STA_NOINIT })
  else
    let st := s.Stat &&& (0xFF ^^^ STA_NODISK)
    let st := if WP ≠ 0 then st ||| STA_PROTECT else st &&& (0xFF ^^^ STA_PROTECT)
    if st &&& STA_NOINIT = 0 then
      let r := send_cmd SD_CMD58 0 s
      let st := if r.1 ≠ 0 then st ||| STA_NOINIT else st
      let s1 := SD_CS_HIGH (rcvr_mmc 4 r.2).2
      (st, { s1 with Stat := st })
    else (st, { s with Stat := st })

/-- The ten `rcvr_mmc(buf, 1)` of lines 491-492. -/
def dummy_clocks : Nat → Sd → Sd
  | 0, s => s
  | n + 1, s => dummy_clocks n (rcvr_mmc 1 s).2

/-- The idle-exit loops of disk_initialize (lines 501-505 and 519-523), which differ only
in the command and argument; returns `tmr` at exit. -/
def idle_loop (cmd arg : Nat) : Nat → Sd → Nat × Sd
  | 0, s => (0, s)
  | tmr + 1, s =>
    let r := send_cmd cmd arg s
    if r.1 = 0 then (tmr + 1, r.2) else idle_loop cmd arg tmr (dly_us 1000 r.2)

/-- Lines 498-510 of disk_initialize: the branch taken when SEND_IF_COND returned 1.
Returns `ty`. -/
def detect_v2 (s : Sd) : Nat × Sd :=
  let e := rcvr_mmc 4 s
  if e.1.getD 2 0 = 0x01 ∧ e.1.getD 3 0 = 0xAA then
    let l := idle_loop SD_ACMD41 (1 <<< 30) 1000 e.2
    if l.1 ≠ 0 then
      let r := send_cmd SD_CMD58 0 l.2
      if r.1 = 0 then
        let o := rcvr_mmc 4 r.2
        (if o.1.getD 0 0 &&& 0x40 ≠ 0 then CT_SD2 ||| CT_BLOCK else CT_SD2, o.2)
      else (0, r.2)
    else (0, l.2)
  else (0, e.2)

/-- Lines 512-525 of disk_initialize: the branch taken when SEND_IF_COND did not return 1.
Returns `ty`. -/
def detect_v1 (s : Sd) : Nat × Sd :=
  let p := send_cmd SD_ACMD41 0 s
  let ty := if p.1 ≤ 1 then CT_SD1 else CT_MMC
  let cmd := if p.1 ≤ 1 then SD_ACMD41 else SD_CMD_SEND_OP_COND
  let l := idle_loop cmd 0 1000 p.2
  if l.1 = 0 then (0, l.2)
  else
    let b := send_cmd SD_CMD_SET_BLOCKLEN 512 l.2
    if b.1 ≠ 0 then (0, b.2) else (ty, b.2)

/-- Lines 494-527 of disk_initialize: card type detection.  Returns `ty`. -/
def detect (s : Sd) : Nat × Sd :=
  let r0 := send_cmd SD_CMD_GO_IDLE_STATE 0 s
  if r0.1 = 1 then
    let r8 := send_cmd SD_CMD_SEND_IF_COND 0x1AA r0.2
    if r8.1 = 1 then detect_v2 r8.2 else detect_v1 r8.2
  else (0, r0.2)

/-- Lines 490-492 of disk_initialize: chip-select high and ten dummy byte reads. -/
def power_up (s : Sd) : Sd := dummy_clocks 10 (SD_CS_HIGH s)

/-- The function disk_initialize (lines 476-558). -/
def disk_initialize (drv : Nat) (s : Sd) : Nat × Sd :=
  let st := disk_status drv (SD_SPI_Init s)
  if st.1 &&& STA_NODISK ≠ 0 then st
  else
    let d := detect (power_up st.2)
    let sv := if d.1 ≠ 0 then st.1 &&& (0xFF ^^^ STA_NOINIT) else st.1 ||| STA_NOINIT
    (sv, deselect { d.2 with CardType := d.1, Stat := sv })

/-- The sector to address conversion of `disk_read` and `disk_write` (lines 579-580 and
622-623); `sector` is a `DWORD`, so the product is truncated to 32 bits. -/
def rw_address (cardType sector : Nat) : Nat :=
  if cardType &&& CT_BLOCK = 0 then (sector * 512) % 2 ^ 32 else sector

/-- The multiple block receive loop of `disk_read` (lines 588-592), entered with
`count ≥ 2`: `count` at exit, the bytes stored from `buff` on, new state. -/
def read_blocks : Nat → Sd → Nat × List Nat × Sd
  | 0, s => (0, [], s)
  | n + 1, s =>
    let r := rcvr_datablock 512 s
    if r.1 then
      let rest := read_blocks n r.2.2
      (rest.1, r.2.1 ++ rest.2.1, rest.2.2)
    else (n + 1, [], r.2.2)

/-- `disk_read` (lines 565-599): result, the bytes stored from `buff` on, new state. -/
def disk_read (drv sector count : Nat) (s : Sd) : DRESULT × List Nat × Sd :=
  let st := disk_status drv s
  if st.1 &&& STA_NOINIT ≠ 0 then (RES_NOTRDY, [], st.2)
  else if count = 0 then (RES_PARERR, [], st.2)
  else
    let addr := rw_address st.2.CardType sector
    if count = 1 then
      let c := send_cmd SD_CMD_READ_SINGLE_BLOCK addr st.2
      if c.1 = 0 then
        let b := rcvr_datablock 512 c.2
        (if b.1 then RES_OK else RES_ERROR, b.2.1, deselect b.2.2)
      else (RES_ERROR, [], deselect c.2)
    else
      let c := send_cmd SD_CMD_READ_MULT_BLOCK addr st.2
      if c.1 = 0 then
        let l := read_blocks count c.2
        let e := send_cmd SD_CMD_STOP_TRANSMISSION 0 l.2.2
        (if l.1 ≠ 0 then RES_ERROR else RES_OK, l.2.1, deselect e.2)
      else (RES_ERROR, [], deselect c.2)

/-- The multiple block transmit loop of `disk_write` (lines 633-637), entered with
`count ≥ 2`; the chunk sent in an iteration starts at offset `p` of `buff`.  Returns `count`
at exit. -/
def write_blocks (buff : Nat → Nat) : Nat → Nat → Sd → Nat × Sd
  | _, 0, s => (0, s)
  | p, n + 1, s =>
    let r := xmit_datablock buff p 0xFC s
    if r.1 then write_blocks buff (p + 512) n r.2 else (n + 1, r.2)

/-- `disk_write` (lines 606-645). -/
def disk_write (drv : Nat) (buff : Nat → Nat) (sector count : Nat) (s : Sd) : DRESULT × Sd :=
  let st := disk_status drv s
  if st.1 &&& STA_NOINIT ≠ 0 then (RES_NOTRDY, st.2)
  else if st.1 &&& STA_PROTECT ≠ 0 then (RES_WRPRT, st.2)
  else if count = 0 then (RES_PARERR, st.2)
  else
    let addr := rw_address st.2.CardType sector
    if count = 1 then
      let c := send_cmd SD_CMD_WRITE_SINGLE_BLOCK addr st.2
      if c.1 = 0 then
        let b := xmit_datablock buff 0 0xFE c.2
        (if b.1 then RES_OK else RES_ERROR, deselect b.2)
      else (RES_ERROR, deselect c.2)
    else
      let s1 := if st.2.CardType &&& CT_SDC ≠ 0 then (send_cmd SD_ACMD23 count st.2).2 else st.2
      let c := send_cmd SD_CMD_WRITE_MULT_BLOCK addr s1
      if c.1 = 0 then
        let l := write_blocks buff 0 count c.2
        let e := xmit_datablock buff 0 0xFD l.2
        (if (if e.1 then l.1 else 1) ≠ 0 then RES_ERROR else RES_OK, deselect e.2)
      else (RES_ERROR, deselect c.2)

/-- The sector count computed from the CSD at lines 676-683.  `cs` is a 16-bit `WORD`, `n` a
`BYTE`, the result a 32-bit `DWORD`.  For `n < 9` the C shift count is negative, which C
leaves undefined: `none`. -/
def sector_count (csd : List Nat) : Option Nat :=
  if csd.getD 0 0 >>> 6 = 1 then
    let cs := (csd.getD 9 0 + (csd.getD 8 0 <<< 8) + 1) % 65536
    some ((cs <<< 10) % 2 ^ 32)
  else
    let n := ((csd.getD 5 0 &&& 15) + ((csd.getD 10 0 &&& 128) >>> 7)
      + ((csd.getD 9 0 &&& 3) <<< 1) + 2) % 256
    let cs := ((csd.getD 8 0 >>> 6) + (csd.getD 7 0 <<< 2)
      + ((csd.getD 6 0 &&& 3) <<< 10) + 1) % 65536
    if n < 9 then none else some ((cs <<< (n - 9)) % 2 ^ 32)

/-- `disk_ioctl` (lines 652-700): result, the `DWORD` stored at `buff` if any, new state. -/
def disk_ioctl (drv ctrl : Nat) (s : Sd) : DRESULT × Option Nat × Sd :=
  let st := disk_status drv s
  if st.1 &&& STA_NOINIT ≠ 0 then (RES_NOTRDY, none, st.2)
  else if ctrl = CTRL_SYNC then
    let sel := select st.2
    if sel.1 then (RES_OK, none, deselect (deselect sel.2))
    else (RES_ERROR, none, deselect sel.2)
  else if ctrl = GET_SECTOR_COUNT then
    let c := send_cmd SD_CMD_SEND_CSD 0 st.2
    if c.1 = 0 then
      let b := rcvr_datablock 16 c.2
      if b.1 then (RES_OK, sector_count b.2.1, deselect b.2.2)
      else (RES_ERROR, none, deselect b.2.2)
    else (RES_ERROR, none, deselect c.2)
  else if ctrl = GET_BLOCK_SIZE then (RES_OK, some 128, deselect st.2)
  else (RES_PARERR, none, deselect st.2)

/-! ## Projections of the log and auxiliary definitions for the statements -/

/-- The calls of `send_cmd` recorded in a log, oldest first. -/
def cmdsOf : List Ev → List (Nat × Nat)
  | [] => []
  | Ev.cmd c a :: l => (c, a) :: cmdsOf l
  | _ :: l => cmdsOf l

/-- The bytes written to the link (`SD_WriteByte`) recorded in a log, oldest first. -/
def writtenOf : List Ev → List Nat
  | [] => []
  | Ev.wr b :: l => b :: writtenOf l
  | _ :: l => writtenOf l

/-- `t` is reached from `s` by link activity alone: same stream, same driver variables, no
call of `send_cmd`. -/
structure Quiet (s t : Sd) : Prop where
  rx : t.rx = s.rx
  Stat : t.Stat = s.Stat
  CardType : t.CardType = s.CardType
  cmds : cmdsOf t.log = cmdsOf s.log


/-- `t` is reached from `s` with the stream and the driver's two variables unchanged. -/
structure Keeps (s t : Sd) : Prop where
  rx : t.rx = s.rx
  Stat : t.Stat = s.Stat
  CardType : t.CardType = s.CardType

/-- The list `l` repeated `k` times. -/
def times {α : Type} : Nat → List α → List α
  | 0, _ => []
  | k + 1, l => l ++ times k l

/-- The call markers one `send_cmd(c, a)` leaves in the log: its own, and that of the nested
`send_cmd(SD_CMD55, 0)` when `c` carries the application-command marker. -/
def callsOf (c a : Nat) : List (Nat × Nat) :=
  (c, a) :: (if c &&& 0x80 ≠ 0 then [(SD_CMD55, 0)] else [])

/-- The state after `k` iterations of an idle-exit loop of disk_initialize in which the
command was not answered 0: each is `send_cmd(cmd, arg)` followed by `dly_us(1000)`. -/
def idle_retry (cmd arg : Nat) : Nat → Sd → Sd
  | 0, s => s
  | k + 1, s => idle_retry cmd arg k (dly_us 1000 (send_cmd cmd arg s).2)

/-- The `j`-th byte the link returns from state `s` on. -/
def byteAt (s : Sd) (j : Nat) : Nat := s.rx (s.pos + j) % 256

/-- The value of `s` in `disk_status(0)` before the liveness check (lines 456-460): `Stat`
with NoMedia and, as `WP` is 0, WriteProtected cleared. -/
def status0 (s : Sd) : Nat := (s.Stat &&& (0xFF ^^^ STA_NODISK)) &&& (0xFF ^^^ STA_PROTECT)

/-! ## Concrete links -/

/-- The stream that is `0xFF` everywhere except at the listed positions. -/
def linkOf (l : List (Nat × Nat)) : Nat → Nat := fun i => (l.lookup i).getD 0xFF

/-- A session that starts at stream position 0 with chip-select high and an empty log. -/
def startAt (rx : Nat → Nat) (stat cardType : Nat) : Sd :=
  { rx := rx, pos := 0, cs := true, log := [], Stat := stat, CardType := cardType }

/-- A high-capacity SD version 2 card at power-up: GO_IDLE_STATE and SEND_IF_COND answered 1
(echo `01 AA`), APP_CMD answered 1, the first ACMD41 answered 0, READ_OCR answered 0 with
the capacity bit set in the first OCR byte. -/
def cardV2 : Sd :=
  startAt (linkOf [(19, 1), (29, 1), (32, 1), (33, 0xAA), (43, 1), (53, 0), (63, 0), (64, 0x40)])
    STA_NOINIT 0

/-- Every call of `send_cmd` made between `s` and `t` satisfies `P`. -/
def CallsIn (P : Nat × Nat → Prop) (s t : Sd) : Prop :=
  ∃ seg, cmdsOf t.log = cmdsOf s.log ++ seg ∧ ∀ ca ∈ seg, P ca

/-- From state `s` on the link returns only `0xFF` (nothing drives the line). -/
def Floating (s : Sd) : Prop := ∀ i, s.pos ≤ i → s.rx i % 256 = 0xFF

/-- A card that answers GO_IDLE_STATE with 1 and then nothing at all. -/
def cardMute : Sd := startAt (linkOf [(19, 1)]) STA_NOINIT 0

/-- An SD version 1 card at power-up: GO_IDLE_STATE answered 1, SEND_IF_COND answered 5
(illegal command), the probe ACMD41 answered 1 (APP_CMD answered 1), the first ACMD41 of the
loop answered 0, SET_BLOCKLEN answered 0. -/
def cardV1 : Sd :=
  startAt (linkOf [(19, 1), (29, 5), (39, 1), (49, 1), (59, 1), (69, 0), (79, 0)]) STA_NOINIT 0

/-- The state `s` after `n` more byte exchanges that appended the events `evs` to the log. -/
def advance (s : Sd) (n : Nat) (evs : List Ev) : Sd :=
  { s with pos := s.pos + n, log := s.log ++ evs }

/-- The 512 bytes `buff[p .. p+511]`, as `xmit_mmc` sends them. -/
def payload (buff : Nat → Nat) (p : Nat) : List Nat :=
  (List.range 512).map (fun i => buff (p + i) % 256)

/-- An initialised byte-addressed SD version 1 card that answers the first command it gets
(the READ_OCR of the status check) with 0 and nothing after that. -/
def cardLive : Sd := startAt (linkOf [(9, 0)]) 0 CT_SD1

/-- The state after `i` consecutive `rcvr_datablock(buff, 512)` from `s`. -/
def block_state : Nat → Sd → Sd
  | 0, s => s
  | i + 1, s => block_state i (rcvr_datablock 512 s).2.2

/-- The bytes stored by `i` consecutive `rcvr_datablock(buff, 512)` from `s`, block after
block. -/
def blocks_data : Nat → Sd → List Nat
  | 0, _ => []
  | i + 1, s => (rcvr_datablock 512 s).2.1 ++ blocks_data i (rcvr_datablock 512 s).2.2

/-- An initialised block-addressed card that answers the status check and the read command
with 0 and then sends two data blocks, each opened by the start token `0xFE`. -/
def cardTwoBlocks : Sd :=
  startAt (linkOf [(9, 0), (23, 0), (24, 0xFE), (539, 0xFE)]) 0 (CT_SD2 ||| CT_BLOCK)

/-- The state after `j` consecutive `xmit_datablock(buff, 0xFC)` from `s`, the first chunk
being `buff[p .. p+511]` and each next one 512 bytes further. -/
def chunk_state (buff : Nat → Nat) : Nat → Nat → Sd → Sd
  | _, 0, s => s
  | p, j + 1, s => chunk_state buff (p + 512) j (xmit_datablock buff p 0xFC s).2

/-- The bytes of `j` data packets of a multiple block write: each is the token `0xFC`
followed by the 512 bytes of a chunk, the first chunk at offset `p`. -/
def chunks_bytes (buff : Nat → Nat) : Nat → Nat → List Nat
  | _, 0 => []
  | p, j + 1 => (0xFC :: payload buff p) ++ chunks_bytes buff (p + 512) j

/-- An initialised MMC card that answers the status check and WRITE_MULTIPLE_BLOCK with 0,
answers the first data packet with the data-response `0x0D` (write error) and from then on
holds the line at 0 (busy). -/
def cardBusy : Sd :=
  startAt (fun i => if i ≤ 540 then linkOf [(9, 0), (23, 0), (540, 0x0D)] i else 0) 0 CT_MMC

/-- An initialised block-addressed SD card in a three-block write: the status check, both
commands of ACMD23 and WRITE_MULTIPLE_BLOCK are answered (0, 1, 0, 0), the first data packet
gets the data-response `0xE5` (accepted), the second `0x0B` (rejected, CRC error); the card
is ready whenever it is waited for. -/
def cardRejectSecond : Sd :=
  startAt (linkOf [(9, 0), (23, 1), (33, 0), (43, 0), (560, 0xE5), (1077, 0x0B)]) 0
    (CT_SD2 ||| CT_BLOCK)

/-! ## Capacity computation of GET_SECTOR_COUNT -/

/-- Version bits of a CSD: the top two bits of byte 0 (`csd[0] >> 6`, line 675). -/
def csd_version (csd : List Nat) : Nat := csd.getD 0 0 >>> 6

/-- The value stored by the branch of line 675 ("SDC ver 2.00", lines 676-677): `cs` is a
16-bit WORD, the stored count a 32-bit DWORD. -/
def sector_count_v2 (csd : List Nat) : Nat :=
  let cs := (csd.getD 9 0 + (csd.getD 8 0 <<< 8) + 1) % 65536
  (cs <<< 10) % 2 ^ 32

/-- The value stored by the other branch ("SDC ver 1.XX or MMC", lines 679-681): `n` is a
BYTE, `cs` a WORD; the shift `cs << (n - 9)` has no defined value for `n < 9`. -/
def sector_count_v1 (csd : List Nat) : Option Nat :=
  let n := ((csd.getD 5 0 &&& 15) + ((csd.getD 10 0 &&& 128) >>> 7)
    + ((csd.getD 9 0 &&& 3) <<< 1) + 2) % 256
  let cs := ((csd.getD 8 0 >>> 6) + (csd.getD 7 0 <<< 2)
    + ((csd.getD 6 0 &&& 3) <<< 10) + 1) % 65536
  if n < 9 then none else some ((cs <<< (n - 9)) % 2 ^ 32)

/-- Version-2 formula as the specification states it, over the integers:
`(csd[9] + (csd[8]<<8) + 1) << 10`. -/
def spec_v2_count (csd : List Nat) : Nat :=
  (csd.getD 9 0 + (csd.getD 8 0 <<< 8) + 1) <<< 10

/-- Exponent of the version-1/MMC formula, over the integers. -/
def spec_v1_exponent (csd : List Nat) : Nat :=
  (csd.getD 5 0 &&& 15) + ((csd.getD 10 0 &&& 128) >>> 7) + ((csd.getD 9 0 &&& 3) <<< 1) + 2

/-- The value `cSize` of the version-1/MMC formula, over the integers. -/
def spec_v1_csize (csd : List Nat) : Nat :=
  (csd.getD 8 0 >>> 6) + (csd.getD 7 0 <<< 2) + ((csd.getD 6 0 &&& 3) <<< 10) + 1

/-- An initialised card that answers the status check and SEND_CSD with 0 and then sends
the start token `0xFE` followed by the 16 bytes `csd`. -/
def cardCsd (csd : List Nat) : Sd :=
  startAt (fun i => if 25 ≤ i ∧ i < 41 then csd.getD (i - 25) 0
    else linkOf [(9, 0), (23, 0), (24, 0xFE)] i) 0 CT_SD2

/-- A CSD with version bits 2, READ_BL_LEN 9 and all other fields 0. -/
def csdVersionTwo : List Nat := [0x80, 0, 0, 0, 0, 9, 0, 0, 0, 0, 0, 0, 0, 0, 0, 0]

/-- A CSD with version bits 1 whose bytes 8 and 9 are both `0xFF`. -/
def csdFull : List Nat := [0x40, 0, 0, 0, 0, 0, 0, 0, 0xFF, 0xFF, 0, 0, 0, 0, 0, 0]

/-- A version-1 CSD with READ_BL_LEN 9, C_SIZE 4095 and C_SIZE_MULT 7. -/
def csdV1 : List Nat := [0, 0, 0, 0, 0, 9, 3, 0xFF, 0xC0, 3, 0x80, 0, 0, 0, 0, 0]

/-! ## Chip-select at the end of an operation -/

/-- Between `s` and `t` chip-select was released: it is high in `t`, or nothing happened on
the link at all (the log and chip-select are those of `s`). -/
def Released (s t : Sd) : Prop := t.cs = true ∨ (t.log = s.log ∧ t.cs = s.cs)

/-- An initialised card whose READ_OCR is answered 1 (idle state, high bit clear). -/
def cardIdleAgain : Sd := startAt (linkOf [(9, 1)]) 0 CT_SD1

/-! ## Requested delays -/

/-- The total of the delays requested with `delay_ms` in a log, in milliseconds. -/
def delayOf : List Ev → Nat
  | [] => 0
  | Ev.delay n :: l => n + delayOf l
  | _ :: l => delayOf l

/-- The number of bytes read from the link in a log. -/
def readsOf : List Ev → Nat
  | [] => 0
  | Ev.rd _ :: l => 1 + readsOf l
  | _ :: l => readsOf l

/-- A card that holds the data line at 0: the link never returns `0xFF`. -/
def cardStuck : Sd := startAt (fun _ => 0) 0 CT_SD1

/-- A link nothing drives: it always returns `0xFF`. -/
def cardFloat : Sd := startAt (linkOf []) 0 CT_MMC

/-! ## The response poll of send_cmd -/

/-- The state in which `send_cmd` starts polling for the response (lines 379-385), when the
select at line 362 succeeded: the six frame bytes are written and, for STOP_TRANSMISSION,
one stuff byte is read. -/
def after_frame (Cmd Arg : Nat) (s : Sd) : Sd :=
  let s1 := xmit_frame (cmdFrame Cmd Arg) (select (deselect s)).2
  if Cmd = SD_CMD_STOP_TRANSMISSION then (SD_ReadByte s1).2 else s1

/-- A card that is ready at once and answers READ_SINGLE_BLOCK with 0 at the third poll. -/
def cardSlowAnswer : Sd := startAt (linkOf [(11, 0)]) 0 CT_SD1

/-- A card that answers APP_CMD with 1 and the command that follows with 0. -/
def cardAcmd : Sd := startAt (linkOf [(9, 1), (19, 0)]) 0 CT_SD1

/-- A link that sends the start token `0xFE` at once and is not driven afterwards. -/
def cardToken : Sd := startAt (linkOf [(0, 0xFE)]) 0 CT_SD1

/-- An initialised MMC card in a two-block write: the status check and WRITE_MULTIPLE_BLOCK
are answered 0, both data packets get the data-response `0xE5` (accepted), and from then on
the card holds the line at 0 (busy). -/
def cardCloseBusy : Sd :=
  startAt (fun i => if i ≤ 1057 then linkOf [(9, 0), (23, 0), (540, 0xE5), (1057, 0xE5)] i
    else 0) 0 CT_MMC

/-! ## Sessions -/

/-- One call of an operation of the block device interface, with its arguments. -/
inductive Op where
  | status (drv : Nat)
  | init (drv : Nat)
  | read (drv sector count : Nat)
  | write (drv : Nat) (buff : Nat → Nat) (sector count : Nat)
  | ioctl (drv ctrl : Nat)

/-- The state after one call: `Op.init` is disk_initialize, the others are `disk_status`,
`disk_read`, `disk_write` and `disk_ioctl`. -/
def run : Op → Sd → Sd
  | Op.status drv, s => (disk_status drv s).2
  | Op.init drv, s => ( disk_initialize drv s).2
  | Op.read drv sector count, s => (disk_read drv sector count s).2.2
  | Op.write drv buff sector count, s => (disk_write drv buff sector count s).2
  | Op.ioctl drv ctrl, s => (disk_ioctl drv ctrl s).2.2

/-- The state after a sequence of calls, made in the order of the list. -/
def runs : List Op → Sd → Sd
  | [], s => s
  | op :: ops, s => runs ops (run op s)

/-! ## Frame lemmas: what link activity leaves unchanged -/

theorem cmdsOf_append (l l2 : List Ev) : cmdsOf (l ++ l2) = cmdsOf l ++ cmdsOf l2 := by
  induction l with
  | nil => rfl
  | cons e l ih => cases e <;> simp [cmdsOf, ih]

theorem writtenOf_append (l l2 : List Ev) :
    writtenOf (l ++ l2) = writtenOf l ++ writtenOf l2 := by
  induction l with
  | nil => rfl
  | cons e l ih => cases e <;> simp [writtenOf, ih]

theorem Quiet.nothing (s : Sd) : Quiet s s := ⟨rfl, rfl, rfl, rfl⟩

theorem Quiet.andThen {s t u : Sd} (h1 : Quiet s t) (h2 : Quiet t u) : Quiet s u :=
  ⟨h2.rx.trans h1.rx, h2.Stat.trans h1.Stat, h2.CardType.trans h1.CardType,
    h2.cmds.trans h1.cmds⟩

theorem quiet_SD_ReadByte (s : Sd) : Quiet s (SD_ReadByte s).2 :=
  ⟨rfl, rfl, rfl, by simp [SD_ReadByte, cmdsOf_append, cmdsOf]⟩

theorem quiet_SD_WriteByte (b : Nat) (s : Sd) : Quiet s (SD_WriteByte b s).2 :=
  ⟨rfl, rfl, rfl, by simp [SD_WriteByte, cmdsOf_append, cmdsOf]⟩

theorem quiet_SD_CS_HIGH (s : Sd) : Quiet s (SD_CS_HIGH s) :=
  ⟨rfl, rfl, rfl, by simp [SD_CS_HIGH, cmdsOf_append, cmdsOf]⟩

theorem quiet_SD_CS_LOW (s : Sd) : Quiet s (SD_CS_LOW s) :=
  ⟨rfl, rfl, rfl, by simp [SD_CS_LOW, cmdsOf_append, cmdsOf]⟩

theorem quiet_dly_us (n : Nat) (s : Sd) : Quiet s (dly_us n s) :=
  ⟨rfl, rfl, rfl, by simp [dly_us, delay_ms, cmdsOf_append, cmdsOf]⟩

theorem quiet_rcvr_mmc_loop (n : Nat) (s : Sd) : Quiet s (rcvr_mmc_loop n s).2 := by
  induction n generalizing s with
  | zero => exact Quiet.nothing s
  | succ n ih => exact (quiet_SD_ReadByte s).andThen (ih _)

theorem quiet_rcvr_mmc (bc : Nat) (s : Sd) : Quiet s (rcvr_mmc bc s).2 :=
  quiet_rcvr_mmc_loop _ s

theorem quiet_xmit_mmc_loop (buff : Nat → Nat) (p n : Nat) (s : Sd) :
    Quiet s (xmit_mmc_loop buff p n s) := by
  induction n generalizing s p with
  | zero => exact Quiet.nothing s
  | succ n ih => exact (quiet_SD_WriteByte _ s).andThen (ih _ _)

theorem quiet_xmit_mmc (buff : Nat → Nat) (p bc : Nat) (s : Sd) :
    Quiet s (xmit_mmc buff p bc s) :=
  quiet_xmit_mmc_loop _ _ _ s

theorem quiet_wait_ready_loop (tmr : Nat) (s : Sd) : Quiet s (wait_ready_loop tmr s).2 := by
  induction tmr generalizing s with
  | zero => exact Quiet.nothing s
  | succ n ih =>
    unfold wait_ready_loop
    by_cases h : (SD_ReadByte s).1 = 0xFF
    · simp only [h, if_true]; exact quiet_SD_ReadByte s
    · simp only [h, if_false]
      exact ((quiet_SD_ReadByte s).andThen (quiet_dly_us _ _)).andThen (ih _)

theorem quiet_wait_ready (s : Sd) : Quiet s (wait_ready s).2 := quiet_wait_ready_loop _ s

theorem quiet_deselect (s : Sd) : Quiet s (deselect s) :=
  (quiet_SD_CS_HIGH s).andThen (quiet_SD_ReadByte _)

theorem quiet_select (s : Sd) : Quiet s (select s).2 := by
  have h := ((quiet_SD_CS_LOW s).andThen (quiet_SD_ReadByte _)).andThen
    (quiet_wait_ready (SD_ReadByte (SD_CS_LOW s)).2)
  unfold select
  by_cases hw : (wait_ready (SD_ReadByte (SD_CS_LOW s)).2).1 = true
  · simp only [hw, if_true]; exact h
  · simp only [hw]; exact h.andThen (quiet_deselect _)

theorem quiet_xmit_frame (bs : List Nat) (s : Sd) : Quiet s (xmit_frame bs s) := by
  induction bs generalizing s with
  | nil => exact Quiet.nothing s
  | cons b bs ih => exact (quiet_SD_WriteByte b s).andThen (ih _)

theorem quiet_resp_loop (i : Nat) (s : Sd) : Quiet s (resp_loop i s).2 := by
  induction i generalizing s with
  | zero => exact quiet_SD_ReadByte s
  | succ n ih =>
    unfold resp_loop
    by_cases h : (SD_ReadByte s).1 &&& 0x80 ≠ 0 ∧ n ≠ 0
    · rw [if_pos h]; exact (quiet_SD_ReadByte s).andThen (ih _)
    · rw [if_neg h]; exact quiet_SD_ReadByte s

theorem quiet_send_cmd_frame (c a : Nat) (s : Sd) : Quiet s (send_cmd_frame c a s).2 := by
  have hsel := (quiet_deselect s).andThen (quiet_select (deselect s))
  unfold send_cmd_frame
  by_cases h : (select (deselect s)).1 = true
  · simp only [h, Bool.not_true, Bool.false_eq_true, if_false]
    refine Quiet.andThen ?_ (quiet_resp_loop _ _)
    refine hsel.andThen ((quiet_xmit_frame (cmdFrame c a) _).andThen ?_)
    by_cases hc : c = SD_CMD_STOP_TRANSMISSION
    · simp only [hc, if_true]; exact quiet_SD_ReadByte _
    · simp only [hc, if_false]; exact Quiet.nothing _
  · simp only [h]; exact hsel

/-! ## `send_cmd` and the idle-exit loop -/

theorem Quiet.keeps {s t : Sd} (h : Quiet s t) : Keeps s t := ⟨h.rx, h.Stat, h.CardType⟩

theorem Keeps.unchanged (s : Sd) : Keeps s s := ⟨rfl, rfl, rfl⟩

theorem Keeps.after {s t u : Sd} (h1 : Keeps s t) (h2 : Keeps t u) : Keeps s u :=
  ⟨h2.rx.trans h1.rx, h2.Stat.trans h1.Stat, h2.CardType.trans h1.CardType⟩

theorem send_cmd_plain (c a : Nat) (s : Sd) (h : c &&& 0x80 = 0) :
    send_cmd c a s = send_cmd_frame c a { s with log := s.log ++ [Ev.cmd c a] } := by
  simp [send_cmd, h]

theorem send_cmd_app (c a : Nat) (s : Sd) (h : c &&& 0x80 ≠ 0) :
    send_cmd c a s =
      if (send_cmd_frame SD_CMD55 0
          { s with log := s.log ++ [Ev.cmd c a] ++ [Ev.cmd SD_CMD55 0] }).1 > 1
      then send_cmd_frame SD_CMD55 0
          { s with log := s.log ++ [Ev.cmd c a] ++ [Ev.cmd SD_CMD55 0] }
      else send_cmd_frame (c &&& 0x7F) a (send_cmd_frame SD_CMD55 0
          { s with log := s.log ++ [Ev.cmd c a] ++ [Ev.cmd SD_CMD55 0] }).2 := by
  simp [send_cmd, h]

theorem keeps_send_cmd (c a : Nat) (s : Sd) : Keeps s (send_cmd c a s).2 := by
  have hm : ∀ (l : List Ev), Keeps s { s with log := l } := fun l => ⟨rfl, rfl, rfl⟩
  by_cases h : c &&& 0x80 ≠ 0
  · rw [send_cmd_app c a s h]
    split
    · exact (hm _).after (quiet_send_cmd_frame _ _ _).keeps
    · exact ((hm _).after (quiet_send_cmd_frame _ _ _).keeps).after
        (quiet_send_cmd_frame _ _ _).keeps
  · rw [send_cmd_plain c a s (by simpa using h)]
    exact (hm _).after (quiet_send_cmd_frame _ _ _).keeps

theorem cmds_send_cmd (c a : Nat) (s : Sd) :
    cmdsOf (send_cmd c a s).2.log = cmdsOf s.log ++ callsOf c a := by
  unfold callsOf
  by_cases h : c &&& 0x80 ≠ 0
  · rw [send_cmd_app c a s h]
    split
    · rw [(quiet_send_cmd_frame _ _ _).cmds]
      simp [cmdsOf_append, cmdsOf, h]
    · rw [(quiet_send_cmd_frame _ _ _).cmds, (quiet_send_cmd_frame _ _ _).cmds]
      simp [cmdsOf_append, cmdsOf, h]
  · rw [send_cmd_plain c a s (by simpa using h), (quiet_send_cmd_frame _ _ _).cmds]
    simp [cmdsOf_append, cmdsOf, h]

theorem idle_loop_exit (cmd arg : Nat) (k : Nat) :
    ∀ (tmr : Nat) (s : Sd), k < tmr →
      (∀ j < k, (send_cmd cmd arg (idle_retry cmd arg j s)).1 ≠ 0) →
      (send_cmd cmd arg (idle_retry cmd arg k s)).1 = 0 →
      idle_loop cmd arg tmr s = (tmr - k, (send_cmd cmd arg (idle_retry cmd arg k s)).2) := by
  induction k with
  | zero =>
    intro tmr s hk _ hz
    obtain ⟨t, rfl⟩ : ∃ t, tmr = t + 1 := ⟨tmr - 1, by omega⟩
    simp only [idle_retry] at hz
    simp [idle_loop, idle_retry, hz]
  | succ k ih =>
    intro tmr s hk hne hz
    obtain ⟨t, rfl⟩ : ∃ t, tmr = t + 1 := ⟨tmr - 1, by omega⟩
    have h0 : (send_cmd cmd arg s).1 ≠ 0 := by simpa [idle_retry] using hne 0 (by omega)
    have hstep := ih t (dly_us 1000 (send_cmd cmd arg s).2) (by omega)
      (fun j hj => by simpa [idle_retry] using hne (j + 1) (by omega))
      (by simpa [idle_retry] using hz)
    simp only [idle_loop, h0, if_false, hstep, idle_retry]
    congr 1
    omega

theorem idle_loop_timeout (cmd arg : Nat) :
    ∀ (tmr : Nat) (s : Sd),
      (∀ j < tmr, (send_cmd cmd arg (idle_retry cmd arg j s)).1 ≠ 0) →
      idle_loop cmd arg tmr s = (0, idle_retry cmd arg tmr s) := by
  intro tmr
  induction tmr with
  | zero => intro s _; rfl
  | succ t ih =>
    intro s hne
    have h0 : (send_cmd cmd arg s).1 ≠ 0 := by simpa [idle_retry] using hne 0 (by omega)
    have hstep := ih (dly_us 1000 (send_cmd cmd arg s).2)
      (fun j hj => by simpa [idle_retry] using hne (j + 1) (by omega))
    simp only [idle_loop, h0, if_false, hstep, idle_retry]

theorem cmds_idle_retry (cmd arg : Nat) :
    ∀ (k : Nat) (s : Sd),
      cmdsOf (idle_retry cmd arg k s).log = cmdsOf s.log ++ times k (callsOf cmd arg) := by
  intro k
  induction k with
  | zero => intro s; simp [idle_retry, times]
  | succ k ih =>
    intro s
    simp only [idle_retry, times]
    rw [ih, (quiet_dly_us _ _).cmds, cmds_send_cmd, List.append_assoc]

theorem keeps_idle_retry (cmd arg : Nat) :
    ∀ (k : Nat) (s : Sd), Keeps s (idle_retry cmd arg k s) := by
  intro k
  induction k with
  | zero => intro s; exact Keeps.unchanged s
  | succ k ih =>
    intro s
    exact ((keeps_send_cmd cmd arg s).after (quiet_dly_us _ _).keeps).after (ih _)

theorem times_succ_right {α : Type} (k : Nat) (l : List α) :
    times (k + 1) l = times k l ++ l := by
  induction k with
  | zero => simp [times]
  | succ k ih =>
    have h : times (k + 1 + 1) l = l ++ times (k + 1) l := rfl
    rw [h, ih, ← List.append_assoc]
    have h2 : times (k + 1) l = l ++ times k l := rfl
    rw [← h2, ih]

/-! ## Status bits -/

theorem and_clear (x m b : Nat) (h : m &&& b = 0) : (x &&& m) &&& b = 0 := by
  rw [Nat.and_assoc, h, Nat.and_zero]

theorem or_and_bit (x m b : Nat) : (x ||| m) &&& b = (x &&& b) ||| (m &&& b) := by
  apply Nat.eq_of_testBit_eq
  intro i
  simp [Bool.and_or_distrib_right]

theorem disk_status_nonzero (drv : Nat) (s : Sd) (h : drv ≠ 0) :
    disk_status drv s
      = (STA_NODISK ||| STA_NOINIT, { s with Stat := STA_NODISK ||| STA_NOINIT }) := by
  simp [disk_status, h]

theorem disk_status_idle (s : Sd) (h : status0 s &&& STA_NOINIT ≠ 0) :
    disk_status 0 s = (status0 s, { s with Stat := status0 s }) := by
  unfold status0 at h
  simp only [disk_status, INS, WP, status0]
  simp [h]

theorem disk_status_live (s : Sd) (h : status0 s &&& STA_NOINIT = 0) :
    disk_status 0 s =
      (if (send_cmd SD_CMD58 0 s).1 ≠ 0 then status0 s ||| STA_NOINIT else status0 s,
        { SD_CS_HIGH (rcvr_mmc 4 (send_cmd SD_CMD58 0 s).2).2 with
          Stat := if (send_cmd SD_CMD58 0 s).1 ≠ 0 then status0 s ||| STA_NOINIT
            else status0 s }) := by
  unfold status0 at h
  simp only [disk_status, INS, WP, status0]
  simp [h]

theorem status0_nodisk (s : Sd) : status0 s &&& STA_NODISK = 0 := by
  unfold status0
  rw [Nat.and_assoc, Nat.and_assoc]
  exact Nat.and_zero _

theorem status0_protect (s : Sd) : status0 s &&& STA_PROTECT = 0 := by
  unfold status0
  rw [Nat.and_assoc]
  exact Nat.and_zero _

theorem disk_status_zero_val (s : Sd) :
    (disk_status 0 s).1 = status0 s ∨ (disk_status 0 s).1 = status0 s ||| STA_NOINIT := by
  by_cases h : status0 s &&& STA_NOINIT = 0
  · rw [disk_status_live s h]
    by_cases hr : (send_cmd SD_CMD58 0 s).1 ≠ 0
    · right; simp [hr]
    · left; simp [hr]
  · rw [disk_status_idle s h]; left; rfl

theorem disk_status_nodisk_clear (s : Sd) : (disk_status 0 s).1 &&& STA_NODISK = 0 := by
  rcases disk_status_zero_val s with h | h <;> rw [h]
  · exact status0_nodisk s
  · rw [or_and_bit, status0_nodisk]; rfl

theorem disk_status_protect_clear (s : Sd) : (disk_status 0 s).1 &&& STA_PROTECT = 0 := by
  rcases disk_status_zero_val s with h | h <;> rw [h]
  · exact status0_protect s
  · rw [or_and_bit, status0_protect]; rfl

theorem noinit_cleared (x : Nat) : (x &&& (0xFF ^^^ STA_NOINIT)) &&& STA_NOINIT = 0 := by
  rw [Nat.and_assoc]
  exact Nat.and_zero _

theorem noinit_set (x : Nat) : (x ||| STA_NOINIT) &&& STA_NOINIT ≠ 0 := by
  rw [or_and_bit]
  intro h
  have h2 : ((x &&& STA_NOINIT) ||| (STA_NOINIT &&& STA_NOINIT)).testBit 0 = false := by
    rw [h]; rfl
  simp [STA_NOINIT] at h2

/-! ## More frame lemmas -/

theorem quiet_dummy_clocks (n : Nat) (s : Sd) : Quiet s (dummy_clocks n s) := by
  induction n generalizing s with
  | zero => exact Quiet.nothing s
  | succ n ih => exact (quiet_rcvr_mmc 1 s).andThen (ih _)

theorem quiet_power_up (s : Sd) : Quiet s (power_up s) :=
  (quiet_SD_CS_HIGH s).andThen (quiet_dummy_clocks 10 _)

theorem quiet_token_loop (tmr d0 : Nat) (s : Sd) : Quiet s (token_loop tmr d0 s).2 := by
  induction tmr generalizing s d0 with
  | zero => exact Quiet.nothing s
  | succ n ih =>
    unfold token_loop
    by_cases h : (rcvr_mmc 1 s).1.headD 0 ≠ 0xFF
    · rw [if_pos h]; exact quiet_rcvr_mmc 1 s
    · rw [if_neg h]
      exact ((quiet_rcvr_mmc 1 s).andThen (quiet_dly_us _ _)).andThen (ih _ _)

theorem quiet_rcvr_datablock (btr : Nat) (s : Sd) : Quiet s (rcvr_datablock btr s).2.2 := by
  unfold rcvr_datablock
  by_cases h : (token_loop 1000 0 s).1 ≠ 0xFE
  · rw [if_pos h]; exact quiet_token_loop _ _ s
  · rw [if_neg h]
    exact ((quiet_token_loop _ _ s).andThen (quiet_rcvr_mmc _ _)).andThen (quiet_rcvr_mmc _ _)

theorem quiet_xmit_datablock (buff : Nat → Nat) (p token : Nat) (s : Sd) :
    Quiet s (xmit_datablock buff p token s).2 := by
  unfold xmit_datablock
  by_cases hw : (wait_ready s).1 = true
  · simp only [hw, Bool.not_true, Bool.false_eq_true, if_false]
    have h1 := (quiet_wait_ready s).andThen (quiet_xmit_mmc (fun _ => token % 256) 0 1 _)
    by_cases ht : token % 256 ≠ 0xFD
    · rw [if_pos ht]
      have h2 := ((h1.andThen (quiet_xmit_mmc buff p 512 _)).andThen (quiet_rcvr_mmc 2 _)).andThen
        (quiet_rcvr_mmc 1 _)
      split
      · exact h2
      · exact h2
    · rw [if_neg ht]; exact h1
  · simp only [hw]; exact quiet_wait_ready s

/-! ## disk_initialize on drive 0 -/

theorem disk_initialize_zero (s : Sd) :
    disk_initialize 0 s =
      (if (detect (power_up (disk_status 0 s).2)).1 ≠ 0
          then (disk_status 0 s).1 &&& (0xFF ^^^ STA_NOINIT)
          else (disk_status 0 s).1 ||| STA_NOINIT,
        deselect { (detect (power_up (disk_status 0 s).2)).2 with
          CardType := (detect (power_up (disk_status 0 s).2)).1,
          Stat := if (detect (power_up (disk_status 0 s).2)).1 ≠ 0
            then (disk_status 0 s).1 &&& (0xFF ^^^ STA_NOINIT)
            else (disk_status 0 s).1 ||| STA_NOINIT }) := by
  simp [ disk_initialize, SD_SPI_Init, disk_status_nodisk_clear]

theorem disk_initialize_cardType (s : Sd) :
    ( disk_initialize 0 s).2.CardType = (detect (power_up (disk_status 0 s).2)).1 := by
  rw [disk_initialize_zero]
  rfl

theorem disk_initialize_noinit (s : Sd) :
    (( disk_initialize 0 s).1 &&& STA_NOINIT = 0)
      ↔ (detect (power_up (disk_status 0 s).2)).1 ≠ 0 := by
  rw [disk_initialize_zero]
  by_cases h : (detect (power_up (disk_status 0 s).2)).1 ≠ 0
  · rw [if_pos h]
    exact ⟨fun _ => h, fun _ => noinit_cleared _⟩
  · rw [if_neg h]
    exact ⟨fun hz => absurd hz (noinit_set _), fun hd => absurd hd h⟩

/-! ## Lemmas for C2 -/

theorem times_one {α : Type} (l : List α) : times 1 l = l := by simp [times]

theorem idle_loop_calls (cmd arg : Nat) :
    ∀ (tmr : Nat) (s : Sd), 1 ≤ tmr →
      ∃ n, 1 ≤ n ∧ n ≤ tmr ∧
        cmdsOf (idle_loop cmd arg tmr s).2.log = cmdsOf s.log ++ times n (callsOf cmd arg) := by
  intro tmr
  induction tmr with
  | zero => intro s h; omega
  | succ t ih =>
    intro s _
    unfold idle_loop
    by_cases h : (send_cmd cmd arg s).1 = 0
    · simp only [h, if_true]
      exact ⟨1, le_refl 1, by omega, by rw [cmds_send_cmd, times_one]⟩
    · simp only [h, if_false]
      rcases Nat.eq_zero_or_pos t with ht | ht
      · subst ht
        refine ⟨1, le_refl 1, le_refl 1, ?_⟩
        simp only [idle_loop]
        rw [(quiet_dly_us _ _).cmds, cmds_send_cmd, times_one]
      · obtain ⟨n, hn1, hn2, hc⟩ := ih (dly_us 1000 (send_cmd cmd arg s).2) ht
        refine ⟨n + 1, by omega, by omega, ?_⟩
        rw [hc, (quiet_dly_us _ _).cmds, cmds_send_cmd, List.append_assoc]
        rfl

theorem disk_initialize_log_cmds (s : Sd) :
    cmdsOf ( disk_initialize 0 s).2.log
      = cmdsOf (detect (power_up (disk_status 0 s).2)).2.log := by
  rw [disk_initialize_zero]
  exact (quiet_deselect _).cmds

theorem callsOf_acmd41 (a : Nat) : callsOf SD_ACMD41 a = [(SD_ACMD41, a), (SD_CMD55, 0)] := by
  simp [callsOf, SD_ACMD41]

theorem callsOf_op_cond : callsOf SD_CMD_SEND_OP_COND 0 = [(SD_CMD_SEND_OP_COND, 0)] := by
  simp [callsOf, SD_CMD_SEND_OP_COND]

theorem callsOf_set_blocklen :
    callsOf SD_CMD_SET_BLOCKLEN 512 = [(SD_CMD_SET_BLOCKLEN, 512)] := by
  simp only [callsOf, SD_CMD_SET_BLOCKLEN]
  have h : (16 : Nat) &&& 0x80 = 0 := by decide
  simp [h]

theorem detect_v1_eq (s3 s4 : Sd) (p cmd : Nat)
    (hp : send_cmd SD_ACMD41 0 s3 = (p, s4))
    (hcmd : cmd = if p ≤ 1 then SD_ACMD41 else SD_CMD_SEND_OP_COND) :
    detect_v1 s3 =
      if (idle_loop cmd 0 1000 s4).1 = 0 then (0, (idle_loop cmd 0 1000 s4).2)
      else if (send_cmd SD_CMD_SET_BLOCKLEN 512 (idle_loop cmd 0 1000 s4).2).1 ≠ 0
        then (0, (send_cmd SD_CMD_SET_BLOCKLEN 512 (idle_loop cmd 0 1000 s4).2).2)
        else (if p ≤ 1 then CT_SD1 else CT_MMC,
          (send_cmd SD_CMD_SET_BLOCKLEN 512 (idle_loop cmd 0 1000 s4).2).2) := by
  subst hcmd
  simp only [detect_v1, hp]

theorem detect_rejected (s1 s2 s3 : Sd) (r8 : Nat)
    (h0 : send_cmd SD_CMD_GO_IDLE_STATE 0 s1 = (1, s2))
    (h8 : send_cmd SD_CMD_SEND_IF_COND 0x1AA s2 = (r8, s3)) (hrej : r8 ≠ 1) :
    detect s1 = detect_v1 s3 := by
  simp [detect, h0, h8, hrej]

theorem detect_accepted (s1 s2 s3 : Sd)
    (h0 : send_cmd SD_CMD_GO_IDLE_STATE 0 s1 = (1, s2))
    (h8 : send_cmd SD_CMD_SEND_IF_COND 0x1AA s2 = (1, s3)) :
    detect s1 = detect_v2 s3 := by
  simp [detect, h0, h8]

/-! ## Lemmas for C4 -/

theorem CallsIn.noCall (P : Nat × Nat → Prop) (s : Sd) : CallsIn P s s :=
  ⟨[], by simp, by simp⟩

theorem CallsIn.followedBy {P : Nat × Nat → Prop} {s t u : Sd}
    (h1 : CallsIn P s t) (h2 : CallsIn P t u) : CallsIn P s u := by
  obtain ⟨a, ha, hpa⟩ := h1
  obtain ⟨b, hb, hpb⟩ := h2
  refine ⟨a ++ b, by rw [hb, ha, List.append_assoc], ?_⟩
  intro ca hca
  rcases List.mem_append.mp hca with h | h
  · exact hpa ca h
  · exact hpb ca h

theorem Quiet.callsIn {s t : Sd} (P : Nat × Nat → Prop) (h : Quiet s t) : CallsIn P s t :=
  ⟨[], by rw [h.cmds, List.append_nil], by simp⟩

theorem callsIn_of_log_eq {s t : Sd} (P : Nat × Nat → Prop) (h : t.log = s.log) :
    CallsIn P s t :=
  ⟨[], by rw [h, List.append_nil], by simp⟩

theorem callsIn_send_cmd (P : Nat × Nat → Prop) (c a : Nat) (s : Sd)
    (h : ∀ ca ∈ callsOf c a, P ca) : CallsIn P s (send_cmd c a s).2 :=
  ⟨callsOf c a, cmds_send_cmd c a s, h⟩

theorem callsIn_idle_loop (P : Nat × Nat → Prop) (cmd arg : Nat)
    (h : ∀ ca ∈ callsOf cmd arg, P ca) :
    ∀ (tmr : Nat) (s : Sd), CallsIn P s (idle_loop cmd arg tmr s).2 := by
  intro tmr
  induction tmr with
  | zero => intro s; exact CallsIn.noCall P s
  | succ t ih =>
    intro s
    unfold idle_loop
    by_cases hz : (send_cmd cmd arg s).1 = 0
    · simp only [hz, if_true]; exact callsIn_send_cmd P cmd arg s h
    · simp only [hz, if_false]
      exact ((callsIn_send_cmd P cmd arg s h).followedBy ((quiet_dly_us _ _).callsIn P)).followedBy (ih _)

theorem callsOf_plain (c a : Nat) (h : c &&& 0x80 = 0) : callsOf c a = [(c, a)] := by
  simp [callsOf, h]

theorem callsIn_send_plain (P : Nat × Nat → Prop) (c a : Nat) (s : Sd)
    (hc : c &&& 0x80 = 0) (h : P (c, a)) : CallsIn P s (send_cmd c a s).2 := by
  refine callsIn_send_cmd P c a s ?_
  intro ca hca
  rw [callsOf_plain c a hc] at hca
  have : ca = (c, a) := by simpa using hca
  rw [this]; exact h

theorem callsIn_disk_status (P : Nat × Nat → Prop) (s : Sd) (h : P (SD_CMD58, 0)) :
    CallsIn P s (disk_status 0 s).2 := by
  by_cases hl : status0 s &&& STA_NOINIT = 0
  · rw [disk_status_live s hl]
    have h1 := ((callsIn_send_plain P SD_CMD58 0 s (by decide) h).followedBy
      ((quiet_rcvr_mmc 4 _).callsIn P)).followedBy ((quiet_SD_CS_HIGH _).callsIn P)
    exact h1.followedBy (callsIn_of_log_eq P rfl)
  · rw [disk_status_idle s hl]
    exact callsIn_of_log_eq P rfl

theorem callsIn_detect_v2 (P : Nat × Nat → Prop) (s : Sd)
    (h41 : ∀ ca ∈ callsOf SD_ACMD41 (1 <<< 30), P ca) (h58 : P (SD_CMD58, 0)) :
    CallsIn P s (detect_v2 s).2 := by
  have he := (quiet_rcvr_mmc 4 s).callsIn P
  have hl := he.followedBy (callsIn_idle_loop P SD_ACMD41 (1 <<< 30) h41 1000 (rcvr_mmc 4 s).2)
  have hr := hl.followedBy (callsIn_send_plain P SD_CMD58 0 _ (by decide) h58)
  have ho := hr.followedBy ((quiet_rcvr_mmc 4 _).callsIn P)
  simp only [detect_v2]
  split
  · split
    · split
      · exact ho
      · exact hr
    · exact hl
  · exact he

theorem detect_v2_type (s : Sd) :
    (detect_v2 s).1 = 0 ∨ (detect_v2 s).1 = CT_SD2 ∨ (detect_v2 s).1 = CT_SD2 ||| CT_BLOCK := by
  simp only [detect_v2]
  split
  · split
    · split
      · split
        · right; right; rfl
        · right; left; rfl
      · left; rfl
    · left; rfl
  · left; rfl

/-! ## A link that returns only `0xFF` -/

theorem floating_read (s : Sd) (h : Floating s) :
    (SD_ReadByte s).1 = 0xFF ∧ Floating (SD_ReadByte s).2 :=
  ⟨h s.pos (le_refl _), fun i hi => h i (by have : s.pos + 1 ≤ i := hi; omega)⟩

theorem floating_write (b : Nat) (s : Sd) (h : Floating s) : Floating (SD_WriteByte b s).2 :=
  fun i hi => h i (by have : s.pos + 1 ≤ i := hi; omega)

theorem wait_ready_loop_ready (tmr : Nat) (s : Sd) (h : (SD_ReadByte s).1 = 0xFF) :
    wait_ready_loop (tmr + 1) s = (tmr + 1, (SD_ReadByte s).2) := by
  simp [wait_ready_loop, h]

theorem wait_ready_loop_busy (tmr : Nat) (s : Sd) (h : (SD_ReadByte s).1 ≠ 0xFF) :
    wait_ready_loop (tmr + 1) s = wait_ready_loop tmr (dly_us 100 (SD_ReadByte s).2) := by
  simp [wait_ready_loop, h]

theorem floating_wait_ready (s : Sd) (h : Floating s) :
    (wait_ready s).1 = true ∧ Floating (wait_ready s).2 := by
  have hr := floating_read s h
  have e : wait_ready_loop 5000 s = (5000, (SD_ReadByte s).2) :=
    wait_ready_loop_ready 4999 s hr.1
  simp only [wait_ready, e]
  exact ⟨by decide, hr.2⟩

theorem floating_deselect (s : Sd) (h : Floating s) : Floating (deselect s) :=
  (floating_read (SD_CS_HIGH s) h).2

theorem floating_select (s : Sd) (h : Floating s) :
    (select s).1 = true ∧ Floating (select s).2 := by
  have hw := floating_wait_ready (SD_ReadByte (SD_CS_LOW s)).2
    (floating_read (SD_CS_LOW s) h).2
  simp only [select, hw.1, if_true]
  exact ⟨trivial, hw.2⟩

theorem floating_xmit_frame (bs : List Nat) (s : Sd) (h : Floating s) :
    Floating (xmit_frame bs s) := by
  induction bs generalizing s with
  | nil => exact h
  | cons b bs ih => exact ih _ (floating_write b s h)

theorem floating_resp_loop (i : Nat) (s : Sd) (h : Floating s) :
    (resp_loop i s).1 = 0xFF ∧ Floating (resp_loop i s).2 := by
  induction i generalizing s with
  | zero => exact floating_read s h
  | succ n ih =>
    have hr := floating_read s h
    unfold resp_loop
    by_cases hc : (SD_ReadByte s).1 &&& 0x80 ≠ 0 ∧ n ≠ 0
    · rw [if_pos hc]; exact ih _ hr.2
    · rw [if_neg hc]; exact hr

theorem floating_send_cmd_frame (c a : Nat) (s : Sd) (h : Floating s) :
    (send_cmd_frame c a s).1 = 0xFF ∧ Floating (send_cmd_frame c a s).2 := by
  have hs := floating_select (deselect s) (floating_deselect s h)
  have hx := floating_xmit_frame (cmdFrame c a) _ hs.2
  simp only [send_cmd_frame, hs.1, Bool.not_true, Bool.false_eq_true, if_false]
  by_cases hc : c = SD_CMD_STOP_TRANSMISSION
  · simp only [hc, if_true]
    rw [hc] at hx
    exact floating_resp_loop 10 _ (floating_read _ hx).2
  · simp only [hc, if_false]
    exact floating_resp_loop 10 _ hx

theorem floating_send_cmd (c a : Nat) (s : Sd) (h : Floating s) :
    (send_cmd c a s).1 = 0xFF ∧ Floating (send_cmd c a s).2 := by
  by_cases hm : c &&& 0x80 ≠ 0
  · rw [send_cmd_app c a s hm]
    have h55 := floating_send_cmd_frame SD_CMD55 0
      { s with log := s.log ++ [Ev.cmd c a] ++ [Ev.cmd SD_CMD55 0] } h
    rw [if_pos (by rw [h55.1]; decide)]
    exact h55
  · rw [send_cmd_plain c a s (by simpa using hm)]
    exact floating_send_cmd_frame c a { s with log := s.log ++ [Ev.cmd c a] } h

theorem floating_idle_retry (cmd arg : Nat) :
    ∀ (k : Nat) (s : Sd), Floating s → Floating (idle_retry cmd arg k s) := by
  intro k
  induction k with
  | zero => intro s h; exact h
  | succ k ih => intro s h; exact ih _ (floating_send_cmd cmd arg s h).2

theorem floating_never_idle_exit (cmd arg : Nat) (s : Sd) (h : Floating s) (j : Nat) :
    (send_cmd cmd arg (idle_retry cmd arg j s)).1 ≠ 0 := by
  rw [(floating_send_cmd cmd arg _ (floating_idle_retry cmd arg j s h)).1]
  decide

theorem floating_of_pos (s : Sd) (l : List (Nat × Nat)) (n : Nat) (hrx : s.rx = linkOf l)
    (hpos : s.pos = n) (hl : ∀ e ∈ l, e.1 < n) : Floating s := by
  intro i hi
  rw [hrx]
  have hnone : l.lookup i = none := by
    rw [List.lookup_eq_none_iff]
    intro e he
    have h1 := hl e he
    simp only [bne_iff_ne, ne_eq]
    omega
  simp [linkOf, hnone]

/-! ## Lemmas for C3 -/

theorem detect_v2_timeout (s3 : Sd) (he2 : (rcvr_mmc 4 s3).1.getD 2 0 = 0x01)
    (he3 : (rcvr_mmc 4 s3).1.getD 3 0 = 0xAA)
    (hloop : (idle_loop SD_ACMD41 (1 <<< 30) 1000 (rcvr_mmc 4 s3).2).1 = 0) :
    detect_v2 s3 = (0, (idle_loop SD_ACMD41 (1 <<< 30) 1000 (rcvr_mmc 4 s3).2).2) := by
  unfold detect_v2
  simp only [he2, he3, and_self, if_true]
  rw [if_neg (fun h => h hloop)]

theorem detect_v1_timeout (s3 s4 : Sd) (p cmd : Nat)
    (hp : send_cmd SD_ACMD41 0 s3 = (p, s4))
    (hcmd : cmd = if p ≤ 1 then SD_ACMD41 else SD_CMD_SEND_OP_COND)
    (hloop : (idle_loop cmd 0 1000 s4).1 = 0) :
    detect_v1 s3 = (0, (idle_loop cmd 0 1000 s4).2) := by
  rw [detect_v1_eq s3 s4 p cmd hp hcmd, if_pos hloop]

theorem cardMute_floating :
    Floating (send_cmd SD_CMD_GO_IDLE_STATE 0 (power_up (disk_status 0 cardMute).2)).2 :=
  floating_of_pos _ [(19, 1)] 20 rfl (by decide) (by decide)

/-! ## Lemmas for C8 -/

theorem callsIn_disk_status_any (P : Nat × Nat → Prop) (drv : Nat) (s : Sd)
    (h : P (SD_CMD58, 0)) : CallsIn P s (disk_status drv s).2 := by
  by_cases hd : drv = 0
  · subst hd; exact callsIn_disk_status P s h
  · rw [disk_status_nonzero drv s hd]
    exact callsIn_of_log_eq P rfl

theorem disk_status_ready_drive (drv : Nat) (s : Sd)
    (h : (disk_status drv s).1 &&& STA_NOINIT = 0) : drv = 0 := by
  by_contra hd
  rw [disk_status_nonzero drv s hd] at h
  simp [STA_NODISK, STA_NOINIT] at h

/-! ## Exact effect of the byte loops -/

theorem advance_zero (s : Sd) : advance s 0 [] = s := by
  simp [advance]

theorem advance_advance (s : Sd) (a b : Nat) (l m : List Ev) :
    advance (advance s a l) b m = advance s (a + b) (l ++ m) := by
  simp [advance, Nat.add_assoc]

theorem byteAt_advance (s : Sd) (n j : Nat) (l : List Ev) :
    byteAt (advance s n l) j = byteAt s (n + j) := by
  simp [byteAt, advance, Nat.add_assoc]

theorem SD_ReadByte_eq (s : Sd) :
    SD_ReadByte s = (byteAt s 0, advance s 1 [Ev.rd (byteAt s 0)]) := rfl

theorem SD_WriteByte_eq (b : Nat) (s : Sd) :
    SD_WriteByte b s = (byteAt s 0, advance s 1 [Ev.wr (b % 256)]) := rfl

theorem dly_us_eq (n : Nat) (s : Sd) : dly_us n s = advance s 0 [Ev.delay (n / 100)] := rfl

theorem rcvr_mmc_loop_eq (n : Nat) (s : Sd) :
    rcvr_mmc_loop n s = ((List.range n).map (byteAt s),
      advance s n ((List.range n).map (fun i => Ev.rd (byteAt s i)))) := by
  induction n generalizing s with
  | zero => simp [rcvr_mmc_loop, advance]
  | succ n ih =>
    simp only [rcvr_mmc_loop, ih, SD_ReadByte_eq, advance_advance, byteAt_advance]
    rw [List.range_succ_eq_map]
    simp [Function.comp_def, Nat.add_comm]
    intro a _
    rw [byteAt_advance, Nat.add_comm]

theorem rcvr_mmc_eq (bc : Nat) (s : Sd) (h : bc ≠ 0) :
    rcvr_mmc bc s = ((List.range bc).map (byteAt s),
      advance s bc ((List.range bc).map (fun i => Ev.rd (byteAt s i)))) := by
  simp only [rcvr_mmc, h, if_false]
  exact rcvr_mmc_loop_eq bc s

theorem xmit_mmc_loop_eq (buff : Nat → Nat) (n : Nat) (p : Nat) (s : Sd) :
    xmit_mmc_loop buff p n s
      = advance s n ((List.range n).map (fun i => Ev.wr (buff (p + i) % 256))) := by
  induction n generalizing s p with
  | zero => simp [xmit_mmc_loop, advance]
  | succ n ih =>
    simp only [xmit_mmc_loop, ih, SD_WriteByte_eq, advance_advance]
    rw [List.range_succ_eq_map]
    simp [Function.comp_def, Nat.add_comm, Nat.add_left_comm, Nat.add_assoc]

theorem xmit_mmc_eq (buff : Nat → Nat) (p bc : Nat) (s : Sd) (h : bc ≠ 0) :
    xmit_mmc buff p bc s
      = advance s bc ((List.range bc).map (fun i => Ev.wr (buff (p + i) % 256))) := by
  simp only [xmit_mmc, h, if_false]
  exact xmit_mmc_loop_eq buff bc p s

/-! ## Lemmas for C9 -/

theorem rcvr_mmc_one (s : Sd) :
    rcvr_mmc 1 s = ([byteAt s 0], advance s 1 [Ev.rd (byteAt s 0)]) := by
  rw [rcvr_mmc_eq 1 s (by decide)]
  rfl

theorem token_loop_step (tmr d0 : Nat) (s : Sd) :
    token_loop (tmr + 1) d0 s =
      if byteAt s 0 ≠ 0xFF then (byteAt s 0, advance s 1 [Ev.rd (byteAt s 0)])
      else token_loop tmr (byteAt s 0) (advance s 1 [Ev.rd (byteAt s 0), Ev.delay 1]) := by
  simp only [token_loop, rcvr_mmc_one, List.headD_cons, dly_us_eq, advance_advance]
  rfl

theorem token_loop_found (k : Nat) :
    ∀ (tmr d0 : Nat) (s : Sd), k < tmr → (∀ j < k, byteAt s j = 0xFF) → byteAt s k ≠ 0xFF →
      token_loop tmr d0 s = (byteAt s k,
        advance s (k + 1) (times k [Ev.rd 0xFF, Ev.delay 1] ++ [Ev.rd (byteAt s k)])) := by
  induction k with
  | zero =>
    intro tmr d0 s hk _ hne
    obtain ⟨t, rfl⟩ : ∃ t, tmr = t + 1 := ⟨tmr - 1, by omega⟩
    rw [token_loop_step, if_pos hne]
    rfl
  | succ k ih =>
    intro tmr d0 s hk hff hne
    obtain ⟨t, rfl⟩ : ∃ t, tmr = t + 1 := ⟨tmr - 1, by omega⟩
    have h0 : byteAt s 0 = 0xFF := hff 0 (by omega)
    rw [token_loop_step, if_neg (fun h => h h0), h0]
    rw [ih t 0xFF _ (by omega)
      (fun j hj => by rw [byteAt_advance, Nat.add_comm]; exact hff (j + 1) (by omega))
      (by rw [byteAt_advance, Nat.add_comm]; exact hne)]
    rw [byteAt_advance, advance_advance, Nat.add_comm 1 k]
    congr 2
    omega

theorem token_loop_none :
    ∀ (tmr d0 : Nat) (s : Sd), 0 < tmr → (∀ j < tmr, byteAt s j = 0xFF) →
      token_loop tmr d0 s = (0xFF, advance s tmr (times tmr [Ev.rd 0xFF, Ev.delay 1])) := by
  intro tmr
  induction tmr with
  | zero => intro d0 s h; omega
  | succ t ih =>
    intro d0 s _ hff
    have h0 : byteAt s 0 = 0xFF := hff 0 (by omega)
    rw [token_loop_step, if_neg (fun h => h h0), h0]
    rcases Nat.eq_zero_or_pos t with ht | ht
    · subst ht
      simp [token_loop, times]
    · rw [ih 0xFF _ ht
        (fun j hj => by rw [byteAt_advance, Nat.add_comm]; exact hff (j + 1) (by omega))]
      rw [advance_advance, Nat.add_comm 1 t]
      congr 2

/-! ## Lemmas for C10 -/

theorem xmit_datablock_exact (buff : Nat → Nat) (p token : Nat) (s : Sd)
    (htok : token < 256) (hne : token ≠ 0xFD) (hrdy : (wait_ready s).1 = true) :
    xmit_datablock buff p token s
      = (decide (byteAt (wait_ready s).2 515 &&& 0x1F = 0x05),
        advance (wait_ready s).2 516
          ([Ev.wr token] ++ (payload buff p).map Ev.wr
            ++ [Ev.rd (byteAt (wait_ready s).2 513), Ev.rd (byteAt (wait_ready s).2 514),
              Ev.rd (byteAt (wait_ready s).2 515)])) := by
  have hmod : token % 256 = token := Nat.mod_eq_of_lt htok
  have hx1 : xmit_mmc (fun _ => token) 0 1 (wait_ready s).2
      = advance (wait_ready s).2 1 [Ev.wr token] := by
    rw [xmit_mmc_eq _ 0 1 _ (by decide)]
    simp [hmod]
  have hr1 : ∀ t : Sd, (rcvr_mmc 1 t).1.headD 0 = byteAt t 0 := fun t => by
    rw [rcvr_mmc_one]; rfl
  simp only [xmit_datablock, hrdy, Bool.not_true, Bool.false_eq_true, if_false, hmod, ne_eq,
    hne, not_false_eq_true, if_true]
  rw [hx1, xmit_mmc_eq buff p 512 _ (by decide), rcvr_mmc_eq 2 _ (by decide),
    hr1, rcvr_mmc_one]
  simp only [advance_advance, byteAt_advance]
  have r2 : List.range 2 = [0, 1] := by decide
  have hst : advance (wait_ready s).2 (1 + 512 + 2 + 1)
        ([Ev.wr token] ++ List.map (fun i => Ev.wr (buff (p + i) % 256)) (List.range 512) ++
            List.map (fun i => Ev.rd (byteAt (wait_ready s).2 (1 + 512 + i))) (List.range 2) ++
          [Ev.rd (byteAt (wait_ready s).2 (1 + 512 + 2 + 0))])
      = advance (wait_ready s).2 516
        ([Ev.wr token] ++ (payload buff p).map Ev.wr
          ++ [Ev.rd (byteAt (wait_ready s).2 513), Ev.rd (byteAt (wait_ready s).2 514),
            Ev.rd (byteAt (wait_ready s).2 515)]) := by
    simp only [r2, List.map_cons, List.map_nil, payload, List.map_map, Function.comp_def,
      List.append_assoc, List.cons_append, List.nil_append, Nat.reduceAdd]
  rw [hst]
  have e515 : 1 + 512 + 2 + 0 = 515 := by decide
  rw [e515]
  by_cases h5 : byteAt (wait_ready s).2 515 &&& 31 = 5
  · rw [if_neg (fun h => h h5)]
    simp [h5]
  · rw [if_pos h5]
    simp [h5]

/-! ## Lemmas for C5 -/

theorem keeps_disk_status (drv : Nat) (s : Sd) :
    (disk_status drv s).2.rx = s.rx ∧ (disk_status drv s).2.CardType = s.CardType := by
  by_cases hd : drv = 0
  · subst hd
    by_cases hl : status0 s &&& STA_NOINIT = 0
    · rw [disk_status_live s hl]
      have h := ((keeps_send_cmd SD_CMD58 0 s).after (quiet_rcvr_mmc 4 _).keeps).after
        (quiet_SD_CS_HIGH _).keeps
      exact ⟨h.rx, h.CardType⟩
    · rw [disk_status_idle s hl]
      exact ⟨rfl, rfl⟩
  · rw [disk_status_nonzero drv s hd]
    exact ⟨rfl, rfl⟩

theorem quiet_read_blocks (n : Nat) (s : Sd) : Quiet s (read_blocks n s).2.2 := by
  induction n generalizing s with
  | zero => exact Quiet.nothing s
  | succ n ih =>
    simp only [read_blocks]
    split
    · exact (quiet_rcvr_datablock 512 s).andThen (ih _)
    · exact quiet_rcvr_datablock 512 s

theorem quiet_write_blocks (buff : Nat → Nat) (n p : Nat) (s : Sd) :
    Quiet s (write_blocks buff p n s).2 := by
  induction n generalizing s p with
  | zero => exact Quiet.nothing s
  | succ n ih =>
    simp only [write_blocks]
    split
    · exact (quiet_xmit_datablock buff p 0xFC s).andThen (ih _ _)
    · exact quiet_xmit_datablock buff p 0xFC s

theorem disk_read_cmds (drv sector count : Nat) (s : Sd)
    (hst : (disk_status drv s).1 &&& STA_NOINIT = 0) (hcount : count ≠ 0) :
    ∃ tail, (tail = [] ∨ tail = [(SD_CMD_STOP_TRANSMISSION, 0)]) ∧
      cmdsOf (disk_read drv sector count s).2.2.log = cmdsOf (disk_status drv s).2.log
        ++ [(if count = 1 then SD_CMD_READ_SINGLE_BLOCK else SD_CMD_READ_MULT_BLOCK,
            rw_address (disk_status drv s).2.CardType sector)] ++ tail := by
  simp only [disk_read, hst, ne_eq, not_true_eq_false, if_false, hcount]
  by_cases h1 : count = 1
  · simp only [h1, if_true]
    refine ⟨[], Or.inl rfl, ?_⟩
    split
    · show cmdsOf (deselect _).log = _
      rw [(quiet_deselect _).cmds, (quiet_rcvr_datablock _ _).cmds, cmds_send_cmd,
        callsOf_plain _ _ (by decide), List.append_nil]
    · show cmdsOf (deselect _).log = _
      rw [(quiet_deselect _).cmds, cmds_send_cmd, callsOf_plain _ _ (by decide),
        List.append_nil]
  · simp only [h1, if_false]
    split
    · refine ⟨[(SD_CMD_STOP_TRANSMISSION, 0)], Or.inr rfl, ?_⟩
      show cmdsOf (deselect _).log = _
      rw [(quiet_deselect _).cmds, cmds_send_cmd, (quiet_read_blocks _ _).cmds, cmds_send_cmd,
        callsOf_plain _ _ (by decide), callsOf_plain _ _ (by decide)]
    · refine ⟨[], Or.inl rfl, ?_⟩
      show cmdsOf (deselect _).log = _
      rw [(quiet_deselect _).cmds, cmds_send_cmd, callsOf_plain _ _ (by decide),
        List.append_nil]

theorem disk_write_cmds (drv : Nat) (buff : Nat → Nat) (sector count : Nat) (s : Sd)
    (hst : (disk_status drv s).1 &&& STA_NOINIT = 0) (hcount : count ≠ 0) :
    ∃ pre, (pre = [] ∨ pre = [(SD_ACMD23, count), (SD_CMD55, 0)]) ∧
      cmdsOf (disk_write drv buff sector count s).2.log = cmdsOf (disk_status drv s).2.log
        ++ pre
        ++ [(if count = 1 then SD_CMD_WRITE_SINGLE_BLOCK else SD_CMD_WRITE_MULT_BLOCK,
            rw_address (disk_status drv s).2.CardType sector)] := by
  have hd : drv = 0 := disk_status_ready_drive drv s hst
  subst hd
  have hp : (disk_status 0 s).1 &&& STA_PROTECT = 0 := disk_status_protect_clear s
  have h23 : callsOf SD_ACMD23 count = [(SD_ACMD23, count), (SD_CMD55, 0)] := by
    simp [callsOf, SD_ACMD23]
  simp only [disk_write, hst, hp, ne_eq, not_true_eq_false, if_false, hcount]
  by_cases h1 : count = 1
  · simp only [h1, if_true]
    refine ⟨[], Or.inl rfl, ?_⟩
    split
    · show cmdsOf (deselect _).log = _
      rw [(quiet_deselect _).cmds, (quiet_xmit_datablock _ _ _ _).cmds, cmds_send_cmd,
        callsOf_plain _ _ (by decide), List.append_nil]
    · show cmdsOf (deselect _).log = _
      rw [(quiet_deselect _).cmds, cmds_send_cmd, callsOf_plain _ _ (by decide),
        List.append_nil]
  · simp only [h1, if_false]
    by_cases hsdc : (disk_status 0 s).2.CardType &&& CT_SDC = 0
    · refine ⟨[], Or.inl rfl, ?_⟩
      simp only [hsdc, not_true_eq_false, if_false]
      split
      · show cmdsOf (deselect _).log = _
        rw [(quiet_deselect _).cmds, (quiet_xmit_datablock _ _ _ _).cmds,
          (quiet_write_blocks _ _ _ _).cmds, cmds_send_cmd, callsOf_plain _ _ (by decide),
          List.append_nil]
      · show cmdsOf (deselect _).log = _
        rw [(quiet_deselect _).cmds, cmds_send_cmd, callsOf_plain _ _ (by decide),
          List.append_nil]
    · refine ⟨[(SD_ACMD23, count), (SD_CMD55, 0)], Or.inr rfl, ?_⟩
      simp only [hsdc, not_false_eq_true, if_true]
      split
      · show cmdsOf (deselect _).log = _
        rw [(quiet_deselect _).cmds, (quiet_xmit_datablock _ _ _ _).cmds,
          (quiet_write_blocks _ _ _ _).cmds, cmds_send_cmd, cmds_send_cmd,
          callsOf_plain SD_CMD_WRITE_MULT_BLOCK _ (by decide), h23]
      · show cmdsOf (deselect _).log = _
        rw [(quiet_deselect _).cmds, cmds_send_cmd, cmds_send_cmd,
          callsOf_plain SD_CMD_WRITE_MULT_BLOCK _ (by decide), h23]

/-! ## Lemmas for C6 -/

theorem read_blocks_spec (k : Nat) :
    ∀ (n : Nat) (s : Sd), k ≤ n →
      (∀ i < k, (rcvr_datablock 512 (block_state i s)).1 = true) →
      (k < n → (rcvr_datablock 512 (block_state k s)).1 = false) →
      read_blocks n s = (n - k, blocks_data k s,
        if k < n then (rcvr_datablock 512 (block_state k s)).2.2 else block_state k s) := by
  induction k with
  | zero =>
    intro n s _ _ hfail
    cases n with
    | zero => rfl
    | succ m =>
      have hf : (rcvr_datablock 512 s).1 = false := hfail (by omega)
      simp [read_blocks, block_state, blocks_data, hf]
  | succ k ih =>
    intro n s hk hok hfail
    obtain ⟨m, rfl⟩ : ∃ m, n = m + 1 := ⟨n - 1, by omega⟩
    have h0 : (rcvr_datablock 512 s).1 = true := hok 0 (by omega)
    have hrec := ih m (rcvr_datablock 512 s).2.2 (by omega)
      (fun i hi => hok (i + 1) (by omega))
      (fun hlt => hfail (by omega))
    simp only [read_blocks, h0, if_true, hrec, blocks_data, block_state]
    have e1 : m + 1 - (k + 1) = m - k := by omega
    rw [e1]
    by_cases hlt : k < m
    · rw [if_pos hlt, if_pos (by omega)]
    · rw [if_neg hlt, if_neg (by omega)]

theorem read_blocks_ok_iff (n : Nat) :
    ∀ (s : Sd), (read_blocks n s).1 = 0 ↔
      ∀ i < n, (rcvr_datablock 512 (block_state i s)).1 = true := by
  induction n with
  | zero => intro s; simp [read_blocks]
  | succ n ih =>
    intro s
    by_cases h0 : (rcvr_datablock 512 s).1 = true
    · simp only [read_blocks, h0, if_true]
      rw [ih]
      constructor
      · intro h i hi
        cases i with
        | zero => exact h0
        | succ j => exact h j (by omega)
      · intro h i hi
        exact h (i + 1) (by omega)
    · simp only [read_blocks, h0]
      constructor
      · intro h
        exact absurd h (by simp)
      · intro h
        exact absurd (h 0 (by omega)) h0

theorem rcvr_datablock_length (s : Sd) (h : (rcvr_datablock 512 s).1 = true) :
    (rcvr_datablock 512 s).2.1.length = 512 := by
  simp only [rcvr_datablock] at h ⊢
  split
  · rename_i hne
    rw [if_pos hne] at h
    exact absurd h Bool.false_ne_true
  · rw [rcvr_mmc_eq 512 _ (by decide)]
    simp

theorem blocks_data_block (i : Nat) :
    ∀ (k : Nat) (s : Sd), i < k →
      (∀ j < k, (rcvr_datablock 512 (block_state j s)).1 = true) →
      ((blocks_data k s).drop (512 * i)).take 512
        = (rcvr_datablock 512 (block_state i s)).2.1 := by
  induction i with
  | zero =>
    intro k s hk hok
    obtain ⟨m, rfl⟩ : ∃ m, k = m + 1 := ⟨k - 1, by omega⟩
    have hl := rcvr_datablock_length s (hok 0 (by omega))
    simp only [blocks_data, block_state, Nat.mul_zero, List.drop_zero]
    rw [List.take_append_of_le_length (by omega), List.take_of_length_le (by omega)]
  | succ i ih =>
    intro k s hk hok
    obtain ⟨m, rfl⟩ : ∃ m, k = m + 1 := ⟨k - 1, by omega⟩
    have hl := rcvr_datablock_length s (hok 0 (by omega))
    have e : 512 * (i + 1) = (rcvr_datablock 512 s).2.1.length + 512 * i := by omega
    simp only [blocks_data, block_state]
    rw [e, List.drop_append]
    exact ih m _ (by omega) (fun j hj => hok (j + 1) (by omega))

theorem disk_read_single (sector : Nat) (s : Sd)
    (hst : (disk_status 0 s).1 &&& STA_NOINIT = 0) :
    disk_read 0 sector 1 s =
      if (send_cmd SD_CMD_READ_SINGLE_BLOCK
          (rw_address (disk_status 0 s).2.CardType sector) (disk_status 0 s).2).1 = 0
      then
        (if (rcvr_datablock 512 (send_cmd SD_CMD_READ_SINGLE_BLOCK
              (rw_address (disk_status 0 s).2.CardType sector) (disk_status 0 s).2).2).1
            then RES_OK else RES_ERROR,
          (rcvr_datablock 512 (send_cmd SD_CMD_READ_SINGLE_BLOCK
              (rw_address (disk_status 0 s).2.CardType sector) (disk_status 0 s).2).2).2.1,
          deselect (rcvr_datablock 512 (send_cmd SD_CMD_READ_SINGLE_BLOCK
              (rw_address (disk_status 0 s).2.CardType sector) (disk_status 0 s).2).2).2.2)
      else (RES_ERROR, [], deselect (send_cmd SD_CMD_READ_SINGLE_BLOCK
          (rw_address (disk_status 0 s).2.CardType sector) (disk_status 0 s).2).2) := by
  simp [disk_read, hst]

theorem disk_read_multi (sector count : Nat) (s : Sd)
    (hst : (disk_status 0 s).1 &&& STA_NOINIT = 0) (hcount : 1 < count) :
    disk_read 0 sector count s =
      if (send_cmd SD_CMD_READ_MULT_BLOCK
          (rw_address (disk_status 0 s).2.CardType sector) (disk_status 0 s).2).1 = 0
      then
        (if (read_blocks count (send_cmd SD_CMD_READ_MULT_BLOCK
              (rw_address (disk_status 0 s).2.CardType sector) (disk_status 0 s).2).2).1 ≠ 0
            then RES_ERROR else RES_OK,
          (read_blocks count (send_cmd SD_CMD_READ_MULT_BLOCK
              (rw_address (disk_status 0 s).2.CardType sector) (disk_status 0 s).2).2).2.1,
          deselect (send_cmd SD_CMD_STOP_TRANSMISSION 0
            (read_blocks count (send_cmd SD_CMD_READ_MULT_BLOCK
              (rw_address (disk_status 0 s).2.CardType sector)
              (disk_status 0 s).2).2).2.2).2)
      else (RES_ERROR, [], deselect (send_cmd SD_CMD_READ_MULT_BLOCK
          (rw_address (disk_status 0 s).2.CardType sector) (disk_status 0 s).2).2) := by
  have h0 : count ≠ 0 := by omega
  have h1 : count ≠ 1 := by omega
  simp [disk_read, hst, h0, h1]

/-! ## Lemmas for C7 -/

theorem write_blocks_spec (buff : Nat → Nat) (k : Nat) :
    ∀ (n p : Nat) (s : Sd), k ≤ n →
      (∀ j < k, (xmit_datablock buff (p + 512 * j) 0xFC (chunk_state buff p j s)).1 = true) →
      (k < n → (xmit_datablock buff (p + 512 * k) 0xFC (chunk_state buff p k s)).1 = false) →
      write_blocks buff p n s = (n - k,
        if k < n then (xmit_datablock buff (p + 512 * k) 0xFC (chunk_state buff p k s)).2
        else chunk_state buff p k s) := by
  induction k with
  | zero =>
    intro n p s _ _ hfail
    cases n with
    | zero => rfl
    | succ m =>
      have hf : (xmit_datablock buff p 0xFC s).1 = false := by
        simpa [chunk_state] using hfail (by omega)
      simp [write_blocks, chunk_state, hf]
  | succ k ih =>
    intro n p s hk hok hfail
    obtain ⟨m, rfl⟩ : ∃ m, n = m + 1 := ⟨n - 1, by omega⟩
    have h0 : (xmit_datablock buff p 0xFC s).1 = true := by
      simpa [chunk_state] using hok 0 (by omega)
    have eo : ∀ j, p + 512 + 512 * j = p + 512 * (j + 1) := fun j => by omega
    have hrec := ih m (p + 512) (xmit_datablock buff p 0xFC s).2 (by omega)
      (fun j hj => by rw [eo]; exact hok (j + 1) (by omega))
      (fun hlt => by rw [eo]; exact hfail (by omega))
    simp only [write_blocks, h0, if_true, hrec, chunk_state]
    have e1 : m + 1 - (k + 1) = m - k := by omega
    rw [e1, eo]
    by_cases hlt : k < m
    · rw [if_pos hlt, if_pos (by omega)]
    · rw [if_neg hlt, if_neg (by omega)]

theorem writtenOf_map_rd (f : Nat → Nat) (l : List Nat) :
    writtenOf (l.map (fun i => Ev.rd (f i))) = [] := by
  induction l with
  | nil => rfl
  | cons a l ih => simpa [writtenOf] using ih

theorem writtenOf_map_wr (l : List Nat) : writtenOf (l.map Ev.wr) = l := by
  induction l with
  | nil => rfl
  | cons a l ih => simp [writtenOf, ih]

theorem written_advance (s : Sd) (n : Nat) (evs : List Ev) :
    writtenOf (advance s n evs).log = writtenOf s.log ++ writtenOf evs := by
  simp [advance, writtenOf_append]

theorem written_wait_ready_loop (tmr : Nat) (s : Sd) :
    writtenOf (wait_ready_loop tmr s).2.log = writtenOf s.log := by
  induction tmr generalizing s with
  | zero => rfl
  | succ n ih =>
    by_cases h : (SD_ReadByte s).1 = 0xFF
    · rw [wait_ready_loop_ready n s h, SD_ReadByte_eq, written_advance]
      simp [writtenOf]
    · rw [wait_ready_loop_busy n s h, ih, dly_us_eq, SD_ReadByte_eq, written_advance,
        written_advance]
      simp [writtenOf]

theorem written_wait_ready (s : Sd) : writtenOf (wait_ready s).2.log = writtenOf s.log :=
  written_wait_ready_loop 5000 s

theorem written_deselect (s : Sd) : writtenOf (deselect s).log = writtenOf s.log := by
  simp [deselect, SD_ReadByte, SD_CS_HIGH, writtenOf_append, writtenOf]

theorem written_xmit_data (buff : Nat → Nat) (p : Nat) (s : Sd) :
    writtenOf (xmit_datablock buff p 0xFC s).2.log = writtenOf s.log
      ++ (if (wait_ready s).1 then 0xFC :: payload buff p else []) := by
  by_cases h : (wait_ready s).1 = true
  · have e1 : ∀ b : Nat, writtenOf [Ev.wr b] = [b] := fun _ => rfl
    have e3 : ∀ a b c : Nat, writtenOf [Ev.rd a, Ev.rd b, Ev.rd c] = [] := fun _ _ _ => rfl
    rw [xmit_datablock_exact buff p 0xFC s (by decide) (by decide) h]
    show writtenOf (advance _ _ _).log = _
    rw [written_advance,
      written_wait_ready, if_pos h, writtenOf_append, writtenOf_append, e1, e3,
      writtenOf_map_wr, List.append_nil, List.singleton_append]
  · simp only [xmit_datablock, h]
    simp [written_wait_ready]

theorem written_xmit_stop (buff : Nat → Nat) (p : Nat) (s : Sd) :
    writtenOf (xmit_datablock buff p 0xFD s).2.log = writtenOf s.log
      ++ (if (wait_ready s).1 then [0xFD] else []) := by
  by_cases h : (wait_ready s).1 = true
  · simp only [xmit_datablock, h, Bool.not_true, Bool.false_eq_true, if_false, if_true]
    rw [if_neg (by decide), xmit_mmc_eq _ 0 1 _ (by decide), written_advance,
      written_wait_ready]
    rfl
  · simp only [xmit_datablock, h]
    simp [written_wait_ready]

theorem xmit_ok_ready (buff : Nat → Nat) (p token : Nat) (s : Sd)
    (h : (xmit_datablock buff p token s).1 = true) : (wait_ready s).1 = true := by
  by_contra hw
  simp [xmit_datablock, hw] at h

theorem written_chunk_state (buff : Nat → Nat) (k : Nat) :
    ∀ (p : Nat) (s : Sd),
      (∀ j < k, (wait_ready (chunk_state buff p j s)).1 = true) →
      writtenOf (chunk_state buff p k s).log = writtenOf s.log ++ chunks_bytes buff p k := by
  induction k with
  | zero => intro p s _; simp [chunk_state, chunks_bytes]
  | succ k ih =>
    intro p s h
    have h0 : (wait_ready s).1 = true := by simpa [chunk_state] using h 0 (by omega)
    simp only [chunk_state, chunks_bytes]
    rw [ih (p + 512) _ (fun j hj => by simpa [chunk_state] using h (j + 1) (by omega)),
      written_xmit_data, if_pos h0, List.append_assoc]

theorem chunk_state_succ (buff : Nat → Nat) (j : Nat) :
    ∀ (p : Nat) (s : Sd), chunk_state buff p (j + 1) s
      = (xmit_datablock buff (p + 512 * j) 0xFC (chunk_state buff p j s)).2 := by
  induction j with
  | zero => intro p s; rfl
  | succ j ih =>
    intro p s
    have e : p + 512 * (j + 1) = p + 512 + 512 * j := by omega
    rw [e]
    exact ih (p + 512) _

theorem disk_write_multi (buff : Nat → Nat) (sector count : Nat) (s : Sd)
    (hst : (disk_status 0 s).1 &&& STA_NOINIT = 0) (hcount : 1 < count) :
    disk_write 0 buff sector count s =
      if (send_cmd SD_CMD_WRITE_MULT_BLOCK (rw_address (disk_status 0 s).2.CardType sector)
          (if (disk_status 0 s).2.CardType &&& CT_SDC ≠ 0
            then (send_cmd SD_ACMD23 count (disk_status 0 s).2).2
            else (disk_status 0 s).2)).1 = 0
      then
        (if (if (xmit_datablock buff 0 0xFD (write_blocks buff 0 count
              (send_cmd SD_CMD_WRITE_MULT_BLOCK
                (rw_address (disk_status 0 s).2.CardType sector)
                (if (disk_status 0 s).2.CardType &&& CT_SDC ≠ 0
                  then (send_cmd SD_ACMD23 count (disk_status 0 s).2).2
                  else (disk_status 0 s).2)).2).2).1
            then (write_blocks buff 0 count
              (send_cmd SD_CMD_WRITE_MULT_BLOCK
                (rw_address (disk_status 0 s).2.CardType sector)
                (if (disk_status 0 s).2.CardType &&& CT_SDC ≠ 0
                  then (send_cmd SD_ACMD23 count (disk_status 0 s).2).2
                  else (disk_status 0 s).2)).2).1
            else 1) ≠ 0 then RES_ERROR else RES_OK,
          deselect (xmit_datablock buff 0 0xFD (write_blocks buff 0 count
              (send_cmd SD_CMD_WRITE_MULT_BLOCK
                (rw_address (disk_status 0 s).2.CardType sector)
                (if (disk_status 0 s).2.CardType &&& CT_SDC ≠ 0
                  then (send_cmd SD_ACMD23 count (disk_status 0 s).2).2
                  else (disk_status 0 s).2)).2).2).2)
      else (RES_ERROR, deselect (send_cmd SD_CMD_WRITE_MULT_BLOCK
          (rw_address (disk_status 0 s).2.CardType sector)
          (if (disk_status 0 s).2.CardType &&& CT_SDC ≠ 0
            then (send_cmd SD_ACMD23 count (disk_status 0 s).2).2
            else (disk_status 0 s).2)).2) := by
  have h0 : count ≠ 0 := by omega
  have h1 : count ≠ 1 := by omega
  have hp : (disk_status 0 s).1 &&& STA_PROTECT = 0 := disk_status_protect_clear s
  simp only [disk_write, hst, hp, h0, h1, ne_eq, not_true_eq_false, if_false]

theorem wait_ready_loop_timeout (tmr : Nat) :
    ∀ (s : Sd), (∀ j < tmr, byteAt s j ≠ 0xFF) → (wait_ready_loop tmr s).1 = 0 := by
  induction tmr with
  | zero => intro s _; rfl
  | succ t ih =>
    intro s h
    have h0 : (SD_ReadByte s).1 ≠ 0xFF := h 0 (by omega)
    rw [wait_ready_loop_busy t s h0]
    apply ih
    intro j hj
    rw [dly_us_eq, SD_ReadByte_eq, advance_advance, byteAt_advance]
    have := h (j + 1) (by omega)
    rw [Nat.add_comm] at this
    exact this

theorem wait_ready_timeout (s : Sd) (h : ∀ j < 5000, byteAt s j ≠ 0xFF) :
    (wait_ready s).1 = false := by
  simp [wait_ready, wait_ready_loop_timeout 5000 s h]

set_option maxRecDepth 100000 in
theorem cardBusy_not_ready :
    (wait_ready (chunk_state (fun _ => 0) 0 1
      (send_cmd SD_CMD_WRITE_MULT_BLOCK 0 (disk_status 0 cardBusy).2).2)).1 = false := by
  apply wait_ready_timeout
  intro j _
  have hpos : (chunk_state (fun _ => 0) 0 1
      (send_cmd SD_CMD_WRITE_MULT_BLOCK 0 (disk_status 0 cardBusy).2).2).pos = 541 := by
    decide
  have hrx : (chunk_state (fun _ => 0) 0 1
      (send_cmd SD_CMD_WRITE_MULT_BLOCK 0 (disk_status 0 cardBusy).2).2).rx
      = cardBusy.rx := rfl
  unfold byteAt
  rw [hpos, hrx]
  have hgt : ¬ (541 + j ≤ 540) := by omega
  simp [cardBusy, startAt, hgt]

theorem disk_write_multi_reject (buff : Nat → Nat) (sector n m : Nat) (s σ : Sd)
    (c : Nat × Sd)
    (hst : (disk_status 0 s).1 &&& STA_NOINIT = 0) (hn : 2 ≤ n) (hm : m < n)
    (hσ : σ = if (disk_status 0 s).2.CardType &&& CT_SDC ≠ 0
      then (send_cmd SD_ACMD23 n (disk_status 0 s).2).2 else (disk_status 0 s).2)
    (hc : c = send_cmd SD_CMD_WRITE_MULT_BLOCK
      (rw_address (disk_status 0 s).2.CardType sector) σ)
    (hc0 : c.1 = 0)
    (hacc : ∀ j < m,
      (xmit_datablock buff (512 * j) 0xFC (chunk_state buff 0 j c.2)).1 = true)
    (hrej : (xmit_datablock buff (512 * m) 0xFC (chunk_state buff 0 m c.2)).1 = false) :
    disk_write 0 buff sector n s
      = (RES_ERROR, deselect (xmit_datablock buff 0 0xFD (chunk_state buff 0 (m + 1) c.2)).2) := by
  subst hσ
  subst hc
  have hloop := write_blocks_spec buff m n 0 _ (by omega)
    (fun j hj => by rw [Nat.zero_add]; exact hacc j hj)
    (fun _ => by rw [Nat.zero_add]; exact hrej)
  rw [if_pos hm, ← chunk_state_succ] at hloop
  rw [disk_write_multi buff sector n s hst (by omega), if_pos hc0, hloop]
  have hne : ∀ b : Bool, (if b = true then n - m else 1) ≠ 0 := by
    intro b
    split <;> omega
  rw [if_pos (hne _)]

theorem written_close (buff : Nat → Nat) (m : Nat) (t : Sd)
    (hacc : ∀ j < m, (xmit_datablock buff (512 * j) 0xFC (chunk_state buff 0 j t)).1 = true)
    (hrdy : (wait_ready (chunk_state buff 0 m t)).1 = true) :
    writtenOf (deselect (xmit_datablock buff 0 0xFD (chunk_state buff 0 (m + 1) t)).2).log
      = writtenOf t.log ++ chunks_bytes buff 0 (m + 1)
        ++ (if (wait_ready (chunk_state buff 0 (m + 1) t)).1 then [0xFD] else []) := by
  rw [written_deselect, written_xmit_stop, written_chunk_state buff (m + 1) 0 _ (by
    intro j hj
    by_cases hjm : j < m
    · exact xmit_ok_ready buff (512 * j) 0xFC _ (hacc j hjm)
    · obtain rfl : j = m := by omega
      exact hrdy)]

/-! ## The bytes written by one command frame -/

theorem written_SD_ReadByte (s : Sd) : writtenOf (SD_ReadByte s).2.log = writtenOf s.log := by
  rw [SD_ReadByte_eq, written_advance]
  simp [writtenOf]

theorem written_select (s : Sd) : writtenOf (select s).2.log = writtenOf s.log := by
  have h1 : writtenOf (SD_ReadByte (SD_CS_LOW s)).2.log = writtenOf s.log := by
    simp [SD_ReadByte, SD_CS_LOW, writtenOf_append, writtenOf]
  simp only [select]
  split
  · rw [written_wait_ready, h1]
  · rw [written_deselect, written_wait_ready, h1]

theorem written_xmit_frame (bs : List Nat) (s : Sd) :
    writtenOf (xmit_frame bs s).log = writtenOf s.log ++ bs.map (fun b => b % 256) := by
  induction bs generalizing s with
  | nil => simp [xmit_frame]
  | cons b bs ih =>
    simp only [xmit_frame, ih, SD_WriteByte_eq, written_advance, List.map_cons]
    simp [writtenOf]

theorem written_resp_loop (i : Nat) (s : Sd) :
    writtenOf (resp_loop i s).2.log = writtenOf s.log := by
  induction i generalizing s with
  | zero => exact written_SD_ReadByte s
  | succ n ih =>
    unfold resp_loop
    by_cases h : (SD_ReadByte s).1 &&& 0x80 ≠ 0 ∧ n ≠ 0
    · rw [if_pos h, ih, written_SD_ReadByte]
    · rw [if_neg h, written_SD_ReadByte]

theorem cmdFrame_bytes (c a : Nat) : (cmdFrame c a).map (fun b => b % 256) = cmdFrame c a := by
  simp only [cmdFrame, List.map_cons, List.map_nil, Nat.mod_mod]
  congr 5
  split
  · rfl
  · split <;> rfl

/-- The bytes `send_cmd` writes for one frame: the six bytes of `cmdFrame` when the card
select succeeds, none when it times out. -/
theorem written_send_cmd_frame (c a : Nat) (s : Sd) :
    writtenOf (send_cmd_frame c a s).2.log = writtenOf s.log
      ++ (if (select (deselect s)).1 then cmdFrame c a else []) := by
  have hsel : writtenOf (select (deselect s)).2.log = writtenOf s.log := by
    rw [written_select, written_deselect]
  unfold send_cmd_frame
  by_cases h : (select (deselect s)).1 = true
  · simp only [h, Bool.not_true, Bool.false_eq_true, if_false, if_true]
    rw [written_resp_loop]
    by_cases hc : c = SD_CMD_STOP_TRANSMISSION
    · simp only [hc, if_true]
      rw [written_SD_ReadByte, written_xmit_frame, hsel, cmdFrame_bytes]
    · simp only [hc, if_false]
      rw [written_xmit_frame, hsel, cmdFrame_bytes]
  · simp only [h]
    simp [hsel]

/-! ## Helper lemmas: command frames on the link -/

/-- Whether the ready wait succeeds depends only on the bytes the card drives. -/
theorem wait_ready_loop_fst_congr (tmr : Nat) :
    ∀ (s t : Sd), t.rx = s.rx → t.pos = s.pos →
      (wait_ready_loop tmr t).1 = (wait_ready_loop tmr s).1 := by
  induction tmr with
  | zero => intro s t _ _; rfl
  | succ n ih =>
    intro s t hrx hpos
    have hb : (SD_ReadByte t).1 = (SD_ReadByte s).1 := by
      simp [SD_ReadByte, hrx, hpos]
    by_cases h : (SD_ReadByte s).1 = 0xFF
    · rw [wait_ready_loop_ready n s h, wait_ready_loop_ready n t (hb.trans h)]
    · rw [wait_ready_loop_busy n s h, wait_ready_loop_busy n t (by rw [hb]; exact h)]
      exact ih _ _ hrx (by simp [dly_us, delay_ms, SD_ReadByte, hpos])

/-- Whether the select succeeds depends only on the bytes the card drives. -/
theorem select_fst_congr (s t : Sd) (hrx : t.rx = s.rx) (hpos : t.pos = s.pos) :
    (select (deselect t)).1 = (select (deselect s)).1 := by
  have h : (wait_ready (SD_ReadByte (SD_CS_LOW (deselect t))).2).1
      = (wait_ready (SD_ReadByte (SD_CS_LOW (deselect s))).2).1 := by
    simp only [wait_ready]
    rw [wait_ready_loop_fst_congr 5000 (SD_ReadByte (SD_CS_LOW (deselect s))).2
      (SD_ReadByte (SD_CS_LOW (deselect t))).2 hrx
      (by simp [SD_ReadByte, SD_CS_LOW, deselect, SD_CS_HIGH, hpos])]
  simp only [select, h]
  split <;> rfl

/-- Bytes written by a plain command call: the frame, when the select succeeds. -/
theorem written_send_cmd_plain (c a : Nat) (s : Sd) (hc : c &&& 0x80 = 0) :
    writtenOf (send_cmd c a s).2.log = writtenOf s.log
      ++ (if (select (deselect s)).1 then cmdFrame c a else []) := by
  rw [send_cmd_plain c a s hc, written_send_cmd_frame,
    select_fst_congr s { s with log := s.log ++ [Ev.cmd c a] } rfl rfl]
  simp [writtenOf_append, writtenOf]

/-- Masking with 0xFF keeps the low byte. -/
theorem and_ff (x : Nat) : x &&& 0xFF = x % 256 :=
  Nat.and_pow_two_sub_one_eq_mod x 8

/-- An opcode below 0x80 has no application-command marker. -/
theorem plain_of_lt (c : Nat) (hc : c < 0x80) : c &&& 0x80 = 0 := by
  have h : ∀ c, c < 0x80 → c &&& 0x80 = 0 := by decide
  exact h c hc

/-- The six frame bytes of a plain opcode, written with masks. -/
theorem cmdFrame_eq (c a : Nat) (hc : c < 0x80) :
    cmdFrame c a = [c ||| 0x40, (a >>> 24) &&& 0xFF, (a >>> 16) &&& 0xFF, (a >>> 8) &&& 0xFF,
      a &&& 0xFF,
      if c = SD_CMD_GO_IDLE_STATE then 0x95 else if c = SD_CMD_SEND_IF_COND then 0x87
      else 0x01] := by
  have h0 : (c ||| 0x40) % 256 = c ||| 0x40 :=
    Nat.mod_eq_of_lt (Nat.or_lt_two_pow (n := 8) (by omega) (by decide))
  simp only [cmdFrame, h0, and_ff]
  congr 5
  by_cases h8 : c = SD_CMD_SEND_IF_COND
  · subst h8; decide
  · simp [h8]

/-! ## Helper lemmas: capacity computation -/

/-- The capacity computation splits on the version bits being 1. -/
theorem sector_count_branches (csd : List Nat) :
    sector_count csd
      = if csd_version csd = 1 then some (sector_count_v2 csd) else sector_count_v1 csd := by
  rfl

/-- GET_SECTOR_COUNT on a ready drive whose CSD is read successfully. -/
theorem disk_ioctl_sector_count (s : Sd)
    (hst : (disk_status 0 s).1 &&& STA_NOINIT = 0)
    (hc : (send_cmd SD_CMD_SEND_CSD 0 (disk_status 0 s).2).1 = 0)
    (hb : (rcvr_datablock 16 (send_cmd SD_CMD_SEND_CSD 0 (disk_status 0 s).2).2).1 = true) :
    disk_ioctl 0 GET_SECTOR_COUNT s = (RES_OK,
      sector_count (rcvr_datablock 16 (send_cmd SD_CMD_SEND_CSD 0 (disk_status 0 s).2).2).2.1,
      deselect (rcvr_datablock 16 (send_cmd SD_CMD_SEND_CSD 0 (disk_status 0 s).2).2).2.2) := by
  simp only [disk_ioctl]
  rw [if_neg (fun h => h hst), if_neg (by decide), if_pos trivial, if_pos hc, if_pos hb]

/-- The bytes a successful rcvr_datablock stores are bytes of the stream. -/
theorem rcvr_datablock_data (btr : Nat) (s : Sd) (hbtr : btr ≠ 0)
    (h : (rcvr_datablock btr s).1 = true) :
    ∃ t : Sd, (rcvr_datablock btr s).2.1 = (List.range btr).map (byteAt t) := by
  simp only [rcvr_datablock] at h ⊢
  split
  · rename_i h1; rw [if_pos h1] at h; cases h
  · exact ⟨_, by rw [rcvr_mmc_eq _ _ hbtr]⟩

/-- A byte of the stream is below 256. -/
theorem byteAt_lt (s : Sd) (j : Nat) : byteAt s j < 256 := Nat.mod_lt _ (by decide)

/-- Reading past the end of a list of bytes gives a byte. -/
theorem getD_lt (l : List Nat) (h : ∀ x ∈ l, x < 256) (i : Nat) : l.getD i 0 < 256 := by
  rw [List.getD_eq_getElem?_getD]
  cases hx : l[i]? with
  | none => simp
  | some x => simpa using h x (List.getElem?_mem hx)

/-- A CSD read from the card is 16 bytes. -/
theorem csd_bytes (s : Sd) (h : (rcvr_datablock 16 s).1 = true) :
    (rcvr_datablock 16 s).2.1.length = 16 ∧ ∀ i, (rcvr_datablock 16 s).2.1.getD i 0 < 256 := by
  obtain ⟨t, ht⟩ := rcvr_datablock_data 16 s (by decide) h
  rw [ht]
  refine ⟨by simp, getD_lt _ ?_⟩
  intro x hx
  obtain ⟨j, _, rfl⟩ := List.mem_map.1 hx
  exact byteAt_lt t j


/-- A masked value is at most the mask. -/
theorem and_le_mask (x m : Nat) : x &&& m ≤ m := Nat.and_le_right

/-- The version-2 branch agrees with the formula over the integers unless bytes 8 and 9
are both 0xFF. -/
theorem sector_count_v2_exact (csd : List Nat) (h8 : csd.getD 8 0 < 256)
    (h9 : csd.getD 9 0 < 256) (h : ¬ (csd.getD 8 0 = 0xFF ∧ csd.getD 9 0 = 0xFF)) :
    sector_count_v2 csd = spec_v2_count csd := by
  simp only [sector_count_v2, spec_v2_count, Nat.shiftLeft_eq] at *
  omega

/-- The version-1/MMC branch for READ_BL_LEN at least 9: no intermediate value overflows
and the stored value is the formula over the integers. -/
theorem sector_count_v1_exact (csd : List Nat) (hb : ∀ i, csd.getD i 0 < 256)
    (hlen : 9 ≤ csd.getD 5 0 &&& 15) :
    spec_v1_exponent csd < 256 ∧ spec_v1_csize csd < 65536
      ∧ 9 ≤ spec_v1_exponent csd ∧ spec_v1_exponent csd - 9 ≤ 31
      ∧ spec_v1_csize csd * 2 ^ (spec_v1_exponent csd - 9) < 2 ^ 32
      ∧ sector_count_v1 csd
          = some (spec_v1_csize csd * 2 ^ (spec_v1_exponent csd - 9)) := by
  have a5 := and_le_mask (csd.getD 5 0) 15
  have a10 := and_le_mask (csd.getD 10 0) 128
  have a9 := and_le_mask (csd.getD 9 0) 3
  have a6 := and_le_mask (csd.getD 6 0) 3
  have b7 := hb 7
  have b8 := hb 8
  have hn : spec_v1_exponent csd ≤ 24 := by
    simp only [spec_v1_exponent, Nat.shiftLeft_eq, Nat.shiftRight_eq_div_pow]
    omega
  have hn9 : 9 ≤ spec_v1_exponent csd := by
    simp only [spec_v1_exponent]
    omega
  have hcs : spec_v1_csize csd ≤ 4096 := by
    simp only [spec_v1_csize, Nat.shiftLeft_eq, Nat.shiftRight_eq_div_pow]
    omega
  have hpow : 2 ^ (spec_v1_exponent csd - 9) ≤ 2 ^ 15 :=
    Nat.pow_le_pow_right (by decide) (by omega)
  have hprod : spec_v1_csize csd * 2 ^ (spec_v1_exponent csd - 9) < 2 ^ 32 :=
    lt_of_le_of_lt (Nat.mul_le_mul hcs hpow) (by decide)
  refine ⟨by omega, by omega, hn9, by omega, hprod, ?_⟩
  have e1 : sector_count_v1 csd = if spec_v1_exponent csd % 256 < 9 then none
      else some (((spec_v1_csize csd % 65536) <<< (spec_v1_exponent csd % 256 - 9)) % 2 ^ 32) :=
    rfl
  rw [e1, Nat.mod_eq_of_lt (by omega : spec_v1_exponent csd < 256),
    Nat.mod_eq_of_lt (by omega : spec_v1_csize csd < 65536), if_neg (by omega),
    Nat.shiftLeft_eq, Nat.mod_eq_of_lt hprod]

/-! ## Helper lemmas: chip-select and the status flags -/

/-- After deselect chip-select is high. -/
theorem deselect_cs (s : Sd) : (deselect s).cs = true := rfl

/-- A released link that started with chip-select high ends with it high. -/
theorem Released.high {s t : Sd} (h : Released s t) (hs : s.cs = true) : t.cs = true := by
  rcases h with h | ⟨_, h⟩
  · exact h
  · rw [h, hs]

/-- The function disk_status releases chip-select. -/
theorem released_disk_status (drv : Nat) (s : Sd) : Released s (disk_status drv s).2 := by
  by_cases hd : drv = 0
  · subst hd
    by_cases h : status0 s &&& STA_NOINIT = 0
    · rw [disk_status_live s h]
      exact Or.inl rfl
    · rw [disk_status_idle s h]
      exact Or.inr ⟨rfl, rfl⟩
  · rw [disk_status_nonzero drv s hd]
    exact Or.inr ⟨rfl, rfl⟩

/-- The function disk_initialize releases chip-select. -/
theorem released_disk_init (drv : Nat) (s : Sd) :
    Released s ( disk_initialize drv s).2 := by
  simp only [ disk_initialize]
  split
  · exact released_disk_status drv s
  · exact Or.inl (deselect_cs _)

/-- The function disk_read releases chip-select. -/
theorem released_disk_read (drv sector count : Nat) (s : Sd) :
    Released s (disk_read drv sector count s).2.2 := by
  simp only [disk_read]
  split_ifs <;> first | exact released_disk_status drv s | exact Or.inl (deselect_cs _)

/-- The function disk_write releases chip-select. -/
theorem released_disk_write (drv : Nat) (buff : Nat → Nat) (sector count : Nat) (s : Sd) :
    Released s (disk_write drv buff sector count s).2 := by
  simp only [disk_write]
  split
  · exact released_disk_status drv s
  · split
    · exact released_disk_status drv s
    · split
      · exact released_disk_status drv s
      · have key : ∀ (c : Prop) [Decidable c] (x y : DRESULT × Sd), x.2.cs = true →
            y.2.cs = true → (if c then x else y).2.cs = true := by
          intro c _ x y hx hy
          split <;> assumption
        split
        · exact Or.inl (key _ _ _ (deselect_cs _) (deselect_cs _))
        · exact Or.inl (key _ _ _ (deselect_cs _) (deselect_cs _))

/-- The function disk_ioctl releases chip-select. -/
theorem released_disk_ioctl (drv ctrl : Nat) (s : Sd) :
    Released s (disk_ioctl drv ctrl s).2.2 := by
  simp only [disk_ioctl]
  split_ifs <;> first | exact released_disk_status drv s | exact Or.inl (deselect_cs _)

/-- The value disk_status returns is the value it stores in Stat. -/
theorem disk_status_stat (drv : Nat) (s : Sd) :
    (disk_status drv s).2.Stat = (disk_status drv s).1 := by
  by_cases hd : drv = 0
  · subst hd
    by_cases h : status0 s &&& STA_NOINIT = 0
    · rw [disk_status_live s h]
    · rw [disk_status_idle s h]
  · rw [disk_status_nonzero drv s hd]

/-- Clearing NoMedia and WriteProtected twice is clearing them once. -/
theorem status0_idem (s t : Sd) (h : t.Stat = status0 s) : status0 t = status0 s := by
  have e : ∀ x : Nat, (((x &&& 0xFD) &&& 0xFB) &&& 0xFD) &&& 0xFB = (x &&& 0xFD) &&& 0xFB := by
    intro x
    apply Nat.eq_of_testBit_eq
    intro i
    simp only [Nat.testBit_and]
    cases Nat.testBit x i <;> cases Nat.testBit 0xFD i <;> cases Nat.testBit 0xFB i <;> rfl
  simp only [status0, h]
  exact e s.Stat

/-- Clearing NoMedia and WriteProtected keeps a set NotInitialized. -/
theorem status0_idem_noinit (s t : Sd) (h : t.Stat = status0 s ||| STA_NOINIT) :
    status0 t = status0 s ||| STA_NOINIT := by
  have e : ∀ x : Nat, ((x ||| 1) &&& 0xFD) &&& 0xFB = ((x &&& 0xFD) &&& 0xFB) ||| 1 := by
    intro x
    rw [or_and_bit, or_and_bit]
    rfl
  have hs := status0_idem s { s with Stat := status0 s } rfl
  simp only [status0] at hs ⊢
  rw [h]
  simp only [status0]
  exact (e _).trans (congrArg (fun v => v ||| 1) hs)

/-- Clearing NoMedia and WriteProtected does not touch NotInitialized. -/
theorem status0_noinit (s : Sd) : status0 s &&& STA_NOINIT = s.Stat &&& STA_NOINIT := by
  simp only [status0]
  apply Nat.eq_of_testBit_eq
  intro i
  simp only [Nat.testBit_and]
  rcases Nat.eq_zero_or_pos i with hi | hi
  · subst hi
    cases Nat.testBit s.Stat 0 <;> rfl
  · have h1 : Nat.testBit STA_NOINIT i = false := by
      have : STA_NOINIT < 2 ^ i := Nat.one_lt_two_pow (by omega)
      exact Nat.testBit_lt_two_pow this
    simp [h1]

/-! ## Helper lemmas: polls and requested delays -/

/-- The requested delay of a concatenated log. -/
theorem delayOf_append (l₁ l₂ : List Ev) : delayOf (l₁ ++ l₂) = delayOf l₁ + delayOf l₂ := by
  induction l₁ with
  | nil => simp [delayOf]
  | cons e l ih => cases e <;> simp [delayOf, ih, Nat.add_assoc]

/-- The reads of a concatenated log. -/
theorem readsOf_append (l₁ l₂ : List Ev) : readsOf (l₁ ++ l₂) = readsOf l₁ + readsOf l₂ := by
  induction l₁ with
  | nil => simp [readsOf]
  | cons e l ih => cases e <;> simp [readsOf, ih, Nat.add_assoc]

/-- A ready wait that never sees 0xFF runs out: one read and one dly_us(100) per round. -/
theorem wait_ready_loop_polls (tmr : Nat) :
    ∀ (s : Sd), (∀ j < tmr, byteAt s j ≠ 0xFF) →
      (wait_ready_loop tmr s).1 = 0
        ∧ readsOf (wait_ready_loop tmr s).2.log = readsOf s.log + tmr
        ∧ delayOf (wait_ready_loop tmr s).2.log = delayOf s.log + tmr := by
  induction tmr with
  | zero => intro s _; exact ⟨rfl, rfl, by simp [wait_ready_loop]⟩
  | succ n ih =>
    intro s h
    have h0 : (SD_ReadByte s).1 ≠ 0xFF := by
      have := h 0 (Nat.succ_pos n)
      simpa [byteAt, SD_ReadByte] using this
    rw [wait_ready_loop_busy n s h0]
    have hn : ∀ j < n, byteAt (dly_us 100 (SD_ReadByte s).2) j ≠ 0xFF := by
      intro j hj
      have := h (j + 1) (Nat.succ_lt_succ hj)
      simpa [byteAt, dly_us, delay_ms, SD_ReadByte, Nat.add_assoc, Nat.add_comm 1 j] using this
    obtain ⟨a, b, c⟩ := ih _ hn
    refine ⟨a, ?_, ?_⟩
    · rw [b]
      simp [dly_us, delay_ms, SD_ReadByte, readsOf_append, readsOf]
      omega
    · rw [c]
      simp [dly_us, delay_ms, SD_ReadByte, delayOf_append, delayOf]
      omega


/-- Reads and requested delay of k token polls. -/
theorem delayOf_times (k : Nat) (b : Nat) :
    delayOf (times k [Ev.rd b, Ev.delay 1]) = k
      ∧ readsOf (times k [Ev.rd b, Ev.delay 1]) = k := by
  induction k with
  | zero => exact ⟨rfl, rfl⟩
  | succ n ih =>
    simp only [times, delayOf_append, readsOf_append, ih.1, ih.2]
    simp [delayOf, readsOf, Nat.add_comm]

/-- The token wait on a link that returns 0xFF for 1000 reads gives up after them. -/
theorem rcvr_datablock_polls (btr : Nat) (s : Sd) (h : ∀ j < 1000, byteAt s j = 0xFF) :
    (rcvr_datablock btr s).1 = false
      ∧ readsOf (rcvr_datablock btr s).2.2.log = readsOf s.log + 1000
      ∧ delayOf (rcvr_datablock btr s).2.2.log = delayOf s.log + 1000 := by
  have e : rcvr_datablock btr s
      = (false, [], advance s 1000 (times 1000 [Ev.rd 0xFF, Ev.delay 1])) := by
    simp only [rcvr_datablock]
    rw [token_loop_none 1000 0 s (by decide) h, if_pos (show (0xFF : Nat) ≠ 0xFE by decide)]
  rw [e]
  refine ⟨rfl, ?_, ?_⟩
  · show readsOf (s.log ++ times 1000 [Ev.rd 0xFF, Ev.delay 1]) = _
    rw [readsOf_append, (delayOf_times 1000 0xFF).2]
  · show delayOf (s.log ++ times 1000 [Ev.rd 0xFF, Ev.delay 1]) = _
    rw [delayOf_append, (delayOf_times 1000 0xFF).1]

/-- Reading a byte requests no delay. -/
theorem delayOf_read (s : Sd) : delayOf (SD_ReadByte s).2.log = delayOf s.log := by
  simp [SD_ReadByte, delayOf_append, delayOf]

/-- Writing a byte requests no delay. -/
theorem delayOf_write (b : Nat) (s : Sd) : delayOf (SD_WriteByte b s).2.log = delayOf s.log := by
  simp [SD_WriteByte, delayOf_append, delayOf]

/-- Deselecting requests no delay. -/
theorem delayOf_deselect (s : Sd) : delayOf (deselect s).log = delayOf s.log := by
  simp [deselect, SD_CS_HIGH, SD_ReadByte, delayOf_append, delayOf]

/-- Selecting a card that is ready at once requests no delay. -/
theorem delayOf_select (s : Sd) (h : Floating s) :
    delayOf (select s).2.log = delayOf s.log := by
  have hf : Floating (SD_ReadByte (SD_CS_LOW s)).2 := (floating_read _ h).2
  have hw : wait_ready (SD_ReadByte (SD_CS_LOW s)).2
      = (true, (SD_ReadByte (SD_ReadByte (SD_CS_LOW s)).2).2) := by
    simp only [wait_ready]
    rw [wait_ready_loop_ready 4999 _ (floating_read _ hf).1]
    rfl
  simp only [select, hw, if_true]
  simp [SD_CS_LOW, SD_ReadByte, delayOf_append, delayOf]

/-- Writing a frame requests no delay. -/
theorem delayOf_xmit_frame (bs : List Nat) :
    ∀ s : Sd, delayOf (xmit_frame bs s).log = delayOf s.log := by
  induction bs with
  | nil => intro s; rfl
  | cons b bs ih =>
    intro s
    simp only [xmit_frame]
    rw [ih, delayOf_write]

/-- The response poll requests no delay. -/
theorem delayOf_resp_loop (i : Nat) :
    ∀ s : Sd, delayOf (resp_loop i s).2.log = delayOf s.log := by
  induction i with
  | zero => intro s; exact delayOf_read s
  | succ n ih =>
    intro s
    simp only [resp_loop]
    split
    · rw [ih, delayOf_read]
    · exact delayOf_read s

/-- A command on a floating link requests no delay. -/
theorem delayOf_send_cmd_frame (c a : Nat) (s : Sd) (h : Floating s) :
    delayOf (send_cmd_frame c a s).2.log = delayOf s.log := by
  have hd := floating_deselect s h
  have hs := floating_select _ hd
  simp only [send_cmd_frame, hs.1]
  simp only [Bool.not_true, Bool.false_eq_true, if_false]
  rw [delayOf_resp_loop]
  split
  · rw [delayOf_read, delayOf_xmit_frame, delayOf_select _ hd, delayOf_deselect]
  · rw [delayOf_xmit_frame, delayOf_select _ hd, delayOf_deselect]


/-- A call of send_cmd on a floating link requests no delay. -/
theorem delayOf_send_cmd (c a : Nat) (s : Sd) (h : Floating s) :
    delayOf (send_cmd c a s).2.log = delayOf s.log := by
  by_cases hm : c &&& 0x80 ≠ 0
  · rw [send_cmd_app c a s hm]
    have h55 := floating_send_cmd_frame SD_CMD55 0
      { s with log := s.log ++ [Ev.cmd c a] ++ [Ev.cmd SD_CMD55 0] } h
    rw [if_pos (by rw [h55.1]; decide),
      delayOf_send_cmd_frame SD_CMD55 0
        { s with log := s.log ++ [Ev.cmd c a] ++ [Ev.cmd SD_CMD55 0] } h]
    simp [delayOf_append, delayOf]
  · rw [send_cmd_plain c a s (by simpa using hm),
      delayOf_send_cmd_frame c a { s with log := s.log ++ [Ev.cmd c a] } h]
    simp [delayOf_append, delayOf]

/-- Each failed attempt of an idle-exit loop requests dly_us(1000), that is 10 ms. -/
theorem delayOf_idle_retry (cmd arg : Nat) :
    ∀ (k : Nat) (s : Sd), Floating s →
      delayOf (idle_retry cmd arg k s).log = delayOf s.log + k * (1000 / 100) := by
  intro k
  induction k with
  | zero => intro s _; simp [idle_retry]
  | succ n ih =>
    intro s h
    have hf : Floating (dly_us 1000 (send_cmd cmd arg s).2) := (floating_send_cmd cmd arg s h).2
    simp only [idle_retry]
    rw [ih _ hf]
    have e : delayOf (dly_us 1000 (send_cmd cmd arg s).2).log
        = delayOf (send_cmd cmd arg s).2.log + 1000 / 100 := by
      simp [dly_us, delay_ms, delayOf_append, delayOf]
    rw [e, delayOf_send_cmd cmd arg s h]
    omega

/-- The undriven link is floating. -/
theorem cardFloat_floating : Floating cardFloat := fun _ _ => rfl

/-- The stuck link never returns 0xFF. -/
theorem cardStuck_busy (j : Nat) : byteAt cardStuck j ≠ 0xFF := by
  show (0 % 256 : Nat) ≠ 0xFF
  decide

/-- The function wait_ready on a link that never returns 0xFF. -/
theorem wait_ready_polls (s : Sd) (h : ∀ j < 5000, byteAt s j ≠ 0xFF) :
    (wait_ready s).1 = false
      ∧ readsOf (wait_ready s).2.log = readsOf s.log + 5000
      ∧ delayOf (wait_ready s).2.log = delayOf s.log + 5000 := by
  have hw := wait_ready_loop_polls 5000 s h
  refine ⟨wait_ready_timeout s h, ?_, ?_⟩
  · simp only [wait_ready]
    exact hw.2.1
  · simp only [wait_ready]
    exact hw.2.2

/-- An idle-exit loop on a floating link: all attempts fail. -/
theorem idle_loop_floating (cmd arg tmr : Nat) (s : Sd) (h : Floating s)
    (hc : cmd &&& 0x80 = 0) :
    (idle_loop cmd arg tmr s).1 = 0
      ∧ cmdsOf (idle_loop cmd arg tmr s).2.log = cmdsOf s.log ++ times tmr [(cmd, arg)]
      ∧ delayOf (idle_loop cmd arg tmr s).2.log = delayOf s.log + tmr * (1000 / 100) := by
  rw [idle_loop_timeout cmd arg tmr s (fun j _ => floating_never_idle_exit _ _ _ h j)]
  refine ⟨rfl, ?_, ?_⟩
  · show cmdsOf (idle_retry cmd arg tmr s).log = _
    rw [cmds_idle_retry, callsOf_plain cmd arg hc]
  · exact delayOf_idle_retry cmd arg tmr s h

/-! ## Helper lemmas: calls of a write -/

/-- A bitwise or is 0 only when both sides are. -/
theorem or_eq_zero (a b : Nat) : a ||| b = 0 ↔ a = 0 ∧ b = 0 := by
  constructor
  · intro h
    have key : ∀ i, (Nat.testBit a i || Nat.testBit b i) = false := by
      intro i
      rw [← Nat.testBit_or, h, Nat.zero_testBit]
    constructor
    · apply Nat.eq_of_testBit_eq
      intro i
      have := key i
      rw [Nat.zero_testBit]
      cases ha : Nat.testBit a i
      · rfl
      · rw [ha] at this; simp at this
    · apply Nat.eq_of_testBit_eq
      intro i
      have := key i
      rw [Nat.zero_testBit]
      cases hb : Nat.testBit b i
      · rfl
      · rw [hb] at this; simp at this
  · rintro ⟨rfl, rfl⟩
    rfl

/-- The mask CT_SDC tests for SD version 1 or SD version 2. -/
theorem sdc_iff (x : Nat) : x &&& CT_SDC ≠ 0 ↔ (x &&& CT_SD1 ≠ 0 ∨ x &&& CT_SD2 ≠ 0) := by
  have e : x &&& CT_SDC = (x &&& CT_SD1) ||| (x &&& CT_SD2) := by
    show x &&& (CT_SD1 ||| CT_SD2) = _
    rw [Nat.and_comm, or_and_bit, Nat.and_comm CT_SD1, Nat.and_comm CT_SD2]
  rw [e, ne_eq, or_eq_zero]
  constructor
  · intro h
    by_cases h1 : x &&& CT_SD1 = 0
    · exact Or.inr (fun h2 => h ⟨h1, h2⟩)
    · exact Or.inl h1
  · rintro (h | h) ⟨h1, h2⟩
    · exact h h1
    · exact h h2

/-- A status check that reports the drive ready made exactly the call of READ_OCR. -/
theorem cmds_disk_status_ready (s : Sd) (hst : (disk_status 0 s).1 &&& STA_NOINIT = 0) :
    cmdsOf (disk_status 0 s).2.log = cmdsOf s.log ++ [(SD_CMD58, 0)] := by
  have h0 : status0 s &&& STA_NOINIT = 0 := by
    by_contra h
    rw [disk_status_idle s h] at hst
    exact h hst
  rw [disk_status_live s h0]
  show cmdsOf (SD_CS_HIGH (rcvr_mmc 4 (send_cmd SD_CMD58 0 s).2).2).log = _
  rw [(quiet_SD_CS_HIGH _).cmds, (quiet_rcvr_mmc _ _).cmds, cmds_send_cmd,
    callsOf_plain SD_CMD58 0 (by decide)]

/-- All calls of send_cmd in a write on a ready drive. -/
theorem disk_write_calls (buff : Nat → Nat) (sector count : Nat) (s : Sd)
    (hst : (disk_status 0 s).1 &&& STA_NOINIT = 0) (hcount : count ≠ 0) :
    cmdsOf (disk_write 0 buff sector count s).2.log = cmdsOf (disk_status 0 s).2.log
      ++ (if count ≠ 1 ∧ (disk_status 0 s).2.CardType &&& CT_SDC ≠ 0
          then [(SD_ACMD23, count), (SD_CMD55, 0)] else [])
      ++ [(if count = 1 then SD_CMD_WRITE_SINGLE_BLOCK else SD_CMD_WRITE_MULT_BLOCK,
          rw_address (disk_status 0 s).2.CardType sector)] := by
  have hp : (disk_status 0 s).1 &&& STA_PROTECT = 0 := disk_status_protect_clear s
  have h23 : callsOf SD_ACMD23 count = [(SD_ACMD23, count), (SD_CMD55, 0)] := by
    simp [callsOf, SD_ACMD23]
  simp only [disk_write, hst, hp, ne_eq, not_true_eq_false, if_false, hcount]
  by_cases h1 : count = 1
  · simp only [h1, if_true, not_true_eq_false, false_and, if_false]
    split
    · show cmdsOf (deselect _).log = _
      rw [(quiet_deselect _).cmds, (quiet_xmit_datablock _ _ _ _).cmds, cmds_send_cmd,
        callsOf_plain _ _ (by decide), List.append_nil]
    · show cmdsOf (deselect _).log = _
      rw [(quiet_deselect _).cmds, cmds_send_cmd, callsOf_plain _ _ (by decide),
        List.append_nil]
  · simp only [h1, if_false, not_false_eq_true, true_and]
    by_cases hsdc : (disk_status 0 s).2.CardType &&& CT_SDC = 0
    · simp only [hsdc, not_true_eq_false, if_false]
      split
      · show cmdsOf (deselect _).log = _
        rw [(quiet_deselect _).cmds, (quiet_xmit_datablock _ _ _ _).cmds,
          (quiet_write_blocks _ _ _ _).cmds, cmds_send_cmd, callsOf_plain _ _ (by decide),
          List.append_nil]
      · show cmdsOf (deselect _).log = _
        rw [(quiet_deselect _).cmds, cmds_send_cmd, callsOf_plain _ _ (by decide),
          List.append_nil]
    · simp only [hsdc, not_false_eq_true, if_true]
      split
      · show cmdsOf (deselect _).log = _
        rw [(quiet_deselect _).cmds, (quiet_xmit_datablock _ _ _ _).cmds,
          (quiet_write_blocks _ _ _ _).cmds, cmds_send_cmd, cmds_send_cmd,
          callsOf_plain SD_CMD_WRITE_MULT_BLOCK _ (by decide), h23]
      · show cmdsOf (deselect _).log = _
        rw [(quiet_deselect _).cmds, cmds_send_cmd, cmds_send_cmd,
          callsOf_plain SD_CMD_WRITE_MULT_BLOCK _ (by decide), h23]

/-! ## Helper lemmas: the response poll -/

/-- One round of the response poll. -/
theorem resp_loop_step (i : Nat) (s : Sd) :
    resp_loop (i + 1) s =
      if byteAt s 0 &&& 0x80 ≠ 0 ∧ i ≠ 0 then resp_loop i (advance s 1 [Ev.rd (byteAt s 0)])
      else (byteAt s 0, advance s 1 [Ev.rd (byteAt s 0)]) := rfl

/-- The reads of n + 1 bytes are the first read followed by n reads. -/
theorem reads_succ (s : Sd) (n : Nat) :
    (List.range (n + 1)).map (fun j => Ev.rd (byteAt s j))
      = Ev.rd (byteAt s 0)
        :: (List.range n).map (fun j => Ev.rd (byteAt (advance s 1 [Ev.rd (byteAt s 0)]) j)) := by
  rw [List.range_succ_eq_map]
  simp [Function.comp_def, byteAt_advance, Nat.add_comm]

/-- The response poll entered with the counter at i + 1 reads n bytes, 1 ≤ n ≤ i + 1, stops at the
first byte whose bit 7 is clear and returns the last byte read. -/
theorem resp_loop_spec (i : Nat) :
    ∀ s : Sd, ∃ n, 1 ≤ n ∧ n ≤ i + 1
      ∧ resp_loop (i + 1) s
          = (byteAt s (n - 1), advance s n ((List.range n).map (fun j => Ev.rd (byteAt s j))))
      ∧ (∀ j < n - 1, byteAt s j &&& 0x80 ≠ 0)
      ∧ (n < i + 1 → byteAt s (n - 1) &&& 0x80 = 0) := by
  induction i with
  | zero =>
    intro s
    refine ⟨1, le_refl _, le_refl _, ?_, fun j hj => absurd hj (by omega), fun h => absurd h (by omega)⟩
    rw [resp_loop_step, if_neg (fun h => h.2 rfl)]
    rfl
  | succ i ih =>
    intro s
    by_cases h : byteAt s 0 &&& 0x80 ≠ 0
    · obtain ⟨n, h1, h2, h3, h4, h5⟩ := ih (advance s 1 [Ev.rd (byteAt s 0)])
      refine ⟨n + 1, by omega, by omega, ?_, ?_, ?_⟩
      · rw [resp_loop_step, if_pos ⟨h, Nat.succ_ne_zero i⟩, h3, byteAt_advance, advance_advance,
          reads_succ, Nat.add_comm 1 n]
        congr 2
        omega
      · intro j hj
        rcases Nat.eq_zero_or_pos j with rfl | hpos
        · exact h
        · have := h4 (j - 1) (by omega)
          rw [byteAt_advance] at this
          rwa [show 1 + (j - 1) = j by omega] at this
      · intro hn
        have := h5 (by omega)
        rw [byteAt_advance] at this
        rwa [show 1 + (n - 1) = n + 1 - 1 by omega] at this
    · refine ⟨1, le_refl _, by omega, ?_, fun j hj => absurd hj (by omega), fun _ => by simpa using h⟩
      rw [resp_loop_step, if_neg (fun hh => h hh.1)]
      rfl

/-- After a successful select the result of lines 360-391 is that of the response poll. -/
theorem send_cmd_frame_poll (Cmd Arg : Nat) (s : Sd) (hsel : (select (deselect s)).1 = true) :
    send_cmd_frame Cmd Arg s = resp_loop 10 (after_frame Cmd Arg s) := by
  simp only [send_cmd_frame, after_frame, hsel, Bool.not_true, Bool.false_eq_true, if_false]

/-- The response of one frame: at most 10 bytes are polled. -/
theorem send_cmd_frame_response (Cmd Arg : Nat) (s : Sd)
    (hsel : (select (deselect s)).1 = true) :
    ∃ n, 1 ≤ n ∧ n ≤ 10
      ∧ send_cmd_frame Cmd Arg s = (byteAt (after_frame Cmd Arg s) (n - 1),
          advance (after_frame Cmd Arg s) n
            ((List.range n).map (fun j => Ev.rd (byteAt (after_frame Cmd Arg s) j))))
      ∧ (∀ j < n - 1, byteAt (after_frame Cmd Arg s) j &&& 0x80 ≠ 0)
      ∧ (n < 10 → byteAt (after_frame Cmd Arg s) (n - 1) &&& 0x80 = 0) := by
  rw [send_cmd_frame_poll Cmd Arg s hsel]
  exact resp_loop_spec 9 (after_frame Cmd Arg s)

/-- When polling starts the six frame bytes are written. -/
theorem written_after_frame (Cmd Arg : Nat) (s : Sd) :
    writtenOf (after_frame Cmd Arg s).log = writtenOf s.log ++ cmdFrame Cmd Arg := by
  simp only [after_frame]
  split
  · rw [written_SD_ReadByte, written_xmit_frame, written_select, written_deselect,
      cmdFrame_bytes]
  · rw [written_xmit_frame, written_select, written_deselect, cmdFrame_bytes]

/-- Between the frame and the poll one byte is read for STOP_TRANSMISSION, none otherwise. -/
theorem pos_after_frame (Cmd Arg : Nat) (s : Sd) :
    (after_frame Cmd Arg s).pos = (xmit_frame (cmdFrame Cmd Arg) (select (deselect s)).2).pos
      + (if Cmd = SD_CMD_STOP_TRANSMISSION then 1 else 0) := by
  simp only [after_frame]
  split <;> rfl

/-! ## Helper lemmas: select timeout and application commands -/

/-- The select fails when none of the 5000 polled bytes is 0xFF. -/
theorem select_timeout (s : Sd) (h : ∀ j < 5000, byteAt s (j + 2) ≠ 0xFF) :
    (select (deselect s)).1 = false := by
  have hw : (wait_ready (SD_ReadByte (SD_CS_LOW (deselect s))).2).1 = false := by
    apply wait_ready_timeout
    intro j hj
    have := h j hj
    simpa [byteAt, SD_ReadByte, SD_CS_LOW, deselect, SD_CS_HIGH, Nat.add_assoc,
      Nat.add_comm, Nat.add_left_comm] using this
  simp only [select, hw]
  rfl

/-- When the select fails lines 360-391 return 0xFF, write nothing and leave chip-select high. -/
theorem send_cmd_frame_timeout (c a : Nat) (s : Sd) (hsel : (select (deselect s)).1 = false) :
    (send_cmd_frame c a s).1 = 0xFF ∧ (send_cmd_frame c a s).2.cs = true
      ∧ writtenOf (send_cmd_frame c a s).2.log = writtenOf s.log := by
  refine ⟨?_, ?_, ?_⟩
  · simp [send_cmd_frame, hsel]
  · have hw : (wait_ready (SD_ReadByte (SD_CS_LOW (deselect s))).2).1 = false := by
      by_contra hne
      have ht : (wait_ready (SD_ReadByte (SD_CS_LOW (deselect s))).2).1 = true := by
        simpa using hne
      simp [select, ht] at hsel
    simp only [send_cmd_frame, hsel, Bool.not_false, if_true]
    simp only [select, hw]
    rfl
  · rw [written_send_cmd_frame, hsel]
    simp

/-- The first frame byte of an opcode whose marker is stripped. -/
theorem cmdFrame_head (c a : Nat) :
    (cmdFrame (c &&& 0x7F) a).head? = some ((c &&& 0x7F) ||| 0x40) := by
  have h : (c &&& 0x7F) ||| 0x40 < 256 :=
    Nat.or_lt_two_pow (n := 8) (lt_of_le_of_lt Nat.and_le_right (by decide)) (by decide)
  simp only [cmdFrame, List.head?_cons]
  rw [Nat.mod_eq_of_lt h]

/-- A response of at most 1 can only come after a successful select. -/
theorem send_cmd_frame_answered (c a : Nat) (s : Sd) (h : (send_cmd_frame c a s).1 ≤ 1) :
    (select (deselect s)).1 = true := by
  by_contra hne
  have hf : (select (deselect s)).1 = false := by simpa using hne
  rw [(send_cmd_frame_timeout c a s hf).1] at h
  exact absurd h (by decide)

/-! ## Helper lemmas: the payload of a received block -/

/-- When the start token is the k-th polled byte, the n bytes after it are stored and 2 more
are read, n being the number of rounds of rcvr_mmc (2^32 for a byte count of 0). -/
theorem rcvr_datablock_found (btr k : Nat) (s : Sd) (hk : k < 1000)
    (hff : ∀ j < k, byteAt s j = 0xFF) (hfe : byteAt s k = 0xFE) (n : Nat)
    (hn : n = if btr = 0 then 2 ^ 32 else btr) :
    rcvr_datablock btr s = (true, (List.range n).map (fun i => byteAt s (k + 1 + i)),
      advance s (k + 1 + n + 2)
        (times k [Ev.rd 0xFF, Ev.delay 1] ++ [Ev.rd 0xFE]
          ++ (List.range n).map (fun i => Ev.rd (byteAt s (k + 1 + i)))
          ++ [Ev.rd (byteAt s (k + 1 + n)), Ev.rd (byteAt s (k + 1 + n + 1))])) := by
  have ht := token_loop_found k 1000 0 s hk hff (by rw [hfe]; decide)
  have hd : ∀ t : Sd, rcvr_mmc btr t = ((List.range n).map (byteAt t),
      advance t n ((List.range n).map (fun i => Ev.rd (byteAt t i)))) := by
    intro t
    simp only [rcvr_mmc]
    rw [← hn]
    exact rcvr_mmc_loop_eq n t
  simp only [rcvr_datablock]
  rw [if_neg (by rw [ht, hfe]; exact fun h => h rfl), ht, hd, rcvr_mmc_eq 2 _ (by decide),
    advance_advance, advance_advance, hfe]
  have e1 : (List.range n).map
      (byteAt (advance s (k + 1) (times k [Ev.rd 0xFF, Ev.delay 1] ++ [Ev.rd 0xFE])))
      = (List.range n).map (fun i => byteAt s (k + 1 + i)) := by
    congr 1
    funext i
    exact byteAt_advance _ _ _ _
  simp only [byteAt_advance]
  rw [e1]
  rfl

/-- A successful rcvr_datablock found the start token within its 1000 polls. -/
theorem rcvr_datablock_ok_token (btr : Nat) (s : Sd) (hok : (rcvr_datablock btr s).1 = true) :
    ∃ k, k < 1000 ∧ (∀ j < k, byteAt s j = 0xFF) ∧ byteAt s k = 0xFE := by
  by_cases hall : ∀ j < 1000, byteAt s j = 0xFF
  · exfalso
    have ht := token_loop_none 1000 0 s (by omega) hall
    simp only [rcvr_datablock] at hok
    rw [if_pos (by rw [ht]; show (255 : Nat) ≠ 254; decide)] at hok
    exact Bool.false_ne_true hok
  · have hex : ∃ j, j < 1000 ∧ byteAt s j ≠ 0xFF := by
      by_contra hcon
      exact hall (fun j hj => by_contra (fun hne => hcon ⟨j, hj, hne⟩))
    let k := Nat.find hex
    have hk : k < 1000 ∧ byteAt s k ≠ 0xFF := Nat.find_spec hex
    have hmin : ∀ j < k, byteAt s j = 0xFF := by
      intro j hj
      by_contra hne
      exact Nat.find_min hex hj ⟨by omega, hne⟩
    refine ⟨k, hk.1, hmin, ?_⟩
    by_contra hfe
    have ht := token_loop_found k 1000 0 s hk.1 hmin hk.2
    simp only [rcvr_datablock] at hok
    rw [if_pos (by rw [ht]; exact hfe)] at hok
    exact Bool.false_ne_true hok

/-! ## Helper lemmas: the close call of a multiple block write -/

/-- With the token 0xFD and a ready card, xmit_datablock writes the token and returns 1. -/
theorem xmit_stop_exact (buff : Nat → Nat) (p : Nat) (s : Sd) (hrdy : (wait_ready s).1 = true) :
    xmit_datablock buff p 0xFD s = (true, advance (wait_ready s).2 1 [Ev.wr 0xFD]) := by
  simp only [xmit_datablock, hrdy, Bool.not_true, Bool.false_eq_true, if_false]
  rw [if_neg (by decide), xmit_mmc_eq _ 0 1 _ (by decide)]
  rfl

/-- When the card is not ready xmit_datablock returns 0 after the wait. -/
theorem xmit_not_ready (buff : Nat → Nat) (p token : Nat) (s : Sd)
    (h : (wait_ready s).1 = false) : xmit_datablock buff p token s = (false, (wait_ready s).2) := by
  simp only [xmit_datablock, h, Bool.not_false, if_true]

/-- A multiple block write whose chunks are all accepted and whose close call finds the card
busy returns RES_ERROR. -/
theorem disk_write_close_fails (buff : Nat → Nat) (sector n : Nat) (s σ : Sd)
    (c : Nat × Sd)
    (hst : (disk_status 0 s).1 &&& STA_NOINIT = 0) (hn : 2 ≤ n)
    (hσ : σ = if (disk_status 0 s).2.CardType &&& CT_SDC ≠ 0
      then (send_cmd SD_ACMD23 n (disk_status 0 s).2).2 else (disk_status 0 s).2)
    (hc : c = send_cmd SD_CMD_WRITE_MULT_BLOCK
      (rw_address (disk_status 0 s).2.CardType sector) σ)
    (hc0 : c.1 = 0)
    (hacc : ∀ j < n,
      (xmit_datablock buff (512 * j) 0xFC (chunk_state buff 0 j c.2)).1 = true)
    (hclose : (wait_ready (chunk_state buff 0 n c.2)).1 = false) :
    write_blocks buff 0 n c.2 = (0, chunk_state buff 0 n c.2)
      ∧ disk_write 0 buff sector n s
        = (RES_ERROR, deselect (wait_ready (chunk_state buff 0 n c.2)).2) := by
  subst hσ
  subst hc
  have hloop := write_blocks_spec buff n n 0 _ (le_refl n)
    (fun j hj => by rw [Nat.zero_add]; exact hacc j hj)
    (fun h => absurd h (lt_irrefl n))
  rw [if_neg (lt_irrefl n), Nat.sub_self] at hloop
  refine ⟨hloop, ?_⟩
  rw [disk_write_multi buff sector n s hst (by omega), if_pos hc0, hloop,
    xmit_not_ready buff 0 0xFD _ hclose]
  rfl

set_option maxRecDepth 100000 in
/-- The card cardCloseBusy is busy when the close call waits for it. -/
theorem cardCloseBusy_not_ready :
    (wait_ready (chunk_state (fun _ => 0) 0 2
      (send_cmd SD_CMD_WRITE_MULT_BLOCK 0 (disk_status 0 cardCloseBusy).2).2)).1 = false := by
  apply wait_ready_timeout
  intro j _
  have hpos : (chunk_state (fun _ => 0) 0 2
      (send_cmd SD_CMD_WRITE_MULT_BLOCK 0 (disk_status 0 cardCloseBusy).2).2).pos = 1058 := by
    decide
  have hrx : (chunk_state (fun _ => 0) 0 2
      (send_cmd SD_CMD_WRITE_MULT_BLOCK 0 (disk_status 0 cardCloseBusy).2).2).rx
      = cardCloseBusy.rx := rfl
  unfold byteAt
  rw [hpos, hrx]
  have hgt : ¬ (1058 + j ≤ 1057) := by omega
  simp [cardCloseBusy, startAt, hgt]

/-! ## Helper lemmas: the session variables -/

/-- After its status check disk_read changes neither Stat nor CardType. -/
theorem keeps_disk_read (drv sector count : Nat) (s : Sd) :
    Keeps (disk_status drv s).2 (disk_read drv sector count s).2.2 := by
  simp only [disk_read]
  split
  · exact Keeps.unchanged _
  · split
    · exact Keeps.unchanged _
    · split
      · split
        · exact ((keeps_send_cmd _ _ _).after (quiet_rcvr_datablock _ _).keeps).after
            (quiet_deselect _).keeps
        · exact (keeps_send_cmd _ _ _).after (quiet_deselect _).keeps
      · split
        · exact (((keeps_send_cmd _ _ _).after (quiet_read_blocks _ _).keeps).after
            (keeps_send_cmd _ _ _)).after (quiet_deselect _).keeps
        · exact (keeps_send_cmd _ _ _).after (quiet_deselect _).keeps

/-- After its status check disk_write changes neither Stat nor CardType. -/
theorem keeps_disk_write (drv : Nat) (buff : Nat → Nat) (sector count : Nat) (s : Sd) :
    Keeps (disk_status drv s).2 (disk_write drv buff sector count s).2 := by
  have hσ : Keeps (disk_status drv s).2
      (if (disk_status drv s).2.CardType &&& CT_SDC ≠ 0
        then (send_cmd SD_ACMD23 count (disk_status drv s).2).2 else (disk_status drv s).2) := by
    split
    · exact keeps_send_cmd _ _ _
    · exact Keeps.unchanged _
  have key : ∀ (c : Prop) [Decidable c] (x y : DRESULT × Sd),
      Keeps (disk_status drv s).2 x.2 → Keeps (disk_status drv s).2 y.2 →
      Keeps (disk_status drv s).2 (if c then x else y).2 := by
    intro c _ x y hx hy
    split <;> assumption
  simp only [disk_write]
  split
  · exact Keeps.unchanged _
  · split
    · exact Keeps.unchanged _
    · split
      · exact Keeps.unchanged _
      · split
        · exact key _ _ _
            (((keeps_send_cmd _ _ _).after (quiet_xmit_datablock _ _ _ _).keeps).after
              (quiet_deselect _).keeps)
            ((keeps_send_cmd _ _ _).after (quiet_deselect _).keeps)
        · exact key _ _ _
            ((((hσ.after (keeps_send_cmd _ _ _)).after
              (quiet_write_blocks _ _ _ _).keeps).after
              (quiet_xmit_datablock _ _ _ _).keeps).after (quiet_deselect _).keeps)
            ((hσ.after (keeps_send_cmd _ _ _)).after (quiet_deselect _).keeps)

/-- After its status check disk_ioctl changes neither Stat nor CardType. -/
theorem keeps_disk_ioctl (drv ctrl : Nat) (s : Sd) :
    Keeps (disk_status drv s).2 (disk_ioctl drv ctrl s).2.2 := by
  simp only [disk_ioctl]
  split
  · exact Keeps.unchanged _
  · split
    · split
      · exact ((quiet_select _).andThen ((quiet_deselect _).andThen (quiet_deselect _))).keeps
      · exact ((quiet_select _).andThen (quiet_deselect _)).keeps
    · split
      · split
        · split
          · exact ((keeps_send_cmd _ _ _).after (quiet_rcvr_datablock _ _).keeps).after
              (quiet_deselect _).keeps
          · exact ((keeps_send_cmd _ _ _).after (quiet_rcvr_datablock _ _).keeps).after
              (quiet_deselect _).keeps
        · exact (keeps_send_cmd _ _ _).after (quiet_deselect _).keeps
      · split
        · exact (quiet_deselect _).keeps
        · exact (quiet_deselect _).keeps

/-- The function disk_status never clears NotInitialized. -/
theorem disk_status_keeps_noinit (drv : Nat) (s : Sd) (h : s.Stat &&& STA_NOINIT ≠ 0) :
    (disk_status drv s).2.Stat &&& STA_NOINIT ≠ 0 := by
  by_cases hd : drv = 0
  · subst hd
    have h0 : status0 s &&& STA_NOINIT ≠ 0 := by rw [status0_noinit]; exact h
    rw [disk_status_idle s h0]
    exact h0
  · rw [disk_status_nonzero drv s hd]
    show (STA_NODISK ||| STA_NOINIT) &&& STA_NOINIT ≠ 0
    decide

/-- For drive 0 disk_initialize stores the status it returns, with NotInitialized clear iff the
recorded card type is non-zero. -/
theorem disk_initialize_stat (s : Sd) :
    ( disk_initialize 0 s).2.Stat = ( disk_initialize 0 s).1
      ∧ (( disk_initialize 0 s).2.Stat &&& STA_NOINIT = 0
          ↔ ( disk_initialize 0 s).2.CardType ≠ 0) := by
  have e : ( disk_initialize 0 s).2.Stat = ( disk_initialize 0 s).1 := by
    rw [ disk_initialize_zero]
    rfl
  refine ⟨e, ?_⟩
  rw [e, disk_initialize_noinit, disk_initialize_cardType]

/-- For a non-zero drive disk_initialize leaves NotInitialized set. -/
theorem disk_initialize_other (drv : Nat) (s : Sd) (hd : drv ≠ 0) :
    ( disk_initialize drv s).2.Stat &&& STA_NOINIT ≠ 0 := by
  simp only [ disk_initialize, SD_SPI_Init]
  rw [disk_status_nonzero drv s hd,
    if_pos (show (STA_NODISK ||| STA_NOINIT) &&& STA_NODISK ≠ 0 by decide)]
  show (STA_NODISK ||| STA_NOINIT) &&& STA_NOINIT ≠ 0
  decide

/-- No operation other than disk_initialize clears NotInitialized. -/
theorem run_keeps_noinit (op : Op) (t : Sd) (hop : ∀ drv, op ≠ Op.init drv)
    (h : t.Stat &&& STA_NOINIT ≠ 0) : (run op t).Stat &&& STA_NOINIT ≠ 0 := by
  cases op with
  | status drv => exact disk_status_keeps_noinit drv t h
  | init drv => exact absurd rfl (hop drv)
  | read drv sector count =>
    show (disk_read drv sector count t).2.2.Stat &&& STA_NOINIT ≠ 0
    rw [(keeps_disk_read drv sector count t).Stat]
    exact disk_status_keeps_noinit drv t h
  | write drv buff sector count =>
    show (disk_write drv buff sector count t).2.Stat &&& STA_NOINIT ≠ 0
    rw [(keeps_disk_write drv buff sector count t).Stat]
    exact disk_status_keeps_noinit drv t h
  | ioctl drv ctrl =>
    show (disk_ioctl drv ctrl t).2.2.Stat &&& STA_NOINIT ≠ 0
    rw [(keeps_disk_ioctl drv ctrl t).Stat]
    exact disk_status_keeps_noinit drv t h

/-- No operation other than disk_initialize changes CardType. -/
theorem run_cardType (op : Op) (t : Sd) (hop : ∀ drv, op ≠ Op.init drv) :
    (run op t).CardType = t.CardType := by
  cases op with
  | status drv => exact (keeps_disk_status drv t).2
  | init drv => exact absurd rfl (hop drv)
  | read drv sector count =>
    show (disk_read drv sector count t).2.2.CardType = _
    rw [(keeps_disk_read drv sector count t).CardType, (keeps_disk_status drv t).2]
  | write drv buff sector count =>
    show (disk_write drv buff sector count t).2.CardType = _
    rw [(keeps_disk_write drv buff sector count t).CardType, (keeps_disk_status drv t).2]
  | ioctl drv ctrl =>
    show (disk_ioctl drv ctrl t).2.2.CardType = _
    rw [(keeps_disk_ioctl drv ctrl t).CardType, (keeps_disk_status drv t).2]

/-- One call keeps the invariant. -/
theorem run_invariant (op : Op) (t : Sd)
    (h : t.Stat &&& STA_NOINIT = 0 → t.CardType ≠ 0) :
    (run op t).Stat &&& STA_NOINIT = 0 → (run op t).CardType ≠ 0 := by
  by_cases hop : ∀ drv, op ≠ Op.init drv
  · intro h0
    rw [run_cardType op t hop]
    apply h
    by_contra hne
    exact run_keeps_noinit op t hop hne h0
  · obtain ⟨drv, hdrv⟩ : ∃ drv, op = Op.init drv := by
      by_contra hcon
      exact hop (fun drv he => hcon ⟨drv, he⟩)
    subst hdrv
    show ( disk_initialize drv t).2.Stat &&& STA_NOINIT = 0 → ( disk_initialize drv t).2.CardType ≠ 0
    by_cases hd : drv = 0
    · subst hd
      exact (disk_initialize_stat t).2.1
    · intro h0
      exact absurd h0 (disk_initialize_other drv t hd)

/-- A sequence of calls keeps the invariant. -/
theorem runs_invariant (ops : List Op) :
    ∀ t : Sd, (t.Stat &&& STA_NOINIT = 0 → t.CardType ≠ 0) →
      (runs ops t).Stat &&& STA_NOINIT = 0 → (runs ops t).CardType ≠ 0 := by
  induction ops with
  | nil => intro t h; exact h
  | cons op ops ih => intro t h; exact ih (run op t) (run_invariant op t h)

/-! ## C1: initialisation of an SD version 2 card -/

/-- C1: on drive 0, when GO_IDLE_STATE(0) is answered 1, SEND_IF_COND(0x1AA) is answered 1
with an echo ending in (0x01, 0xAA), ACMD41(1<<30) is answered 0 at attempt `k + 1` with
`k < 1000` (the `k` attempts before it being answered non-zero) and READ_OCR is then
answered 0 with OCR bytes `o0..o3`, disk_initialize stores
`CardType = SD2 | BLOCK` if `o0 & 0x40` is set and `CardType = SD2` otherwise, and returns a
status with NotInitialized clear. -/
theorem disk_initialize_sdv2 (s s1 s2 s3 s4 s5 s6 : Sd) (e0 e1 o0 o1 o2 o3 k : Nat)
    (hs1 : power_up (disk_status 0 s).2 = s1)
    (h0 : send_cmd SD_CMD_GO_IDLE_STATE 0 s1 = (1, s2))
    (h8 : send_cmd SD_CMD_SEND_IF_COND 0x1AA s2 = (1, s3))
    (hecho : rcvr_mmc 4 s3 = ([e0, e1, 0x01, 0xAA], s4))
    (hk : k < 1000)
    (hidle : ∀ j < k,
      (send_cmd SD_ACMD41 (1 <<< 30) (idle_retry SD_ACMD41 (1 <<< 30) j s4)).1 ≠ 0)
    (hleft : send_cmd SD_ACMD41 (1 <<< 30) (idle_retry SD_ACMD41 (1 <<< 30) k s4) = (0, s5))
    (hocr : send_cmd SD_CMD58 0 s5 = (0, s6))
    (hbytes : (rcvr_mmc 4 s6).1 = [o0, o1, o2, o3]) :
    ( disk_initialize 0 s).2.CardType
        = (if o0 &&& 0x40 ≠ 0 then CT_SD2 ||| CT_BLOCK else CT_SD2)
      ∧ ( disk_initialize 0 s).1 &&& STA_NOINIT = 0 := by
  have hloop := idle_loop_exit SD_ACMD41 (1 <<< 30) k 1000 s4 hk hidle (by rw [hleft])
  rw [hleft] at hloop
  have e30 : (1 <<< 30 : Nat) = 1073741824 := by decide
  rw [e30] at hloop
  have hty : (detect s1).1 = (if o0 &&& 0x40 ≠ 0 then CT_SD2 ||| CT_BLOCK else CT_SD2) := by
    have hne : 1000 - k ≠ 0 := by omega
    simp [detect, detect_v2, h0, h8, hecho, hloop, hocr, hbytes, hne]
  refine ⟨by rw [disk_initialize_cardType, hs1, hty], ?_⟩
  rw [disk_initialize_noinit, hs1, hty]
  split <;> simp [CT_SD2, CT_BLOCK]

/-- Witness of C1: the card `cardV2`, which leaves idle at the first ACMD41. -/
theorem disk_initialize_sdv2_witness :
    ( disk_initialize 0 cardV2).2.CardType
        = (if 0x40 &&& 0x40 ≠ 0 then CT_SD2 ||| CT_BLOCK else CT_SD2)
      ∧ ( disk_initialize 0 cardV2).1 &&& STA_NOINIT = 0 :=
  disk_initialize_sdv2 cardV2 _ _ _ _ _ _ 0xFF 0xFF 0x40 0xFF 0xFF 0xFF 0 rfl
    (Prod.ext (by decide) rfl) (Prod.ext (by decide) rfl) (Prod.ext (by decide) rfl)
    (by decide) (fun j hj => absurd hj (Nat.not_lt_zero j))
    (Prod.ext (by decide) rfl) (Prod.ext (by decide) rfl) (by decide)

/-! ## C2: SD version 1 and MMC cards -/

/-- C2: on drive 0, when GO_IDLE_STATE is answered 1, SEND_IF_COND is answered `r8 ≠ 1` and
the probe ACMD41(0) returns `p`, the idle-exit loop uses ACMD41 if `p ≤ 1` and SEND_OP_COND
(CMD1) if `p > 1`.  Whatever the link does, the calls of `send_cmd` after the probe are `n`
attempts of that command (`1 ≤ n ≤ 1000`; each ACMD41 attempt is the call itself and its
nested APP_CMD), followed by at most one SET_BLOCKLEN(512): in the MMC case no CMD55 or
ACMD41 is sent again, in the SD case no CMD1.  On success (the command answered 0 at attempt
`k + 1 ≤ 1000` and SET_BLOCKLEN(512) answered 0) `CardType` is exactly SD1, respectively
MMC, NotInitialized is clear, and the calls are exactly the `k + 1` attempts and
SET_BLOCKLEN(512). -/
theorem disk_initialize_v1_or_mmc (s s1 s2 s3 s4 : Sd) (r8 p cmd : Nat)
    (hs1 : power_up (disk_status 0 s).2 = s1)
    (h0 : send_cmd SD_CMD_GO_IDLE_STATE 0 s1 = (1, s2))
    (h8 : send_cmd SD_CMD_SEND_IF_COND 0x1AA s2 = (r8, s3)) (hrej : r8 ≠ 1)
    (hp : send_cmd SD_ACMD41 0 s3 = (p, s4))
    (hcmd : cmd = if p ≤ 1 then SD_ACMD41 else SD_CMD_SEND_OP_COND) :
    (∃ n tail, 1 ≤ n ∧ n ≤ 1000 ∧ (tail = [] ∨ tail = [(SD_CMD_SET_BLOCKLEN, 512)]) ∧
        cmdsOf ( disk_initialize 0 s).2.log = cmdsOf s4.log
          ++ times n (if p ≤ 1 then [(SD_ACMD41, 0), (SD_CMD55, 0)]
              else [(SD_CMD_SEND_OP_COND, 0)])
          ++ tail)
      ∧ (∀ (k : Nat) (s5 s6 : Sd), k < 1000 →
          (∀ j < k, (send_cmd cmd 0 (idle_retry cmd 0 j s4)).1 ≠ 0) →
          send_cmd cmd 0 (idle_retry cmd 0 k s4) = (0, s5) →
          send_cmd SD_CMD_SET_BLOCKLEN 512 s5 = (0, s6) →
          ( disk_initialize 0 s).2.CardType = (if p ≤ 1 then CT_SD1 else CT_MMC)
            ∧ ( disk_initialize 0 s).1 &&& STA_NOINIT = 0
            ∧ cmdsOf ( disk_initialize 0 s).2.log = cmdsOf s4.log
              ++ times (k + 1) (if p ≤ 1 then [(SD_ACMD41, 0), (SD_CMD55, 0)]
                  else [(SD_CMD_SEND_OP_COND, 0)])
              ++ [(SD_CMD_SET_BLOCKLEN, 512)]) := by
  have hcalls : callsOf cmd 0
      = (if p ≤ 1 then [(SD_ACMD41, 0), (SD_CMD55, 0)] else [(SD_CMD_SEND_OP_COND, 0)]) := by
    subst hcmd
    split
    · exact callsOf_acmd41 0
    · exact callsOf_op_cond
  have hd : detect s1 = detect_v1 s3 := detect_rejected s1 s2 s3 r8 h0 h8 hrej
  have hv := detect_v1_eq s3 s4 p cmd hp hcmd
  constructor
  · obtain ⟨n, hn1, hn2, hc⟩ := idle_loop_calls cmd 0 1000 s4 (by omega)
    rw [hcalls] at hc
    rw [disk_initialize_log_cmds, hs1, hd, hv]
    by_cases hl : (idle_loop cmd 0 1000 s4).1 = 0
    · rw [if_pos hl]
      exact ⟨n, [], hn1, hn2, Or.inl rfl, by rw [hc, List.append_nil]⟩
    · rw [if_neg hl]
      refine ⟨n, [(SD_CMD_SET_BLOCKLEN, 512)], hn1, hn2, Or.inr rfl, ?_⟩
      split
      · show cmdsOf (send_cmd SD_CMD_SET_BLOCKLEN 512 _).2.log = _
        rw [cmds_send_cmd, hc, callsOf_set_blocklen]
      · show cmdsOf (send_cmd SD_CMD_SET_BLOCKLEN 512 _).2.log = _
        rw [cmds_send_cmd, hc, callsOf_set_blocklen]
  · intro k s5 s6 hk hne hz hb
    have hloop := idle_loop_exit cmd 0 k 1000 s4 hk hne (by rw [hz])
    rw [hz] at hloop
    have hne0 : 1000 - k ≠ 0 := by omega
    have hdet : detect s1 = (if p ≤ 1 then CT_SD1 else CT_MMC, s6) := by
      rw [hd, hv]
      simp [hloop, hb, hne0]
    have hty : (if p ≤ 1 then CT_SD1 else CT_MMC) ≠ 0 := by
      split <;> simp [CT_SD1, CT_MMC]
    refine ⟨by rw [disk_initialize_cardType, hs1, hdet], ?_, ?_⟩
    · rw [disk_initialize_noinit, hs1, hdet]; exact hty
    · rw [disk_initialize_log_cmds, hs1, hdet]
      have h6 : s6 = (send_cmd SD_CMD_SET_BLOCKLEN 512 s5).2 := by rw [hb]
      have h5 : s5 = (send_cmd cmd 0 (idle_retry cmd 0 k s4)).2 := by rw [hz]
      show cmdsOf s6.log = _
      rw [h6, cmds_send_cmd, h5, cmds_send_cmd, cmds_idle_retry, callsOf_set_blocklen,
        hcalls, times_succ_right]
      simp only [List.append_assoc]

/-- Witness of C2: the card `cardV1`, whose probe returns 1 and which leaves idle at the
first ACMD41 of the loop. -/
theorem disk_initialize_v1_or_mmc_witness :
    ( disk_initialize 0 cardV1).2.CardType = (if 1 ≤ 1 then CT_SD1 else CT_MMC)
      ∧ ( disk_initialize 0 cardV1).1 &&& STA_NOINIT = 0 :=
  have h := (disk_initialize_v1_or_mmc cardV1 _ _ _ _ 5 1 SD_ACMD41 rfl
    (Prod.ext (by decide) rfl) (Prod.ext (by decide) rfl) (by decide)
    (Prod.ext (by decide) rfl) rfl).2 0 _ _ (by decide)
    (fun j hj => absurd hj (Nat.not_lt_zero j))
    (Prod.ext (by decide) rfl) (Prod.ext (by decide) rfl)
  ⟨h.1, h.2.1⟩

/-! ## C3: the idle-exit loop gives up after 1000 attempts -/

/-- C3: on drive 0, when the idle-exit loop is reached (`s4` is the state on entry; the
command is ACMD41(1<<30) in the version 2 branch, ACMD41(0) in the SD version 1 branch and
CMD1(0) in the MMC branch) and none of 1000 attempts of the command is answered 0,
the function disk_initialize makes exactly those 1000 attempts, each followed by `dly_us(1000)`, and
then only stores `CardType = 0`, sets NotInitialized and deselects: the calls of `send_cmd`
from the entry of the loop on are exactly the 1000 attempts. -/
theorem disk_initialize_idle_timeout (s s1 s2 s3 s4 : Sd) (r8 cmd arg : Nat)
    (hs1 : power_up (disk_status 0 s).2 = s1)
    (h0 : send_cmd SD_CMD_GO_IDLE_STATE 0 s1 = (1, s2))
    (h8 : send_cmd SD_CMD_SEND_IF_COND 0x1AA s2 = (r8, s3))
    (hbranch :
      (r8 = 1 ∧ (rcvr_mmc 4 s3).1.getD 2 0 = 0x01 ∧ (rcvr_mmc 4 s3).1.getD 3 0 = 0xAA
          ∧ s4 = (rcvr_mmc 4 s3).2 ∧ cmd = SD_ACMD41 ∧ arg = 1 <<< 30)
      ∨ (r8 ≠ 1 ∧ (send_cmd SD_ACMD41 0 s3).1 ≤ 1
          ∧ s4 = (send_cmd SD_ACMD41 0 s3).2 ∧ cmd = SD_ACMD41 ∧ arg = 0)
      ∨ (r8 ≠ 1 ∧ 1 < (send_cmd SD_ACMD41 0 s3).1
          ∧ s4 = (send_cmd SD_ACMD41 0 s3).2 ∧ cmd = SD_CMD_SEND_OP_COND ∧ arg = 0))
    (hnever : ∀ j < 1000, (send_cmd cmd arg (idle_retry cmd arg j s4)).1 ≠ 0) :
    disk_initialize 0 s
        = ((disk_status 0 s).1 ||| STA_NOINIT,
          deselect { idle_retry cmd arg 1000 s4 with
            CardType := 0, Stat := (disk_status 0 s).1 ||| STA_NOINIT })
      ∧ cmdsOf ( disk_initialize 0 s).2.log
        = cmdsOf s4.log ++ times 1000 (callsOf cmd arg)
      ∧ ( disk_initialize 0 s).2.CardType = 0
      ∧ ( disk_initialize 0 s).1 &&& STA_NOINIT ≠ 0 := by
  have hloop := idle_loop_timeout cmd arg 1000 s4 hnever
  have hl1 : (idle_loop cmd arg 1000 s4).1 = 0 := by rw [hloop]
  have hl2 : (idle_loop cmd arg 1000 s4).2 = idle_retry cmd arg 1000 s4 := by rw [hloop]
  have hdet : detect s1 = (0, idle_retry cmd arg 1000 s4) := by
    rw [← hl2]
    rcases hbranch with ⟨h1, he2, he3, hs4, hc, ha⟩ | ⟨h1, hp, hs4, hc, ha⟩
      | ⟨h1, hp, hs4, hc, ha⟩
    · subst h1 hc ha hs4
      rw [detect_accepted s1 s2 s3 h0 h8]
      exact detect_v2_timeout s3 he2 he3 hl1
    · subst ha
      rw [detect_rejected s1 s2 s3 r8 h0 h8 h1]
      exact detect_v1_timeout s3 s4 (send_cmd SD_ACMD41 0 s3).1 cmd (by rw [hs4])
        (by rw [if_pos hp, hc]) hl1
    · subst ha
      rw [detect_rejected s1 s2 s3 r8 h0 h8 h1]
      exact detect_v1_timeout s3 s4 (send_cmd SD_ACMD41 0 s3).1 cmd (by rw [hs4])
        (by rw [if_neg (by omega), hc]) hl1
  have hfin : disk_initialize 0 s
      = ((disk_status 0 s).1 ||| STA_NOINIT,
        deselect { idle_retry cmd arg 1000 s4 with
          CardType := 0, Stat := (disk_status 0 s).1 ||| STA_NOINIT }) := by
    rw [disk_initialize_zero, hs1, hdet]
    rw [if_neg (fun h => h rfl)]
  refine ⟨hfin, ?_, ?_, ?_⟩
  · rw [disk_initialize_log_cmds, hs1, hdet]
    exact cmds_idle_retry cmd arg 1000 s4
  · rw [disk_initialize_cardType, hs1, hdet]
  · rw [hfin]; exact noinit_set _

/-- Witness of C3: the card `cardMute`, detected as MMC, never answers CMD1. -/
theorem disk_initialize_idle_timeout_witness :
    ( disk_initialize 0 cardMute).2.CardType = 0
      ∧ ( disk_initialize 0 cardMute).1 &&& STA_NOINIT ≠ 0 := by
  have hf := (floating_send_cmd SD_ACMD41 0 _
    (floating_send_cmd SD_CMD_SEND_IF_COND 0x1AA _ cardMute_floating).2).2
  have h8 : (send_cmd SD_CMD_SEND_IF_COND 0x1AA
      (send_cmd SD_CMD_GO_IDLE_STATE 0 (power_up (disk_status 0 cardMute).2)).2).1 = 0xFF :=
    (floating_send_cmd SD_CMD_SEND_IF_COND 0x1AA _ cardMute_floating).1
  have hp := (floating_send_cmd SD_ACMD41 0 _
    (floating_send_cmd SD_CMD_SEND_IF_COND 0x1AA _ cardMute_floating).2).1
  exact (disk_initialize_idle_timeout cardMute _ _ _ _ 0xFF SD_CMD_SEND_OP_COND 0 rfl
    (Prod.ext (by decide) rfl) (Prod.ext h8 rfl)
    (Or.inr (Or.inr ⟨by decide, LT.lt.trans_eq (by decide) hp.symm, rfl, rfl, rfl⟩))
    (fun j _ => floating_never_idle_exit _ _ _ hf j)).2.2

/-! ## C4: no fallback once SEND_IF_COND is accepted -/

/-- C4: on drive 0, when GO_IDLE_STATE is answered 1 and SEND_IF_COND(0x1AA) is answered 1,
no call of `send_cmd` made by disk_initialize is ACMD41 with argument 0, SEND_OP_COND (CMD1)
or SET_BLOCKLEN, whatever the link does afterwards, and the `CardType` stored is empty, SD2 or
SD2 | BLOCK. -/
theorem disk_initialize_v2_no_fallback (s s1 s2 s3 : Sd)
    (hs1 : power_up (disk_status 0 s).2 = s1)
    (h0 : send_cmd SD_CMD_GO_IDLE_STATE 0 s1 = (1, s2))
    (h8 : send_cmd SD_CMD_SEND_IF_COND 0x1AA s2 = (1, s3)) :
    (∃ seg, cmdsOf ( disk_initialize 0 s).2.log = cmdsOf s.log ++ seg ∧
        ∀ ca ∈ seg, ca ≠ (SD_ACMD41, 0) ∧ ca.1 ≠ SD_CMD_SEND_OP_COND
          ∧ ca.1 ≠ SD_CMD_SET_BLOCKLEN)
      ∧ (( disk_initialize 0 s).2.CardType = 0
        ∨ ( disk_initialize 0 s).2.CardType = CT_SD2
        ∨ ( disk_initialize 0 s).2.CardType = CT_SD2 ||| CT_BLOCK) := by
  have hd : detect s1 = detect_v2 s3 := detect_accepted s1 s2 s3 h0 h8
  constructor
  · have h2 : s2 = (send_cmd SD_CMD_GO_IDLE_STATE 0 s1).2 := by rw [h0]
    have h3 : s3 = (send_cmd SD_CMD_SEND_IF_COND 0x1AA s2).2 := by rw [h8]
    have c1 := (callsIn_disk_status _ s (by decide)).followedBy
      ((quiet_power_up (disk_status 0 s).2).callsIn
        (fun ca => ca ≠ (SD_ACMD41, 0) ∧ ca.1 ≠ SD_CMD_SEND_OP_COND
          ∧ ca.1 ≠ SD_CMD_SET_BLOCKLEN))
    rw [hs1] at c1
    have c2 := c1.followedBy (callsIn_send_plain _ SD_CMD_GO_IDLE_STATE 0 s1 (by decide)
      (by decide))
    rw [← h2] at c2
    have c3 := c2.followedBy (callsIn_send_plain _ SD_CMD_SEND_IF_COND 0x1AA s2 (by decide)
      (by decide))
    rw [← h3] at c3
    have c4 := c3.followedBy (callsIn_detect_v2 _ s3
      (by
        intro ca hca
        rw [callsOf_acmd41] at hca
        rcases List.mem_cons.mp hca with h | h
        · rw [h]; decide
        · have : ca = (SD_CMD55, 0) := by simpa using h
          rw [this]; decide)
      (by decide))
    obtain ⟨seg, hseg, hall⟩ := c4
    refine ⟨seg, ?_, hall⟩
    rw [disk_initialize_log_cmds, hs1, hd]
    exact hseg
  · rw [disk_initialize_cardType, hs1, hd]
    exact detect_v2_type s3

/-- Witness of C4: the card `cardV2`. -/
theorem disk_initialize_v2_no_fallback_witness :
    (∃ seg, cmdsOf ( disk_initialize 0 cardV2).2.log = cmdsOf cardV2.log ++ seg ∧
        ∀ ca ∈ seg, ca ≠ (SD_ACMD41, 0) ∧ ca.1 ≠ SD_CMD_SEND_OP_COND
          ∧ ca.1 ≠ SD_CMD_SET_BLOCKLEN)
      ∧ (( disk_initialize 0 cardV2).2.CardType = 0
        ∨ ( disk_initialize 0 cardV2).2.CardType = CT_SD2
        ∨ ( disk_initialize 0 cardV2).2.CardType = CT_SD2 ||| CT_BLOCK) :=
  disk_initialize_v2_no_fallback cardV2 _ _ _ rfl (Prod.ext (by decide) rfl)
    (Prod.ext (by decide) rfl)

/-! ## C5: the address argument of the read and write commands -/

/-- C5 (amended): when the status check passes and `count ≥ 1`, the calls of `send_cmd` made
by `disk_read` after the status check are the read command (READ_SINGLE_BLOCK for
`count = 1`, READ_MULTIPLE_BLOCK otherwise), then at most STOP_TRANSMISSION; those made by
`disk_write` are at most the ACMD23 hint, then the write command (WRITE_SINGLE_BLOCK or
WRITE_MULTIPLE_BLOCK).  The argument of the read or write command is `sector` when
`CardType` has BlockAddressed, and the 32-bit product `sector * 512 mod 2^32` when it has
not, which is `sector * 512` for every `sector < 2^23`. -/
theorem rw_command_address (drv sector count : Nat) (buff : Nat → Nat) (s : Sd)
    (hst : (disk_status drv s).1 &&& STA_NOINIT = 0) (hcount : count ≠ 0) :
    (∃ tail, (tail = [] ∨ tail = [(SD_CMD_STOP_TRANSMISSION, 0)]) ∧
        cmdsOf (disk_read drv sector count s).2.2.log = cmdsOf (disk_status drv s).2.log
          ++ [(if count = 1 then SD_CMD_READ_SINGLE_BLOCK else SD_CMD_READ_MULT_BLOCK,
              if s.CardType &&& CT_BLOCK = 0 then sector * 512 % 2 ^ 32 else sector)]
          ++ tail)
      ∧ (∃ pre, (pre = [] ∨ pre = [(SD_ACMD23, count), (SD_CMD55, 0)]) ∧
        cmdsOf (disk_write drv buff sector count s).2.log = cmdsOf (disk_status drv s).2.log
          ++ pre
          ++ [(if count = 1 then SD_CMD_WRITE_SINGLE_BLOCK else SD_CMD_WRITE_MULT_BLOCK,
              if s.CardType &&& CT_BLOCK = 0 then sector * 512 % 2 ^ 32 else sector)])
      ∧ (sector < 2 ^ 23 → sector * 512 % 2 ^ 32 = sector * 512) := by
  have hr := disk_read_cmds drv sector count s hst hcount
  have hw := disk_write_cmds drv buff sector count s hst hcount
  simp only [rw_address, (keeps_disk_status drv s).2] at hr hw
  exact ⟨hr, hw, fun h => Nat.mod_eq_of_lt (by omega)⟩

/-- Witness of C5 (amended): sector 5 read from the byte-addressed card `cardLive`. -/
theorem rw_command_address_witness :
    ∃ tail, (tail = [] ∨ tail = [(SD_CMD_STOP_TRANSMISSION, 0)]) ∧
      cmdsOf (disk_read 0 5 1 cardLive).2.2.log = cmdsOf (disk_status 0 cardLive).2.log
        ++ [(if 1 = 1 then SD_CMD_READ_SINGLE_BLOCK else SD_CMD_READ_MULT_BLOCK,
            if cardLive.CardType &&& CT_BLOCK = 0 then 5 * 512 % 2 ^ 32 else 5)]
        ++ tail :=
  (rw_command_address 0 5 1 (fun _ => 0) cardLive (by decide) (by decide)).1

/-- C5 as stated fails: on the byte-addressed card `cardLive` (initialised, `CardType`
without BlockAddressed), `disk_read` and `disk_write` of sector `2^23 = 8388608` call the
read and write command with address argument 0 (the frame written after that of the status
check is `51 00 00 00 00 01`), not `8388608 * 512 = 2^32`. -/
theorem rw_address_wraps :
    cardLive.CardType &&& CT_BLOCK = 0
      ∧ cmdsOf (disk_read 0 8388608 1 cardLive).2.2.log
        = [(SD_CMD58, 0), (SD_CMD_READ_SINGLE_BLOCK, 0)]
      ∧ writtenOf (disk_read 0 8388608 1 cardLive).2.2.log
        = [0x7A, 0, 0, 0, 0, 1, 0x51, 0, 0, 0, 0, 1]
      ∧ cmdsOf (disk_write 0 (fun _ => 0) 8388608 1 cardLive).2.log
        = [(SD_CMD58, 0), (SD_CMD_WRITE_SINGLE_BLOCK, 0)]
      ∧ (0 : Nat) ≠ 8388608 * 512 := by
  decide

/-! ## C6: `disk_read` -/

/-- C6: on drive 0, when the status check passes and `count ≥ 1`, let `c` be the result of
the read command (READ_SINGLE_BLOCK for `count = 1`, READ_MULTIPLE_BLOCK for `count > 1`)
and `block_state i c.2` the state after `i` calls of `rcvr_datablock(buff, 512)`.  Then
`disk_read` returns `RES_OK` iff `c` is answered 0 and each of the `count` calls succeeded.
For `count > 1` and `c` answered 0: the one call of `send_cmd` after the read command is
STOP_TRANSMISSION(0), whatever the blocks do; and if the first `k ≤ count` calls succeed and
(when `k < count`) the next one fails, the bytes stored are those of the `k` blocks, block
`i` at offset `512 * i`, and the state returned is the one reached by STOP_TRANSMISSION and
`deselect` right after the failing call (after the last block when `k = count`): no further
block is received. -/
theorem disk_read_result (sector count : Nat) (s σ : Sd) (c : Nat × Sd)
    (hst : (disk_status 0 s).1 &&& STA_NOINIT = 0) (hcount : 1 ≤ count)
    (hσ : σ = (disk_status 0 s).2)
    (hc : c = send_cmd
      (if count = 1 then SD_CMD_READ_SINGLE_BLOCK else SD_CMD_READ_MULT_BLOCK)
      (rw_address σ.CardType sector) σ) :
    ((disk_read 0 sector count s).1 = RES_OK ↔
        c.1 = 0 ∧ ∀ i < count, (rcvr_datablock 512 (block_state i c.2)).1 = true)
      ∧ (1 < count → c.1 = 0 →
        cmdsOf (disk_read 0 sector count s).2.2.log
            = cmdsOf c.2.log ++ [(SD_CMD_STOP_TRANSMISSION, 0)]
          ∧ ∀ k ≤ count,
            (∀ i < k, (rcvr_datablock 512 (block_state i c.2)).1 = true) →
            (k < count → (rcvr_datablock 512 (block_state k c.2)).1 = false) →
            (disk_read 0 sector count s).2.1 = blocks_data k c.2
              ∧ (∀ i < k, ((disk_read 0 sector count s).2.1.drop (512 * i)).take 512
                  = (rcvr_datablock 512 (block_state i c.2)).2.1)
              ∧ (disk_read 0 sector count s).2.2
                = deselect (send_cmd SD_CMD_STOP_TRANSMISSION 0
                    (if k < count then (rcvr_datablock 512 (block_state k c.2)).2.2
                      else block_state k c.2)).2) := by
  subst hσ
  by_cases h1 : count = 1
  · subst h1
    simp only [if_true] at hc
    subst hc
    refine ⟨?_, fun h => absurd h (by omega)⟩
    rw [disk_read_single sector s hst]
    by_cases hz : (send_cmd SD_CMD_READ_SINGLE_BLOCK
        (rw_address (disk_status 0 s).2.CardType sector) (disk_status 0 s).2).1 = 0
    · rw [if_pos hz]
      by_cases hb : (rcvr_datablock 512 (send_cmd SD_CMD_READ_SINGLE_BLOCK
          (rw_address (disk_status 0 s).2.CardType sector) (disk_status 0 s).2).2).1 = true
      · simp only [hb, if_true, true_iff]
        refine ⟨hz, fun i hi => ?_⟩
        obtain rfl : i = 0 := by omega
        exact hb
      · simp only [hb]
        constructor
        · intro h; exact absurd h (by simp)
        · intro h; exact absurd (h.2 0 (by omega)) hb
    · rw [if_neg hz]
      constructor
      · intro h; exact absurd h (by simp)
      · intro h; exact absurd h.1 hz
  · have hm : 1 < count := by omega
    simp only [h1, if_false] at hc
    subst hc
    rw [disk_read_multi sector count s hst hm]
    by_cases hz : (send_cmd SD_CMD_READ_MULT_BLOCK
        (rw_address (disk_status 0 s).2.CardType sector) (disk_status 0 s).2).1 = 0
    · rw [if_pos hz]
      refine ⟨?_, fun _ _ => ⟨?_, ?_⟩⟩
      · rw [← read_blocks_ok_iff]
        by_cases hl : (read_blocks count (send_cmd SD_CMD_READ_MULT_BLOCK
            (rw_address (disk_status 0 s).2.CardType sector) (disk_status 0 s).2).2).1 = 0
        · simp [hl, hz]
        · simp [hl]
      · show cmdsOf (deselect _).log = _
        rw [(quiet_deselect _).cmds, cmds_send_cmd, (quiet_read_blocks _ _).cmds,
          callsOf_plain _ _ (by decide)]
      · intro k hk hok hfail
        have hspec := read_blocks_spec k count _ hk hok hfail
        refine ⟨by rw [hspec], ?_, by rw [hspec]⟩
        intro i hi
        show List.take 512 (List.drop (512 * i) (read_blocks count _).2.1) = _
        rw [hspec]
        exact blocks_data_block i k _ hi hok
    · rw [if_neg hz]
      refine ⟨?_, fun _ h => absurd h hz⟩
      constructor
      · intro h; exact absurd h (by simp)
      · intro h; exact absurd h.1 hz

set_option maxRecDepth 100000 in
/-- Witness of C6: the card `cardTwoBlocks` delivers both blocks of a two-block read. -/
theorem disk_read_result_witness : (disk_read 0 7 2 cardTwoBlocks).1 = RES_OK :=
  (disk_read_result 7 2 cardTwoBlocks _ _ (by decide) (by decide) rfl rfl).1.mpr
    ⟨by decide, by decide⟩

/-! ## C7: a rejected chunk in a multiple block write -/

/-- C7 (amended): on drive 0, when the status check passes, `n ≥ 2`, WRITE_MULTIPLE_BLOCK is
answered 0, the first `m` chunks are accepted, and chunk `m + 1 ≤ n` is transmitted (the
card is ready for it) and rejected, `disk_write` returns `RES_ERROR`; after the chunk it
calls `xmit_datablock(0, 0xFD)` and `deselect` and nothing else; the bytes it writes after
the command are exactly the `m + 1` data packets (token `0xFC` and 512 bytes each, never a
further one), followed by the close token `0xFD` if the card reports ready within the
5000-poll wait that opens the close call, and by nothing if it does not. -/
theorem disk_write_rejected_chunk (buff : Nat → Nat) (sector n m : Nat) (s σ : Sd)
    (c : Nat × Sd)
    (hst : (disk_status 0 s).1 &&& STA_NOINIT = 0) (hn : 2 ≤ n) (hm : m < n)
    (hσ : σ = if (disk_status 0 s).2.CardType &&& CT_SDC ≠ 0
      then (send_cmd SD_ACMD23 n (disk_status 0 s).2).2 else (disk_status 0 s).2)
    (hc : c = send_cmd SD_CMD_WRITE_MULT_BLOCK
      (rw_address (disk_status 0 s).2.CardType sector) σ)
    (hc0 : c.1 = 0)
    (hacc : ∀ j < m,
      (xmit_datablock buff (512 * j) 0xFC (chunk_state buff 0 j c.2)).1 = true)
    (hrdy : (wait_ready (chunk_state buff 0 m c.2)).1 = true)
    (hrej : (xmit_datablock buff (512 * m) 0xFC (chunk_state buff 0 m c.2)).1 = false) :
    (disk_write 0 buff sector n s).1 = RES_ERROR
      ∧ (disk_write 0 buff sector n s).2
        = deselect (xmit_datablock buff 0 0xFD (chunk_state buff 0 (m + 1) c.2)).2
      ∧ writtenOf (disk_write 0 buff sector n s).2.log
        = writtenOf c.2.log ++ chunks_bytes buff 0 (m + 1)
          ++ (if (wait_ready (chunk_state buff 0 (m + 1) c.2)).1 then [0xFD] else []) := by
  have h := disk_write_multi_reject buff sector n m s σ c hst hn hm hσ hc hc0 hacc hrej
  refine ⟨by rw [h], by rw [h], ?_⟩
  rw [h]
  exact written_close buff m c.2 hacc hrdy

set_option maxRecDepth 100000 in
/-- Witness of C7 (amended), the case `n = 3`, `k = 2` of the specification: the card
`cardRejectSecond` accepts the first chunk and rejects the second; two data packets and the
close token are written, and the result is `RES_ERROR`. -/
theorem disk_write_rejected_chunk_witness :
    (disk_write 0 (fun i => i) 3 3 cardRejectSecond).1 = RES_ERROR
      ∧ writtenOf (disk_write 0 (fun i => i) 3 3 cardRejectSecond).2.log
        = writtenOf (send_cmd SD_CMD_WRITE_MULT_BLOCK 3
            (send_cmd SD_ACMD23 3 (disk_status 0 cardRejectSecond).2).2).2.log
          ++ chunks_bytes (fun i => i) 0 2 ++ [0xFD] := by
  have h := disk_write_rejected_chunk (fun i => i) 3 3 1 cardRejectSecond _ _ (by decide)
    (by decide) (by decide) rfl rfl (by decide) (by decide) (by decide) (by decide)
  exact ⟨h.1, h.2.2⟩

set_option maxRecDepth 100000 in
/-- C7 as stated fails: with `n = 2` and `k = 1` on the card `cardBusy`,
WRITE_MULTIPLE_BLOCK is answered 0, the first chunk is transmitted (the card is ready) and
rejected with the data-response `0x0D`, `disk_write` returns `RES_ERROR`, but the card is
not ready within the 5000 polls of the close call and no byte `0xFD` is ever written: the
bytes written after the command are the one data packet and nothing else. -/
theorem close_token_not_sent :
    (send_cmd SD_CMD_WRITE_MULT_BLOCK 0 (disk_status 0 cardBusy).2).1 = 0
      ∧ (wait_ready (send_cmd SD_CMD_WRITE_MULT_BLOCK 0 (disk_status 0 cardBusy).2).2).1 = true
      ∧ byteAt (wait_ready
          (send_cmd SD_CMD_WRITE_MULT_BLOCK 0 (disk_status 0 cardBusy).2).2).2 515 = 0x0D
      ∧ (xmit_datablock (fun _ => 0) 0 0xFC
          (send_cmd SD_CMD_WRITE_MULT_BLOCK 0 (disk_status 0 cardBusy).2).2).1 = false
      ∧ (disk_write 0 (fun _ => 0) 0 2 cardBusy).1 = RES_ERROR
      ∧ writtenOf (disk_write 0 (fun _ => 0) 0 2 cardBusy).2.log
        = writtenOf (send_cmd SD_CMD_WRITE_MULT_BLOCK 0 (disk_status 0 cardBusy).2).2.log
          ++ chunks_bytes (fun _ => 0) 0 1
      ∧ 0xFD ∉ writtenOf (disk_write 0 (fun _ => 0) 0 2 cardBusy).2.log := by
  have h := disk_write_multi_reject (fun _ => 0) 0 2 0 cardBusy _ _ (by decide) (by decide)
    (by decide) rfl rfl (by decide) (fun j hj => absurd hj (Nat.not_lt_zero j)) (by decide)
  have hw := written_close (fun _ => 0) 0
    (send_cmd SD_CMD_WRITE_MULT_BLOCK 0 (disk_status 0 cardBusy).2).2
    (fun j hj => absurd hj (Nat.not_lt_zero j)) (by decide)
  rw [cardBusy_not_ready] at hw
  have hfin : writtenOf (disk_write 0 (fun _ => 0) 0 2 cardBusy).2.log
      = writtenOf (send_cmd SD_CMD_WRITE_MULT_BLOCK 0 (disk_status 0 cardBusy).2).2.log
        ++ chunks_bytes (fun _ => 0) 0 1 := by
    rw [h]
    simpa using hw
  refine ⟨by decide, by decide, by decide, by decide, by rw [h], hfin, ?_⟩
  rw [hfin]
  decide

/-! ## C8: the gates of the public operations -/

/-- C8: for every drive index, sector, count and control code.  The status check made on
entry calls no command but READ_OCR.  If the status it returns has NotInitialized set,
`disk_read`, `disk_write` and `disk_ioctl` return `RES_NOTRDY` in the very state the status
check left, so nothing further is exchanged with the card; otherwise `disk_read` and
`disk_write` with `count = 0` return `RES_PARERR`, again in that very state. -/
theorem gate_not_ready_and_zero_count (drv sector count ctrl : Nat) (buff : Nat → Nat)
    (s : Sd) :
    CallsIn (fun ca => ca = (SD_CMD58, 0)) s (disk_status drv s).2
      ∧ ((disk_status drv s).1 &&& STA_NOINIT ≠ 0 →
          disk_read drv sector count s = (RES_NOTRDY, [], (disk_status drv s).2)
          ∧ disk_write drv buff sector count s = (RES_NOTRDY, (disk_status drv s).2)
          ∧ disk_ioctl drv ctrl s = (RES_NOTRDY, none, (disk_status drv s).2))
      ∧ ((disk_status drv s).1 &&& STA_NOINIT = 0 →
          disk_read drv sector 0 s = (RES_PARERR, [], (disk_status drv s).2)
          ∧ disk_write drv buff sector 0 s = (RES_PARERR, (disk_status drv s).2)) := by
  refine ⟨callsIn_disk_status_any _ drv s rfl, ?_, ?_⟩
  · intro h
    refine ⟨?_, ?_, ?_⟩
    · simp only [disk_read]; rw [if_pos h]
    · simp only [disk_write]; rw [if_pos h]
    · simp only [disk_ioctl]; rw [if_pos h]
  · intro h
    have hd : drv = 0 := disk_status_ready_drive drv s h
    subst hd
    have hp : (disk_status 0 s).1 &&& STA_PROTECT = 0 := disk_status_protect_clear s
    refine ⟨?_, ?_⟩
    · simp [disk_read, h]
    · simp [disk_write, h, hp]

/-! ## C9: the start token of `rcvr_datablock` -/

/-- C9: for every stream of bytes returned by the link (`byteAt s j` is the `j`-th byte
polled), `rcvr_datablock(buff, 512)` succeeds iff there is `k < 1000` such that the first `k`
polled bytes are `0xFF` and the next one is `0xFE`.  When the first byte different from
`0xFF`, at index `k < 1000`, is neither, it returns failure with nothing stored, and the state
it leaves is the one right after that poll (`k + 1` exchanges, the log ending with the read of
that byte): no further poll, no payload byte.  When all 1000 polled bytes are `0xFF` it fails
after exactly 1000 polls. -/
theorem rcvr_datablock_token (s : Sd) :
    ((rcvr_datablock 512 s).1 = true ↔
        ∃ k, k < 1000 ∧ (∀ j < k, byteAt s j = 0xFF) ∧ byteAt s k = 0xFE)
      ∧ (∀ k, k < 1000 → (∀ j < k, byteAt s j = 0xFF) →
          byteAt s k ≠ 0xFF → byteAt s k ≠ 0xFE →
          rcvr_datablock 512 s = (false, [],
            advance s (k + 1) (times k [Ev.rd 0xFF, Ev.delay 1] ++ [Ev.rd (byteAt s k)])))
      ∧ ((∀ j < 1000, byteAt s j = 0xFF) →
          rcvr_datablock 512 s = (false, [],
            advance s 1000 (times 1000 [Ev.rd 0xFF, Ev.delay 1]))) := by
  have hfound : ∀ k, k < 1000 → (∀ j < k, byteAt s j = 0xFF) → byteAt s k ≠ 0xFF →
      token_loop 1000 0 s = (byteAt s k,
        advance s (k + 1) (times k [Ev.rd 0xFF, Ev.delay 1] ++ [Ev.rd (byteAt s k)])) :=
    fun k hk hff hne => token_loop_found k 1000 0 s hk hff hne
  have hnone : (∀ j < 1000, byteAt s j = 0xFF) →
      token_loop 1000 0 s = (0xFF, advance s 1000 (times 1000 [Ev.rd 0xFF, Ev.delay 1])) :=
    fun hff => token_loop_none 1000 0 s (by omega) hff
  refine ⟨⟨?_, ?_⟩, ?_, ?_⟩
  · intro hok
    by_cases hall : ∀ j < 1000, byteAt s j = 0xFF
    · exfalso
      have ht := hnone hall
      simp only [rcvr_datablock] at hok
      rw [if_pos (by rw [ht]; show (255 : Nat) ≠ 254; decide)] at hok
      exact Bool.false_ne_true hok
    · have hex : ∃ j, j < 1000 ∧ byteAt s j ≠ 0xFF := by
        by_contra hcon
        exact hall (fun j hj => by_contra (fun hne => hcon ⟨j, hj, hne⟩))
      let k := Nat.find hex
      have hk : k < 1000 ∧ byteAt s k ≠ 0xFF := Nat.find_spec hex
      have hmin : ∀ j < k, byteAt s j = 0xFF := by
        intro j hj
        by_contra hne
        exact Nat.find_min hex hj ⟨by omega, hne⟩
      refine ⟨k, hk.1, hmin, ?_⟩
      by_contra hfe
      have ht := hfound k hk.1 hmin hk.2
      simp only [rcvr_datablock] at hok
      rw [if_pos (by rw [ht]; exact hfe)] at hok
      exact Bool.false_ne_true hok
  · rintro ⟨k, hk, hff, hfe⟩
    have ht := hfound k hk hff (by rw [hfe]; decide)
    simp only [rcvr_datablock]
    rw [if_neg (by rw [ht, hfe]; exact fun h => h rfl)]
  · intro k hk hff hne hfe
    have ht := hfound k hk hff hne
    simp only [rcvr_datablock]
    rw [if_pos (by rw [ht]; exact hfe), ht]
  · intro hff
    have ht := hnone hff
    simp only [rcvr_datablock]
    rw [if_pos (by rw [ht]; show (255 : Nat) ≠ 254; decide), ht]

/-! ## C10: the data packet of `xmit_datablock` -/

/-- C10: for every token other than `0xFD` and every payload `buff[p .. p+511]`, when the
ready wait that opens `xmit_datablock` succeeds (leaving state `w`), the function makes exactly
516 further exchanges: it writes the token, then the 512 payload bytes in order, then reads
two bytes (the CRC placeholders) and then one data-response byte `r`, the 516th byte after
`w`; it returns 1 iff `r & 0x1F = 0x05`. -/
theorem xmit_datablock_data (buff : Nat → Nat) (p token : Nat) (s : Sd)
    (htok : token < 256) (hne : token ≠ 0xFD) (hrdy : (wait_ready s).1 = true) :
    (xmit_datablock buff p token s).2
        = advance (wait_ready s).2 516
          ([Ev.wr token] ++ (payload buff p).map Ev.wr
            ++ [Ev.rd (byteAt (wait_ready s).2 513), Ev.rd (byteAt (wait_ready s).2 514),
              Ev.rd (byteAt (wait_ready s).2 515)])
      ∧ ((xmit_datablock buff p token s).1 = true
        ↔ byteAt (wait_ready s).2 515 &&& 0x1F = 0x05) := by
  have h := xmit_datablock_exact buff p token s htok hne hrdy
  constructor
  · rw [h]
  · rw [h]
    exact decide_eq_true_iff

/-- Witness of C10: a card that is ready at once and answers the block with the
data-response `0xE5`, which is accepted. -/
theorem xmit_datablock_data_witness :
    (xmit_datablock (fun _ => 0) 0 0xFE (startAt (linkOf [(516, 0xE5)]) 0 0)).1 = true :=
  (xmit_datablock_data (fun _ => 0) 0 0xFE (startAt (linkOf [(516, 0xE5)]) 0 0)
    (by decide) (by decide) (by decide)).2.mpr (by decide)

/-! ## C11: the six-byte command frame -/

/-- C11. For an opcode c below 0x80 and an argument a below 2^32, when the card select
succeeds, send_cmd writes exactly six bytes to the link, in order: c|0x40, the four
argument bytes from the most significant to the least significant, and the trailer 0x95
for GO_IDLE_STATE, 0x87 for SEND_IF_COND and 0x01 otherwise; the argument is recovered
from frame bytes 1..4 read as a big-endian number. -/
theorem send_cmd_writes_frame (c a : Nat) (s : Sd) (hc : c < 0x80) (ha : a < 2 ^ 32)
    (hsel : (select (deselect s)).1 = true) :
    writtenOf (send_cmd c a s).2.log = writtenOf s.log
        ++ [c ||| 0x40, (a >>> 24) &&& 0xFF, (a >>> 16) &&& 0xFF, (a >>> 8) &&& 0xFF,
          a &&& 0xFF,
          if c = SD_CMD_GO_IDLE_STATE then 0x95 else if c = SD_CMD_SEND_IF_COND then 0x87
          else 0x01]
      ∧ ((a >>> 24) &&& 0xFF) * 2 ^ 24 + ((a >>> 16) &&& 0xFF) * 2 ^ 16
          + ((a >>> 8) &&& 0xFF) * 2 ^ 8 + (a &&& 0xFF) = a := by
  constructor
  · rw [written_send_cmd_plain c a s (plain_of_lt c hc), if_pos hsel, cmdFrame_eq c a hc]
  · simp only [and_ff, Nat.shiftRight_eq_div_pow]
    omega

/-- Witness of C11: READ_SINGLE_BLOCK with argument 0x12345678 on an idle link. -/
theorem send_cmd_writes_frame_witness :
    writtenOf (send_cmd 17 0x12345678 (startAt (linkOf []) 0 0)).2.log
      = [0x51, 0x12, 0x34, 0x56, 0x78, 0x01] := by
  have h := (send_cmd_writes_frame 17 0x12345678 (startAt (linkOf []) 0 0) (by decide)
    (by decide) (by decide)).1
  rw [h]
  decide

/-! ## C12: which capacity formula is used -/

/-- C12 (amended). For an initialised drive and the 16-byte CSD the card returns,
disk_ioctl(GET_SECTOR_COUNT) succeeds and stores the value of the version-2 branch exactly
when the version bits (top two bits of CSD byte 0) equal 1, and the value of the
version-1/MMC branch when they equal 0, 2 or 3. -/
theorem ioctl_sector_count_formula (s : Sd) (csd : List Nat)
    (hst : (disk_status 0 s).1 &&& STA_NOINIT = 0)
    (hc : (send_cmd SD_CMD_SEND_CSD 0 (disk_status 0 s).2).1 = 0)
    (hb : (rcvr_datablock 16 (send_cmd SD_CMD_SEND_CSD 0 (disk_status 0 s).2).2).1 = true)
    (hcsd : (rcvr_datablock 16 (send_cmd SD_CMD_SEND_CSD 0 (disk_status 0 s).2).2).2.1 = csd) :
    csd.length = 16 ∧ csd_version csd < 4
      ∧ (disk_ioctl 0 GET_SECTOR_COUNT s).1 = RES_OK
      ∧ (csd_version csd = 1 →
          (disk_ioctl 0 GET_SECTOR_COUNT s).2.1 = some (sector_count_v2 csd))
      ∧ (csd_version csd = 0 ∨ csd_version csd = 2 ∨ csd_version csd = 3 →
          (disk_ioctl 0 GET_SECTOR_COUNT s).2.1 = sector_count_v1 csd) := by
  have hbytes := csd_bytes _ hb
  rw [hcsd] at hbytes
  have hv : csd_version csd < 4 := by
    have h0 := hbytes.2 0
    simp only [csd_version, Nat.shiftRight_eq_div_pow]
    omega
  rw [disk_ioctl_sector_count s hst hc hb, hcsd, sector_count_branches]
  refine ⟨hbytes.1, hv, rfl, fun h => by simp [h], fun h => ?_⟩
  have h1 : csd_version csd ≠ 1 := by omega
  simp [h1]

/-- Witness of C12: a card with version bits 1 and a card with version bits 0. -/
theorem ioctl_sector_count_formula_witness :
    (disk_ioctl 0 GET_SECTOR_COUNT (cardCsd csdFull)).1 = RES_OK
      ∧ (disk_ioctl 0 GET_SECTOR_COUNT (cardCsd csdV1)).2.1 = sector_count_v1 csdV1 :=
  ⟨(ioctl_sector_count_formula (cardCsd csdFull) csdFull (by decide) (by decide) (by decide)
      (by decide)).2.2.1,
    (ioctl_sector_count_formula (cardCsd csdV1) csdV1 (by decide) (by decide) (by decide)
      (by decide)).2.2.2.2 (Or.inl (by decide))⟩

/-- Counterexample of C12 as stated: on a CSD with version bits 2 the stored count is 4, the
value of the version-1/MMC branch, while the version-2 formula gives 1024. -/
theorem version_two_takes_v1_formula :
    csd_version csdVersionTwo = 2
      ∧ (disk_ioctl 0 GET_SECTOR_COUNT (cardCsd csdVersionTwo)).2.1 = some 4
      ∧ sector_count_v1 csdVersionTwo = some 4
      ∧ sector_count_v2 csdVersionTwo = 1024
      ∧ spec_v2_count csdVersionTwo = 1024 := by
  decide

/-! ## C13: the version-2 branch at bytes 8 and 9 equal to 0xFF -/

/-- C13. On a CSD with version bits 1 and csd[8] = csd[9] = 0xFF the 16-bit variable cs wraps
to 0: disk_ioctl(GET_SECTOR_COUNT) returns RES_OK and stores 0, while the formula
(csd[9] + (csd[8] << 8) + 1) << 10 over the integers gives 67108864. -/
theorem sector_count_v2_wraps :
    csd_version csdFull = 1
      ∧ (disk_ioctl 0 GET_SECTOR_COUNT (cardCsd csdFull)).1 = RES_OK
      ∧ (disk_ioctl 0 GET_SECTOR_COUNT (cardCsd csdFull)).2.1 = some 0
      ∧ spec_v2_count csdFull = 67108864 := by
  decide

/-! ## C14: the version-1/MMC branch -/

/-- C14. For a CSD read from the card on which GET_SECTOR_COUNT takes the version-1/MMC
branch and whose READ_BL_LEN field (csd[5] & 15) is at least 9: the exponent n fits a
byte, cSize fits 16 bits, the shift n - 9 lies in 0..31, cSize * 2^(n - 9) fits 32 bits,
and the stored sector count is cSize * 2^(n - 9). -/
theorem ioctl_sector_count_v1 (s : Sd) (csd : List Nat)
    (hst : (disk_status 0 s).1 &&& STA_NOINIT = 0)
    (hc : (send_cmd SD_CMD_SEND_CSD 0 (disk_status 0 s).2).1 = 0)
    (hb : (rcvr_datablock 16 (send_cmd SD_CMD_SEND_CSD 0 (disk_status 0 s).2).2).1 = true)
    (hcsd : (rcvr_datablock 16 (send_cmd SD_CMD_SEND_CSD 0 (disk_status 0 s).2).2).2.1 = csd)
    (hver : csd_version csd ≠ 1) (hlen : 9 ≤ csd.getD 5 0 &&& 15) :
    spec_v1_exponent csd < 256 ∧ spec_v1_csize csd < 65536
      ∧ 9 ≤ spec_v1_exponent csd ∧ spec_v1_exponent csd - 9 ≤ 31
      ∧ spec_v1_csize csd * 2 ^ (spec_v1_exponent csd - 9) < 2 ^ 32
      ∧ (disk_ioctl 0 GET_SECTOR_COUNT s).1 = RES_OK
      ∧ (disk_ioctl 0 GET_SECTOR_COUNT s).2.1
          = some (spec_v1_csize csd * 2 ^ (spec_v1_exponent csd - 9)) := by
  have hbytes := csd_bytes _ hb
  rw [hcsd] at hbytes
  obtain ⟨h1, h2, h3, h4, h5, h6⟩ := sector_count_v1_exact csd hbytes.2 hlen
  rw [disk_ioctl_sector_count s hst hc hb, hcsd, sector_count_branches, if_neg hver]
  exact ⟨h1, h2, h3, h4, h5, rfl, h6⟩

/-- Witness of C14: READ_BL_LEN 9, C_SIZE 4095, C_SIZE_MULT 7 give 2097152 sectors. -/
theorem ioctl_sector_count_v1_witness :
    (disk_ioctl 0 GET_SECTOR_COUNT (cardCsd csdV1)).2.1 = some 2097152 := by
  have h := (ioctl_sector_count_v1 (cardCsd csdV1) csdV1 (by decide) (by decide) (by decide)
    (by decide) (by decide) (by decide)).2.2.2.2.2.2
  rw [h]
  decide

/-! ## C15: chip-select is released on every exit path -/

/-- C15. Each of disk_status, disk_initialize, disk_read, disk_write and disk_ioctl, for
every argument and every link behaviour, returns with chip-select high unless it did
nothing on the link at all (log and chip-select untouched); hence an operation that
asserted chip-select has deasserted it on return, and chip-select high is preserved by
every operation. -/
theorem chip_select_released (drv ctrl sector count : Nat) (buff : Nat → Nat) (s : Sd) :
    (Released s (disk_status drv s).2 ∧ Released s ( disk_initialize drv s).2
      ∧ Released s (disk_read drv sector count s).2.2
      ∧ Released s (disk_write drv buff sector count s).2
      ∧ Released s (disk_ioctl drv ctrl s).2.2)
    ∧ (s.cs = true → (disk_status drv s).2.cs = true ∧ ( disk_initialize drv s).2.cs = true
      ∧ (disk_read drv sector count s).2.2.cs = true
      ∧ (disk_write drv buff sector count s).2.cs = true
      ∧ (disk_ioctl drv ctrl s).2.2.cs = true) :=
  ⟨⟨released_disk_status drv s, released_disk_init drv s,
      released_disk_read drv sector count s, released_disk_write drv buff sector count s,
      released_disk_ioctl drv ctrl s⟩,
    fun h => ⟨(released_disk_status drv s).high h, (released_disk_init drv s).high h,
      (released_disk_read drv sector count s).high h,
      (released_disk_write drv buff sector count s).high h,
      (released_disk_ioctl drv ctrl s).high h⟩⟩


/-! ## C16: disk_status called twice -/

/-- C16. Two consecutive calls of disk_status return the same flags, provided the READ_OCR
check of the second call (made only when the first call returned NotInitialized clear) is
answered 0; when the first call returned NotInitialized the second call makes no check
and exchanges nothing. -/
theorem disk_status_twice (drv : Nat) (s : Sd)
    (hlive : (disk_status drv s).1 &&& STA_NOINIT = 0 →
      (send_cmd SD_CMD58 0 (disk_status drv s).2).1 = 0) :
    (disk_status drv (disk_status drv s).2).1 = (disk_status drv s).1
      ∧ ((disk_status drv s).1 &&& STA_NOINIT ≠ 0 →
          (disk_status drv (disk_status drv s).2).2.log = (disk_status drv s).2.log) := by
  by_cases hd : drv = 0
  · subst hd
    have hstat := disk_status_stat 0 s
    have h0 : status0 (disk_status 0 s).2 = (disk_status 0 s).1 := by
      rcases disk_status_zero_val s with h | h
      · rw [h] at hstat ⊢
        exact status0_idem s _ hstat
      · rw [h] at hstat ⊢
        exact status0_idem_noinit s _ hstat
    by_cases h : (disk_status 0 s).1 &&& STA_NOINIT = 0
    · refine ⟨?_, fun h1 => absurd h h1⟩
      rw [disk_status_live _ (by rw [h0]; exact h), if_neg (fun hne => hne (hlive h)), h0]
    · rw [disk_status_idle _ (by rw [h0]; exact h), h0]
      exact ⟨rfl, fun _ => rfl⟩
  · rw [disk_status_nonzero drv _ hd, disk_status_nonzero drv s hd]
    exact ⟨rfl, fun _ => rfl⟩

/-- Witness of C16: a card that answers READ_OCR with 0 twice. -/
theorem disk_status_twice_witness :
    (disk_status 0 (disk_status 0 (startAt (linkOf [(9, 0), (23, 0)]) 0 CT_SD1)).2).1 = 0 :=
  (disk_status_twice 0 (startAt (linkOf [(9, 0), (23, 0)]) 0 CT_SD1)
    (fun _ => by decide)).1.trans (by decide)


/-! ## C17: the liveness check of disk_status -/

/-- C17 (amended). For drive 0 with NotInitialized clear on entry, disk_status calls
send_cmd(CMD58, 0) and no other command, then reads exactly 4 bytes and raises
chip-select; the returned status does not depend on those bytes, and NotInitialized is
set in it iff send_cmd returned a non-zero value. -/
theorem disk_status_liveness (s : Sd) (hs : s.Stat &&& STA_NOINIT = 0) :
    cmdsOf (disk_status 0 s).2.log = cmdsOf s.log ++ [(SD_CMD58, 0)]
      ∧ (disk_status 0 s).2.log = (send_cmd SD_CMD58 0 s).2.log
          ++ (List.range 4).map (fun i => Ev.rd (byteAt (send_cmd SD_CMD58 0 s).2 i))
          ++ [Ev.csHigh]
      ∧ (disk_status 0 s).2.pos = (send_cmd SD_CMD58 0 s).2.pos + 4
      ∧ (disk_status 0 s).2.cs = true
      ∧ (disk_status 0 s).1
          = (if (send_cmd SD_CMD58 0 s).1 ≠ 0 then status0 s ||| STA_NOINIT else status0 s)
      ∧ ((disk_status 0 s).1 &&& STA_NOINIT ≠ 0 ↔ (send_cmd SD_CMD58 0 s).1 ≠ 0) := by
  have h0 : status0 s &&& STA_NOINIT = 0 := by rw [status0_noinit, hs]
  rw [disk_status_live s h0]
  refine ⟨?_, ?_, ?_, rfl, rfl, ?_⟩
  · show cmdsOf (SD_CS_HIGH (rcvr_mmc 4 (send_cmd SD_CMD58 0 s).2).2).log = _
    rw [rcvr_mmc_eq 4 _ (by decide)]
    simp only [SD_CS_HIGH, advance, cmdsOf_append]
    rw [cmds_send_cmd, callsOf_plain SD_CMD58 0 (by decide)]
    simp [cmdsOf]
  · show (SD_CS_HIGH (rcvr_mmc 4 (send_cmd SD_CMD58 0 s).2).2).log = _
    rw [rcvr_mmc_eq 4 _ (by decide)]
    rfl
  · show (SD_CS_HIGH (rcvr_mmc 4 (send_cmd SD_CMD58 0 s).2).2).pos = _
    rw [rcvr_mmc_eq 4 _ (by decide)]
    rfl
  · by_cases h : (send_cmd SD_CMD58 0 s).1 = 0
    · simp [h, h0]
    · simp only [ne_eq, h, not_false_eq_true, if_true, iff_true]
      exact noinit_set _


/-- Witness of C17: READ_OCR answered 0, and READ_OCR answered 1. -/
theorem disk_status_liveness_witness :
    (disk_status 0 cardLive).1 &&& STA_NOINIT = 0
      ∧ (disk_status 0 cardIdleAgain).1 &&& STA_NOINIT ≠ 0 :=
  ⟨Decidable.of_not_not (fun h => absurd
      ((disk_status_liveness cardLive (by decide)).2.2.2.2.2.1 h) (by decide)),
    (disk_status_liveness cardIdleAgain (by decide)).2.2.2.2.2.2 (by decide)⟩

/-- Counterexample of C17 as stated: READ_OCR is answered 1, a response with the high bit
clear, and NotInitialized is set all the same. -/
theorem idle_answer_sets_noinit :
    (send_cmd SD_CMD58 0 cardIdleAgain).1 = 1
      ∧ (send_cmd SD_CMD58 0 cardIdleAgain).1 &&& 0x80 = 0
      ∧ (disk_status 0 cardIdleAgain).1 &&& STA_NOINIT ≠ 0 := by
  decide

/-! ## C18: a non-zero drive index -/

/-- C18. For a non-zero drive index disk_status returns NoMedia|NotInitialized, only stores
that value in Stat (no byte is exchanged, nothing is logged), and disk_read, disk_write
and disk_ioctl on drive 0 called right after return RES_NOTRDY. -/
theorem disk_status_other_drive (drv : Nat) (s : Sd) (hd : drv ≠ 0) :
    (disk_status drv s).1 = STA_NODISK ||| STA_NOINIT
      ∧ (disk_status drv s).2 = { s with Stat := STA_NODISK ||| STA_NOINIT }
      ∧ (disk_status drv s).2.log = s.log ∧ (disk_status drv s).2.pos = s.pos
      ∧ (∀ sector count, (disk_read 0 sector count (disk_status drv s).2).1 = RES_NOTRDY)
      ∧ (∀ buff sector count,
          (disk_write 0 buff sector count (disk_status drv s).2).1 = RES_NOTRDY)
      ∧ (∀ ctrl, (disk_ioctl 0 ctrl (disk_status drv s).2).1 = RES_NOTRDY) := by
  rw [disk_status_nonzero drv s hd]
  have h1 : status0 { s with Stat := STA_NODISK ||| STA_NOINIT } &&& STA_NOINIT ≠ 0 := by
    simp only [status0]
    decide
  have h2 := disk_status_idle _ h1
  have h3 : (disk_status 0 { s with Stat := STA_NODISK ||| STA_NOINIT }).1 &&& STA_NOINIT ≠ 0 := by
    rw [h2]; exact h1
  refine ⟨rfl, rfl, rfl, rfl, fun sector count => ?_, fun buff sector count => ?_,
    fun ctrl => ?_⟩
  · simp only [disk_read]
    rw [if_pos h3]
  · simp only [disk_write]
    rw [if_pos h3]
  · simp only [disk_ioctl]
    rw [if_pos h3]

/-- Witness of C18: an initialised card is ready for disk_read until disk_status(1) is
called. -/
theorem disk_status_other_drive_witness :
    (disk_read 0 0 1 cardLive).1 = RES_ERROR
      ∧ (disk_read 0 0 1 (disk_status 1 cardLive).2).1 = RES_NOTRDY :=
  ⟨by decide, (disk_status_other_drive 1 cardLive (by decide)).2.2.2.2.1 0 1⟩

/-! ## C19: durations of the bounded waits -/

/-- C19. The call dly_us(100) requests delay_ms(1) and dly_us(1000) requests delay_ms(10):
on a link that never returns 0xFF wait_ready gives up after 5000 reads having requested
5000 ms; on a link that always returns 0xFF rcvr_datablock gives up after 1000 reads
having requested 1000 ms; an idle-exit loop of the initialisation whose 1000 attempts all
fail requests 10000 ms. -/
theorem waits_ten_times_longer :
    dly_us 100 cardStuck = delay_ms 1 cardStuck
      ∧ dly_us 1000 cardStuck = delay_ms 10 cardStuck
      ∧ ((wait_ready cardStuck).1 = false
        ∧ readsOf (wait_ready cardStuck).2.log = 5000
        ∧ delayOf (wait_ready cardStuck).2.log = 5000)
      ∧ ((rcvr_datablock 512 cardFloat).1 = false
        ∧ readsOf (rcvr_datablock 512 cardFloat).2.2.log = 1000
        ∧ delayOf (rcvr_datablock 512 cardFloat).2.2.log = 1000)
      ∧ ((idle_loop SD_CMD_SEND_OP_COND 0 1000 cardFloat).1 = 0
        ∧ cmdsOf (idle_loop SD_CMD_SEND_OP_COND 0 1000 cardFloat).2.log
            = times 1000 [(SD_CMD_SEND_OP_COND, 0)]
        ∧ delayOf (idle_loop SD_CMD_SEND_OP_COND 0 1000 cardFloat).2.log = 10000) := by
  have hw := wait_ready_polls cardStuck (fun j _ => cardStuck_busy j)
  have hr := rcvr_datablock_polls 512 cardFloat (fun j _ => rfl)
  have hi := idle_loop_floating SD_CMD_SEND_OP_COND 0 1000 cardFloat cardFloat_floating
    (by decide)
  have z1 : readsOf cardStuck.log = 0 := rfl
  have z2 : delayOf cardStuck.log = 0 := rfl
  have z3 : readsOf cardFloat.log = 0 := rfl
  have z4 : delayOf cardFloat.log = 0 := rfl
  have z5 : cmdsOf cardFloat.log = [] := rfl
  rw [z1, z2, Nat.zero_add] at hw
  rw [z3, z4, Nat.zero_add] at hr
  rw [z4, z5, Nat.zero_add, List.nil_append] at hi
  exact ⟨rfl, rfl, hw, hr, hi⟩

/-! ## C20: the pre-erase hint of a multiple block write -/

/-- C20. For an initialised drive 0 and a non-zero count, the calls of send_cmd made by
disk_write are: the READ_OCR of the status check; then, exactly when count is at least 2
and CardType contains SD-v1 or SD-v2, the call of ACMD23 with argument count (with its
nested APP_CMD); then the write command.  So the hint precedes WRITE_MULTIPLE_BLOCK on SD
cards only, and is never made for an MMC card or for count = 1. -/
theorem disk_write_pre_erase (buff : Nat → Nat) (sector count : Nat) (s : Sd)
    (hst : (disk_status 0 s).1 &&& STA_NOINIT = 0) (hcount : count ≠ 0) :
    cmdsOf (disk_write 0 buff sector count s).2.log = cmdsOf s.log ++ [(SD_CMD58, 0)]
      ++ (if 2 ≤ count ∧ (s.CardType &&& CT_SD1 ≠ 0 ∨ s.CardType &&& CT_SD2 ≠ 0)
          then [(SD_ACMD23, count), (SD_CMD55, 0)] else [])
      ++ [(if count = 1 then SD_CMD_WRITE_SINGLE_BLOCK else SD_CMD_WRITE_MULT_BLOCK,
          rw_address s.CardType sector)] := by
  have hc : (count ≠ 1 ∧ s.CardType &&& CT_SDC ≠ 0)
      ↔ (2 ≤ count ∧ (s.CardType &&& CT_SD1 ≠ 0 ∨ s.CardType &&& CT_SD2 ≠ 0)) := by
    rw [sdc_iff]
    constructor
    · rintro ⟨h1, h2⟩
      exact ⟨by omega, h2⟩
    · rintro ⟨h1, h2⟩
      exact ⟨by omega, h2⟩
  rw [disk_write_calls buff sector count s hst hcount, cmds_disk_status_ready s hst,
    (keeps_disk_status 0 s).2]
  simp only [hc]

/-- Witness of C20: a three-block write on an SD version 2 card and on an MMC card. -/
theorem disk_write_pre_erase_witness :
    cmdsOf (disk_write 0 (fun _ => 0) 7 3 cardRejectSecond).2.log
        = [(SD_CMD58, 0), (SD_ACMD23, 3), (SD_CMD55, 0), (SD_CMD_WRITE_MULT_BLOCK, 7)]
      ∧ cmdsOf (disk_write 0 (fun _ => 0) 7 3 cardBusy).2.log
        = [(SD_CMD58, 0), (SD_CMD_WRITE_MULT_BLOCK, 3584)] :=
  ⟨(disk_write_pre_erase (fun _ => 0) 7 3 cardRejectSecond (by decide) (by decide)).trans
      (by decide),
    (disk_write_pre_erase (fun _ => 0) 7 3 cardBusy (by decide) (by decide)).trans
      (by decide)⟩

/-! ## C21: the response poll -/

/-- C21. For an opcode without the application-command marker and a successful select, let t
be the state after the frame (and after the one stuff byte read for STOP_TRANSMISSION).
Then send_cmd reads n bytes from t on, 1 ≤ n ≤ 10, all before the last with bit 7 set, the
last with bit 7 clear unless n = 10, and returns the last byte read.  The returned value has
bit 7 set iff all 10 polled bytes have it set, and is then the 10th polled byte. -/
theorem send_cmd_response (c a : Nat) (s t : Sd) (hc : c &&& 0x80 = 0)
    (hsel : (select (deselect s)).1 = true)
    (ht : t = after_frame c a { s with log := s.log ++ [Ev.cmd c a] }) :
    writtenOf t.log = writtenOf s.log ++ cmdFrame c a
      ∧ t.pos = (xmit_frame (cmdFrame c a)
            (select (deselect { s with log := s.log ++ [Ev.cmd c a] })).2).pos
          + (if c = SD_CMD_STOP_TRANSMISSION then 1 else 0)
      ∧ (∃ n, 1 ≤ n ∧ n ≤ 10
          ∧ send_cmd c a s = (byteAt t (n - 1),
              advance t n ((List.range n).map (fun j => Ev.rd (byteAt t j))))
          ∧ (∀ j < n - 1, byteAt t j &&& 0x80 ≠ 0)
          ∧ (n < 10 → byteAt t (n - 1) &&& 0x80 = 0))
      ∧ ((send_cmd c a s).1 &&& 0x80 ≠ 0 ↔ ∀ j < 10, byteAt t j &&& 0x80 ≠ 0)
      ∧ ((send_cmd c a s).1 &&& 0x80 ≠ 0 → (send_cmd c a s).1 = byteAt t 9) := by
  have hsel0 : (select (deselect { s with log := s.log ++ [Ev.cmd c a] })).1 = true :=
    (select_fst_congr s { s with log := s.log ++ [Ev.cmd c a] } rfl rfl).trans hsel
  obtain ⟨n, h1, h2, h3, h4, h5⟩ := send_cmd_frame_response c a _ hsel0
  rw [← send_cmd_plain c a s hc, ← ht] at h3
  rw [← ht] at h4 h5
  have hw : writtenOf t.log = writtenOf s.log ++ cmdFrame c a := by
    rw [ht, written_after_frame]
    simp [writtenOf_append, writtenOf]
  have hval : (send_cmd c a s).1 = byteAt t (n - 1) := by rw [h3]
  refine ⟨hw, by rw [ht, pos_after_frame], ⟨n, h1, h2, h3, h4, h5⟩, ⟨?_, ?_⟩, ?_⟩
  · intro hhigh j hj
    have hn : n = 10 := by
      by_contra hne
      exact hhigh (by rw [hval]; exact h5 (by omega))
    by_cases hj9 : j = 9
    · rw [hj9, show 9 = n - 1 by omega, ← hval]
      exact hhigh
    · exact h4 j (by omega)
  · intro hall
    rw [hval]
    exact hall (n - 1) (by omega)
  · intro hhigh
    have hn : n = 10 := by
      by_contra hne
      exact hhigh (by rw [hval]; exact h5 (by omega))
    rw [hval, hn]

/-- Witness of C21: the response 0 arrives at the third poll. -/
theorem send_cmd_response_witness :
    (send_cmd SD_CMD_READ_SINGLE_BLOCK 0 cardSlowAnswer).1 = 0
      ∧ (send_cmd SD_CMD_READ_SINGLE_BLOCK 0 cardSlowAnswer).2.pos = 12
      ∧ ¬ ∀ j < 10, byteAt (after_frame SD_CMD_READ_SINGLE_BLOCK 0
          { cardSlowAnswer with
            log := cardSlowAnswer.log ++ [Ev.cmd SD_CMD_READ_SINGLE_BLOCK 0] }) j
            &&& 0x80 ≠ 0 :=
  ⟨by decide, by decide, fun h =>
    absurd ((send_cmd_response SD_CMD_READ_SINGLE_BLOCK 0 cardSlowAnswer _ (by decide)
      (by decide) rfl).2.2.2.1.2 h) (by decide)⟩

/-! ## C22: select timeout in send_cmd -/

/-- C22. For every opcode and argument, when none of the 5000 bytes polled by the select wait
(they follow the deselect clock and the select clock) is 0xFF, the select fails and
send_cmd returns 0xFF, writes no byte to the link and leaves chip-select high. -/
theorem send_cmd_select_timeout (c a : Nat) (s : Sd)
    (h : ∀ j < 5000, byteAt s (j + 2) ≠ 0xFF) :
    (select (deselect s)).1 = false
      ∧ (send_cmd c a s).1 = 0xFF
      ∧ writtenOf (send_cmd c a s).2.log = writtenOf s.log
      ∧ (send_cmd c a s).2.cs = true := by
  have hs := select_timeout s h
  have hsel : ∀ l, (select (deselect { s with log := l })).1 = false :=
    fun l => (select_fst_congr s { s with log := l } rfl rfl).trans hs
  refine ⟨hs, ?_⟩
  by_cases hm : c &&& 0x80 ≠ 0
  · rw [send_cmd_app c a s hm]
    obtain ⟨h1, h2, h3⟩ := send_cmd_frame_timeout SD_CMD55 0
      { s with log := s.log ++ [Ev.cmd c a] ++ [Ev.cmd SD_CMD55 0] } (hsel _)
    rw [if_pos (by rw [h1]; decide)]
    refine ⟨h1, ?_, h2⟩
    rw [h3]
    simp [writtenOf_append, writtenOf]
  · rw [send_cmd_plain c a s (by simpa using hm)]
    obtain ⟨h1, h2, h3⟩ := send_cmd_frame_timeout c a
      { s with log := s.log ++ [Ev.cmd c a] } (hsel _)
    refine ⟨h1, ?_, h2⟩
    rw [h3]
    simp [writtenOf_append, writtenOf]

/-- Witness of C22: a card that holds the line at 0. -/
theorem send_cmd_select_timeout_witness :
    (send_cmd SD_CMD_READ_SINGLE_BLOCK 0 cardStuck).1 = 0xFF
      ∧ writtenOf (send_cmd SD_CMD_READ_SINGLE_BLOCK 0 cardStuck).2.log = [] :=
  ⟨(send_cmd_select_timeout SD_CMD_READ_SINGLE_BLOCK 0 cardStuck
      (fun j _ => cardStuck_busy (j + 2))).2.1,
    (send_cmd_select_timeout SD_CMD_READ_SINGLE_BLOCK 0 cardStuck
      (fun j _ => cardStuck_busy (j + 2))).2.2.1⟩

/-! ## C23: application commands -/

/-- C23. For an opcode with the marker 0x80, send_cmd first makes the call
send_cmd(SD_CMD55, 0), whose opcode has no marker and which therefore does not nest
further; with r its result, send_cmd returns r when r > 1, and then only the APP_CMD frame
(if any) was written; when r ≤ 1 it runs the frame code with the opcode stripped of the
marker, whose frame, written if the select succeeds, starts with (opcode & 0x7F) | 0x40.
The calls recorded are exactly the outer one and the nested APP_CMD. -/
theorem send_cmd_app_command (c a : Nat) (s : Sd) (r : Nat × Sd) (hc : c &&& 0x80 ≠ 0)
    (hr : r = send_cmd SD_CMD55 0 { s with log := s.log ++ [Ev.cmd c a] }) :
    SD_CMD55 &&& 0x80 = 0
      ∧ r = send_cmd_frame SD_CMD55 0
          { s with log := s.log ++ [Ev.cmd c a] ++ [Ev.cmd SD_CMD55 0] }
      ∧ send_cmd c a s = (if r.1 > 1 then r else send_cmd_frame (c &&& 0x7F) a r.2)
      ∧ cmdsOf (send_cmd c a s).2.log = cmdsOf s.log ++ [(c, a), (SD_CMD55, 0)]
      ∧ (r.1 > 1 → send_cmd c a s = r
          ∧ writtenOf (send_cmd c a s).2.log = writtenOf s.log
              ++ (if (select (deselect s)).1 then cmdFrame SD_CMD55 0 else []))
      ∧ (r.1 ≤ 1 → send_cmd c a s = send_cmd_frame (c &&& 0x7F) a r.2
          ∧ writtenOf (send_cmd c a s).2.log = writtenOf s.log ++ cmdFrame SD_CMD55 0
              ++ (if (select (deselect r.2)).1 then cmdFrame (c &&& 0x7F) a else []))
      ∧ (cmdFrame (c &&& 0x7F) a).head? = some ((c &&& 0x7F) ||| 0x40) := by
  have h55 : r = send_cmd_frame SD_CMD55 0
      { s with log := s.log ++ [Ev.cmd c a] ++ [Ev.cmd SD_CMD55 0] } := by
    rw [hr, send_cmd_plain SD_CMD55 0 _ (by decide)]
  have hcmds : cmdsOf (send_cmd c a s).2.log = cmdsOf s.log ++ [(c, a), (SD_CMD55, 0)] := by
    rw [cmds_send_cmd]
    simp [callsOf, hc]
  have heq : send_cmd c a s = (if r.1 > 1 then r else send_cmd_frame (c &&& 0x7F) a r.2) := by
    rw [send_cmd_app c a s hc, ← h55]
  have hwr : writtenOf r.2.log = writtenOf s.log
      ++ (if (select (deselect s)).1 then cmdFrame SD_CMD55 0 else []) := by
    rw [h55, written_send_cmd_frame,
      select_fst_congr s { s with log := s.log ++ [Ev.cmd c a] ++ [Ev.cmd SD_CMD55 0] }
        rfl rfl]
    simp [writtenOf_append, writtenOf]
  refine ⟨by decide, h55, heq, hcmds, fun hgt => ?_, fun hle => ?_, cmdFrame_head c a⟩
  · have e : send_cmd c a s = r := by rw [heq, if_pos hgt]
    exact ⟨e, by rw [e, hwr]⟩
  · have e : send_cmd c a s = send_cmd_frame (c &&& 0x7F) a r.2 := by
      rw [heq, if_neg (by omega)]
    have hsel : (select (deselect s)).1 = true := by
      have h1 : (send_cmd_frame SD_CMD55 0
          { s with log := s.log ++ [Ev.cmd c a] ++ [Ev.cmd SD_CMD55 0] }).1 ≤ 1 := by
        rw [← h55]; exact hle
      exact (select_fst_congr s
        { s with log := s.log ++ [Ev.cmd c a] ++ [Ev.cmd SD_CMD55 0] } rfl rfl).symm.trans
        (send_cmd_frame_answered _ _ _ h1)
    refine ⟨e, ?_⟩
    rw [e, written_send_cmd_frame, hwr, if_pos hsel]

/-- Witness of C23: ACMD41 on a card that answers APP_CMD with 1. -/
theorem send_cmd_app_command_witness :
    writtenOf (send_cmd SD_ACMD41 0 cardAcmd).2.log
      = [0x77, 0, 0, 0, 0, 0x01, 0x69, 0, 0, 0, 0, 0x01] :=
  ((send_cmd_app_command SD_ACMD41 0 cardAcmd _ (by decide) rfl).2.2.2.2.2.1
    (by decide)).2.trans (by decide)

/-! ## C24: the payload of rcvr_datablock -/

/-- C24 (amended). For every non-zero byteCount and every stream on which rcvr_datablock
succeeds, the start token is the k-th polled byte for some k < 1000, the bytes stored are
exactly the byteCount bytes that follow it, in link order, and after them exactly 2 more
bytes are read: k + 1 + byteCount + 2 exchanges in all, and nothing else. -/
theorem rcvr_datablock_payload (btr : Nat) (s : Sd) (hbtr : btr ≠ 0)
    (hok : (rcvr_datablock btr s).1 = true) :
    ∃ k, k < 1000 ∧ (∀ j < k, byteAt s j = 0xFF) ∧ byteAt s k = 0xFE
      ∧ (rcvr_datablock btr s).2.1 = (List.range btr).map (fun i => byteAt s (k + 1 + i))
      ∧ (rcvr_datablock btr s).2.2 = advance s (k + 1 + btr + 2)
          (times k [Ev.rd 0xFF, Ev.delay 1] ++ [Ev.rd 0xFE]
            ++ (List.range btr).map (fun i => Ev.rd (byteAt s (k + 1 + i)))
            ++ [Ev.rd (byteAt s (k + 1 + btr)), Ev.rd (byteAt s (k + 1 + btr + 1))]) := by
  obtain ⟨k, hk, hff, hfe⟩ := rcvr_datablock_ok_token btr s hok
  refine ⟨k, hk, hff, hfe, ?_, ?_⟩
  · rw [rcvr_datablock_found btr k s hk hff hfe btr (by rw [if_neg hbtr])]
  · rw [rcvr_datablock_found btr k s hk hff hfe btr (by rw [if_neg hbtr])]

/-- Witness of C24: three bytes after a start token sent at once. -/
theorem rcvr_datablock_payload_witness :
    ∃ k, k < 1000 ∧ (∀ j < k, byteAt cardToken j = 0xFF) ∧ byteAt cardToken k = 0xFE
      ∧ (rcvr_datablock 3 cardToken).2.1
          = (List.range 3).map (fun i => byteAt cardToken (k + 1 + i))
      ∧ (rcvr_datablock 3 cardToken).2.2 = advance cardToken (k + 1 + 3 + 2)
          (times k [Ev.rd 0xFF, Ev.delay 1] ++ [Ev.rd 0xFE]
            ++ (List.range 3).map (fun i => Ev.rd (byteAt cardToken (k + 1 + i)))
            ++ [Ev.rd (byteAt cardToken (k + 1 + 3)),
              Ev.rd (byteAt cardToken (k + 1 + 3 + 1))]) :=
  rcvr_datablock_payload 3 cardToken (by decide) (by decide)

/-- Counterexample of C24 as stated: with byteCount 0 the do-while of rcvr_mmc runs 2^32
times, so a successful rcvr_datablock stores 2^32 bytes, not none. -/
theorem rcvr_datablock_zero_count :
    (rcvr_datablock 0 cardToken).1 = true
      ∧ (rcvr_datablock 0 cardToken).2.1.length = 2 ^ 32
      ∧ (rcvr_datablock 0 cardToken).2.2.pos = 1 + 2 ^ 32 + 2 := by
  have h := rcvr_datablock_found 0 0 cardToken (by decide) (fun j hj => absurd hj (by omega))
    rfl (2 ^ 32) rfl
  have h1 : (rcvr_datablock 0 cardToken).1 = true := by rw [h]
  have h2 : (rcvr_datablock 0 cardToken).2.1.length
      = ((List.range (2 ^ 32)).map (fun i => byteAt cardToken (0 + 1 + i))).length := by
    rw [h]
  have h3 : (rcvr_datablock 0 cardToken).2.2.pos = cardToken.pos + (0 + 1 + 2 ^ 32 + 2) := by
    rw [h]
    rfl
  refine ⟨h1, ?_, ?_⟩
  · rw [h2, List.length_map, List.length_range]
  · rw [h3, show cardToken.pos = 0 from rfl]
    omega

/-! ## C25: the stop-transmission token -/

/-- C25. With the token 0xFD and a successful ready wait, xmit_datablock makes one exchange,
the write of 0xFD, and returns success: no payload, no CRC, no read, and no dependence on
what the card returns.  In disk_write with count n ≥ 2, when WRITE_MULTIPLE_BLOCK is
answered 0, all n chunks are accepted and the card is not ready within the wait of the
close call, that call fails and disk_write returns RES_ERROR. -/
theorem xmit_stop_token (buff : Nat → Nat) (sector n : Nat) (s σ : Sd) (c : Nat × Sd)
    (hst : (disk_status 0 s).1 &&& STA_NOINIT = 0) (hn : 2 ≤ n)
    (hσ : σ = if (disk_status 0 s).2.CardType &&& CT_SDC ≠ 0
      then (send_cmd SD_ACMD23 n (disk_status 0 s).2).2 else (disk_status 0 s).2)
    (hc : c = send_cmd SD_CMD_WRITE_MULT_BLOCK
      (rw_address (disk_status 0 s).2.CardType sector) σ)
    (hc0 : c.1 = 0)
    (hacc : ∀ j < n,
      (xmit_datablock buff (512 * j) 0xFC (chunk_state buff 0 j c.2)).1 = true)
    (hclose : (wait_ready (chunk_state buff 0 n c.2)).1 = false) :
    (∀ (b : Nat → Nat) (p : Nat) (t : Sd), (wait_ready t).1 = true →
        xmit_datablock b p 0xFD t = (true, advance (wait_ready t).2 1 [Ev.wr 0xFD]))
      ∧ write_blocks buff 0 n c.2 = (0, chunk_state buff 0 n c.2)
      ∧ (xmit_datablock buff 0 0xFD (chunk_state buff 0 n c.2)).1 = false
      ∧ (disk_write 0 buff sector n s).1 = RES_ERROR := by
  have h := disk_write_close_fails buff sector n s σ c hst hn hσ hc hc0 hacc hclose
  refine ⟨fun b p t ht => xmit_stop_exact b p t ht, h.1, ?_, ?_⟩
  · rw [xmit_not_ready buff 0 0xFD _ hclose]
  · rw [h.2]

set_option maxRecDepth 100000 in
/-- Witness of C25: two accepted chunks, then a card that stays busy. -/
theorem xmit_stop_token_witness :
    (disk_write 0 (fun _ => 0) 0 2 cardCloseBusy).1 = RES_ERROR :=
  (xmit_stop_token (fun _ => 0) 0 2 cardCloseBusy _ _ (by decide) (by decide) rfl rfl
    (by decide) (by decide) cardCloseBusy_not_ready).2.2.2

/-! ## C26: NotInitialized clear implies a recorded card type -/

/-- C26. From an initial state with Stat = STA_NOINIT and CardType = 0, after any sequence of
calls of the five operations with any arguments on any stream: if NotInitialized is clear
in Stat then CardType is non-zero.  For drive 0 disk_initialize stores the status it
returns, in which NotInitialized is clear iff the CardType it recorded is non-zero; and no
other operation clears NotInitialized. -/
theorem session_invariant (ops : List Op) (s : Sd) (hS : s.Stat = STA_NOINIT)
    (_hC : s.CardType = 0) :
    ((runs ops s).Stat &&& STA_NOINIT = 0 → (runs ops s).CardType ≠ 0)
      ∧ (∀ t : Sd, ( disk_initialize 0 t).2.Stat = ( disk_initialize 0 t).1
          ∧ (( disk_initialize 0 t).2.Stat &&& STA_NOINIT = 0
              ↔ ( disk_initialize 0 t).2.CardType ≠ 0))
      ∧ (∀ (t : Sd) (op : Op), (∀ drv, op ≠ Op.init drv) → t.Stat &&& STA_NOINIT ≠ 0 →
          (run op t).Stat &&& STA_NOINIT ≠ 0) := by
  refine ⟨runs_invariant ops s (fun h => ?_), disk_initialize_stat,
    fun t op hop h => run_keeps_noinit op t hop h⟩
  rw [hS] at h
  exact absurd h (by decide)

set_option maxRecDepth 100000 in
/-- Witness of C26: a status call on drive 1 and an initialisation of a version 2 card. -/
theorem session_invariant_witness :
    (runs [Op.status 1, Op.init 0] cardV2).Stat &&& STA_NOINIT = 0
      ∧ (runs [Op.status 1, Op.init 0] cardV2).CardType ≠ 0 :=
  ⟨by decide, (session_invariant [Op.status 1, Op.init 0] cardV2 rfl rfl).1
    (by decide)⟩

end SpiSd
